import Mathlib

/-!
# SnowFight (Winter Edition): the authoritative server, `backend/server.js`

A shallow embedding of the server's data model (`CONFIG`, `gameState`,
`ServerPlayer`, `ServerSnowball`), of its handlers (`connection`, `input`,
`disconnect`, the thaw callback) and of the 60 TPS server loop, followed by
theorems about them.

Modelling conventions.

* JavaScript numbers are IEEE doubles; they are embedded as real numbers, so
  `Math.hypot`, `Math.atan2`, `Math.cos` and `Math.sin` are the real functions.
  Integer-valued counters (`chargeLevel`, `gatherProgress`, `dashTimer`,
  `dashCooldownTimer`) are natural numbers: the code only ever decrements them
  when they are positive.
* `gameState.players` is a JS object keyed by socket id and iterated with
  `for ... in`, that is in insertion order; it is embedded as a list of players
  in insertion order, a player's key being its `id` (line 197 stores every
  player under `socket.id`, which is also the `id` the constructor records).
* `io.emit` calls are collected, in order, in a list of `Event`s.
* `setTimeout(..., 5000)` registers a pending thaw; pending thaws are the
  `timers` of a `Server`, and a firing is a transition of its own.
* `Math.random()` draws are explicit arguments.
* Input messages are well typed: numbers for `moveX`, `moveY`, `angle`, booleans
  for the four flags, so that truthiness is the boolean itself.

The definitions compute with real numbers (comparisons, `sqrt`, `cos`, `sin`,
`arg`), hence the `noncomputable section`; on concrete states they are
evaluated inside proofs, by `simp` and `norm_num`.
-/

namespace SnowFight

noncomputable section

set_option genInjectivity false
set_option genSizeOfSpec false
set_option genSizeOf false

/-! ## Numbers -/

/-- `Math.hypot(a, b)`. -/
@[reducible] def hypot (a b : ℝ) : ℝ := Real.sqrt (a ^ 2 + b ^ 2)

/-- `Math.atan2(y, x)`: the argument of `x + iy`, in `(-π, π]`, and `0` at the origin. -/
@[reducible] def atan2 (y x : ℝ) : ℝ := Complex.arg ⟨x, y⟩

/-! ## `CONFIG` (lines 11-23) -/

namespace CONFIG

@[reducible] def worldWidth : ℝ := 3000
@[reducible] def worldHeight : ℝ := 2000
@[reducible] def friction : ℝ := 0.92
@[reducible] def acceleration : ℝ := 0.8
@[reducible] def maxSpeed : ℝ := 4.5
@[reducible] def dashSpeed : ℝ := 12
@[reducible] def dashDuration : ℕ := 10
@[reducible] def dashCooldown : ℕ := 90
@[reducible] def gatherTime : ℕ := 45
@[reducible] def ballSpeed : ℝ := 12
@[reducible] def snowballLife : ℕ := 100

end CONFIG

/-! ## Data model -/

/-- The two team names, `'blue'` and `'red'`. -/
inductive Team
  | blue
  | red
  deriving DecidableEq, Repr

/-- The `type` of an obstacle (line 40). -/
inductive ObstacleType
  | tree
  | rock
  | snowman
  deriving DecidableEq, Repr

/-- An entry of `gameState.obstacles` (lines 36-41). -/
structure Obstacle where
  x : ℝ
  y : ℝ
  radius : ℝ
  type : ObstacleType

/-- The obstacle pushed by one round of the map generation loop (lines 35-41);
`type`, `rx`, `ry` are the three `Math.random()` draws, in order. -/
@[reducible] def generateObstacle (type rx ry : ℝ) : Obstacle :=
  { x := rx * CONFIG.worldWidth
    y := ry * CONFIG.worldHeight
    radius := if type > 0.6 then 30 else 20
    type := if type > 0.6 then ObstacleType.tree
            else if type > 0.3 then ObstacleType.rock else ObstacleType.snowman }

/-- The record `this.inputs` of a player (line 75). -/
structure Inputs where
  moveX : ℝ
  moveY : ℝ
  angle : ℝ
  dash : Bool
  gather : Bool

/-- The payload `data` of an `input` message (lines 208-233). -/
structure InputData where
  moveX : ℝ
  moveY : ℝ
  angle : ℝ
  dash : Bool
  gather : Bool
  throwStart : Bool
  throwRelease : Bool

/-- The fields of `class ServerPlayer` (lines 46-76). -/
structure ServerPlayer where
  id : String
  team : Team
  radius : ℝ
  skinColor : String
  hatType : ℕ
  x : ℝ
  y : ℝ
  vx : ℝ
  vy : ℝ
  isFrozen : Bool
  hasBall : Bool
  chargeLevel : ℕ
  gatherProgress : ℕ
  dashTimer : ℕ
  dashCooldownTimer : ℕ
  inputs : Inputs

/-- The fields of `class ServerSnowball` (lines 159-170). -/
structure ServerSnowball where
  x : ℝ
  y : ℝ
  vx : ℝ
  vy : ℝ
  z : ℝ
  vz : ℝ
  ownerId : String
  team : Team
  active : Bool
  radius : ℝ

/-- The object `gameState` (lines 26-30). -/
structure GameState where
  players : List ServerPlayer
  snowballs : List ServerSnowball
  obstacles : List Obstacle

/-- What the server sends with `io.emit`: the `effect` messages of type `dash`,
`reload`, `throw` and `obs_hit`, the `hit` message, and the `state` broadcast. -/
inductive Event
  | dash (x y : ℝ) (id : String)
  | reload (x y : ℝ) (id : String)
  | throw (x y : ℝ)
  | obsHit (x y : ℝ)
  | hit (x y : ℝ) (id : String)
  | state (players : List ServerPlayer) (snowballs : List ServerSnowball)

/-- The server: `gameState` together with the ids of the thaw callbacks that
`setTimeout` holds and has not fired yet (lines 266-268), oldest first. -/
structure Server where
  gameState : GameState
  timers : List String

/-! ## `ServerPlayer` -/

/-- The palette of line 52. -/
@[reducible] def skinColors : List String := ["#ffdbac", "#f1c27d", "#e0ac69", "#8d5524", "#c68642"]

/-- `new ServerPlayer(id, team)` (lines 46-76); `rSkin`, `rHat`, `rY` are the three
`Math.random()` draws, in order. -/
@[reducible] def ServerPlayer.new (id : String) (team : Team) (rSkin rHat rY : ℝ) : ServerPlayer :=
  { id := id
    team := team
    radius := 14
    skinColor := skinColors.getD ⌊rSkin * 5⌋₊ ""
    hatType := ⌊rHat * 4⌋₊
    x := if team = Team.blue then 200 else CONFIG.worldWidth - 200
    y := rY * (CONFIG.worldHeight - 200) + 100
    vx := 0
    vy := 0
    isFrozen := false
    hasBall := true
    chargeLevel := 0
    gatherProgress := 0
    dashTimer := 0
    dashCooldownTimer := 0
    inputs := { moveX := 0, moveY := 0, angle := 0, dash := false, gather := false } }

/-- Step 1 of `update`, "Handle Dash" (lines 82-92). -/
def ServerPlayer.handleDash (p : ServerPlayer) : ServerPlayer × List Event :=
  let p1 : ServerPlayer :=
    if p.dashCooldownTimer > 0 then { p with dashCooldownTimer := p.dashCooldownTimer - 1 } else p
  if p1.inputs.dash = true ∧ p1.dashCooldownTimer = 0 ∧
      (p1.inputs.moveX ≠ 0 ∨ p1.inputs.moveY ≠ 0) then
    let angle := atan2 p1.inputs.moveY p1.inputs.moveX
    ({ p1 with
        dashTimer := CONFIG.dashDuration
        dashCooldownTimer := CONFIG.dashCooldown
        vx := Real.cos angle * CONFIG.dashSpeed
        vy := Real.sin angle * CONFIG.dashSpeed },
      [Event.dash p1.x p1.y p1.id])
  else (p1, [])

/-- The gather branch of normal movement (lines 101-114): the player and the
acceleration it moves with, and the `reload` effect when the ball is regained. -/
@[reducible] def ServerPlayer.handleGather (p : ServerPlayer) : ServerPlayer × ℝ × List Event :=
  if p.inputs.gather = true ∧ p.hasBall = false then
    let p1 : ServerPlayer :=
      { p with vx := p.vx * 0.8, vy := p.vy * 0.8, gatherProgress := p.gatherProgress + 1 }
    if p1.gatherProgress ≥ CONFIG.gatherTime then
      ({ p1 with hasBall := true, gatherProgress := 0 }, CONFIG.acceleration * 0.5,
        [Event.reload p1.x p1.y p1.id])
    else (p1, CONFIG.acceleration * 0.5, [])
  else ({ p with gatherProgress := 0 }, CONFIG.acceleration, [])

/-- The speed cap of lines 122-126. -/
@[reducible] def ServerPlayer.capSpeed (p : ServerPlayer) : ServerPlayer :=
  let speed := hypot p.vx p.vy
  if speed > CONFIG.maxSpeed then
    { p with vx := (p.vx / speed) * CONFIG.maxSpeed, vy := (p.vy / speed) * CONFIG.maxSpeed }
  else p

/-- Step 2 of `update`, "Handle Movement" (lines 95-127). -/
def ServerPlayer.handleMovement (p : ServerPlayer) : ServerPlayer × List Event :=
  if p.dashTimer > 0 then ({ p with dashTimer := p.dashTimer - 1 }, [])
  else
    let r := p.handleGather
    let p1 := r.1
    let accel := r.2.1
    let p2 : ServerPlayer :=
      { p1 with vx := p1.vx + p1.inputs.moveX * accel, vy := p1.vy + p1.inputs.moveY * accel }
    let p3 : ServerPlayer :=
      { p2 with vx := p2.vx * CONFIG.friction, vy := p2.vy * CONFIG.friction }
    (p3.capSpeed, r.2.2)

/-- Lines 129-130: `this.x += this.vx; this.y += this.vy`. -/
@[reducible] def ServerPlayer.integrate (p : ServerPlayer) : ServerPlayer :=
  { p with x := p.x + p.vx, y := p.y + p.vy }

/-- Step 3 of `update`, "World Bounds" (lines 133-136): four successive tests. -/
@[reducible] def ServerPlayer.worldBounds (p : ServerPlayer) : ServerPlayer :=
  let p1 : ServerPlayer := if p.x < 0 then { p with x := 0 } else p
  let p2 : ServerPlayer := if p1.x > CONFIG.worldWidth then { p1 with x := CONFIG.worldWidth } else p1
  let p3 : ServerPlayer := if p2.y < 0 then { p2 with y := 0 } else p2
  if p3.y > CONFIG.worldHeight then { p3 with y := CONFIG.worldHeight } else p3

/-- The body of the `forEach` of step 4, "Obstacle Collision" (lines 140-152). -/
@[reducible] def ServerPlayer.collideObstacle (p : ServerPlayer) (obs : Obstacle) : ServerPlayer :=
  let dx := p.x - obs.x
  let dy := p.y - obs.y
  let dist := hypot dx dy
  let minDist := p.radius + obs.radius
  if dist < minDist then
    let angle := atan2 dy dx
    let push := minDist - dist
    { p with
        x := p.x + Real.cos angle * push
        y := p.y + Real.sin angle * push
        vx := p.vx * 0.8
        vy := p.vy * 0.8 }
  else p

/-- Step 4 of `update` (lines 139-153): `gameState.obstacles.forEach`. -/
@[reducible] def ServerPlayer.obstacleCollision (obstacles : List Obstacle) (p : ServerPlayer) : ServerPlayer :=
  obstacles.foldl ServerPlayer.collideObstacle p

/-- `ServerPlayer.update()` (lines 78-154), with the obstacles of `gameState` as
an argument; returns the player and the effects emitted. -/
def ServerPlayer.update (obstacles : List Obstacle) (p : ServerPlayer) :
    ServerPlayer × List Event :=
  if p.isFrozen = true then (p, [])
  else
    let d := p.handleDash
    let m := d.1.handleMovement
    (ServerPlayer.obstacleCollision obstacles m.1.integrate.worldBounds, d.2 ++ m.2)

/-! ## `ServerSnowball` -/

/-- `new ServerSnowball(x, y, angle, speed, ownerId, team, charge)` (lines 159-170). -/
@[reducible] def ServerSnowball.new (x y angle speed : ℝ) (ownerId : String) (team : Team) (charge : ℕ) :
    ServerSnowball :=
  { x := x
    y := y
    vx := Real.cos angle * speed
    vy := Real.sin angle * speed
    z := 14
    vz := 2
    ownerId := ownerId
    team := team
    active := true
    radius := 6 + (charge : ℝ) / 20 }

/-- `ServerSnowball.update()` (lines 172-183). -/
@[reducible] def ServerSnowball.update (b : ServerSnowball) : ServerSnowball :=
  let b1 : ServerSnowball :=
    { b with x := b.x + b.vx, y := b.y + b.vy, z := b.z + b.vz, vz := b.vz - 0.15 }
  let b2 : ServerSnowball := if b1.z < 0 then { b1 with active := false } else b1
  if b2.x < 0 ∨ b2.x > CONFIG.worldWidth ∨ b2.y < 0 ∨ b2.y > CONFIG.worldHeight then
    { b2 with active := false }
  else b2

/-! ## Connection handling (lines 187-239) -/

/-- `gameState.players[id]`: the player stored under key `id`, if any. -/
@[reducible] def lookupPlayer (id : String) (players : List ServerPlayer) : Option ServerPlayer :=
  players.find? (fun p => decide (p.id = id))

/-- The effect of `gameState.players[id].field = value` style updates: the player
stored under key `id` is replaced by its image under `f`; nothing changes when
there is no such key. -/
@[reducible] def modifyPlayer (id : String) (f : ServerPlayer → ServerPlayer) :
    List ServerPlayer → List ServerPlayer
  | [] => []
  | p :: ps => if p.id = id then f p :: ps else p :: modifyPlayer id f ps

/-- `gameState.players[p.id] = p` (line 197): an existing key keeps its place in
the iteration order, a new key goes last. -/
@[reducible] def setPlayer (p : ServerPlayer) : List ServerPlayer → List ServerPlayer
  | [] => [p]
  | q :: qs => if q.id = p.id then p :: qs else q :: setPlayer p qs

/-- The auto balance of lines 191-194. -/
@[reducible] def autoBalance (players : List ServerPlayer) : Team :=
  let blues := (players.filter (fun p => decide (p.team = Team.blue))).length
  let reds := (players.filter (fun p => decide (p.team = Team.red))).length
  if blues ≤ reds then Team.blue else Team.red

/-- The `connection` handler (lines 187-205) for socket `id`. -/
@[reducible] def connection (id : String) (rSkin rHat rY : ℝ) (g : GameState) : GameState :=
  { g with players := setPlayer (ServerPlayer.new id (autoBalance g.players) rSkin rHat rY) g.players }

/-- Lines 212-216 of the `input` handler: the five buffered fields. -/
@[reducible] def bufferInputs (data : InputData) (p : ServerPlayer) : ServerPlayer :=
  { p with inputs :=
      { moveX := data.moveX, moveY := data.moveY, angle := data.angle,
        dash := data.dash, gather := data.gather } }

/-- Lines 219-221 of the `input` handler, "Charge". -/
@[reducible] def chargeStart (data : InputData) (p : ServerPlayer) : ServerPlayer :=
  if data.throwStart = true ∧ p.hasBall = true ∧ p.isFrozen = false then
    { p with chargeLevel := 1 }
  else p

/-- The condition of line 224, on the player as it is after `chargeStart`. -/
def releases (data : InputData) (p : ServerPlayer) : Prop :=
  data.throwRelease = true ∧ p.hasBall = true ∧ p.isFrozen = false

instance (data : InputData) (p : ServerPlayer) : Decidable (releases data p) := by
  unfold releases; infer_instance

/-- The snowball built at lines 225-228 for a player that releases. -/
@[reducible] def thrownBall (data : InputData) (p : ServerPlayer) : ServerSnowball :=
  let speed := CONFIG.ballSpeed + (p.chargeLevel : ℝ) / 5
  ServerSnowball.new p.x p.y data.angle speed p.id p.team p.chargeLevel

/-- The `input` handler (lines 208-234) of socket `id`. -/
@[reducible] def input (id : String) (data : InputData) (g : GameState) : GameState × List Event :=
  match lookupPlayer id g.players with
  | none => (g, [])
  | some p0 =>
    let p := chargeStart data (bufferInputs data p0)
    if releases data p then
      ({ g with
          players := modifyPlayer id (fun _ => { p with hasBall := false, chargeLevel := 0 }) g.players
          snowballs := g.snowballs ++ [thrownBall data p] },
        [Event.throw p.x p.y])
    else ({ g with players := modifyPlayer id (fun _ => p) g.players }, [])

/-- The `disconnect` handler (lines 236-238): `delete gameState.players[id]`. -/
@[reducible] def disconnect (id : String) (g : GameState) : GameState :=
  { g with players := g.players.filter (fun p => decide (p.id ≠ id)) }

/-- The callback given to `setTimeout` at lines 266-268, for the key `id`. -/
@[reducible] def thawCallback (id : String) (g : GameState) : GameState :=
  match lookupPlayer id g.players with
  | none => g
  | some _ => { g with players := modifyPlayer id (fun p => { p with isFrozen := false }) g.players }

/-! ## The server loop (lines 242-288) -/

/-- Line 246: charge progression. -/
@[reducible] def chargeProgress (p : ServerPlayer) : ServerPlayer :=
  if p.chargeLevel > 0 ∧ p.chargeLevel < 60 then { p with chargeLevel := p.chargeLevel + 1 } else p

/-- Part 1 of the loop, "Update Players" (lines 244-248). -/
@[reducible] def updatePlayers (obstacles : List Obstacle) : List ServerPlayer → List ServerPlayer × List Event
  | [] => ([], [])
  | p :: ps =>
    let r := (chargeProgress p).update obstacles
    let rest := updatePlayers obstacles ps
    (r.1 :: rest.1, r.2 ++ rest.2)

/-- What one snowball's pass over the players produces. -/
structure HitResult where
  ball : ServerSnowball
  players : List ServerPlayer
  events : List Event
  thaws : List String

/-- The `for (const id in gameState.players)` loop of lines 255-270, for one ball. -/
@[reducible] def collidePlayers (ball : ServerSnowball) : List ServerPlayer → HitResult
  | [] => { ball := ball, players := [], events := [], thaws := [] }
  | p :: ps =>
    if ball.ownerId = p.id ∨ ball.team = p.team ∨ p.isFrozen = true then
      let r := collidePlayers ball ps
      { r with players := p :: r.players }
    else if hypot (ball.x - p.x) (ball.y - p.y) < p.radius + ball.radius then
      let r := collidePlayers { ball with active := false } ps
      { r with
          players := { p with isFrozen := true } :: r.players
          events := Event.hit p.x p.y p.id :: r.events
          thaws := p.id :: r.thaws }
    else
      let r := collidePlayers ball ps
      { r with players := p :: r.players }

/-- The `gameState.obstacles.forEach` of lines 272-277, for one ball. -/
@[reducible] def collideObstacles (ball : ServerSnowball) : List Obstacle → ServerSnowball × List Event
  | [] => (ball, [])
  | obs :: rest =>
    if ball.active = true ∧ hypot (ball.x - obs.x) (ball.y - obs.y) < obs.radius + ball.radius then
      let r := collideObstacles { ball with active := false } rest
      (r.1, Event.obsHit ball.x ball.y :: r.2)
    else collideObstacles ball rest

/-- The body of `gameState.snowballs.forEach` (lines 252-277) for one ball. -/
def processBall (obstacles : List Obstacle) (ball : ServerSnowball)
    (players : List ServerPlayer) : HitResult :=
  let h := collidePlayers ball.update players
  let o := collideObstacles h.ball obstacles
  { h with ball := o.1, events := h.events ++ o.2 }

/-- What the pass over all snowballs produces. -/
structure PassResult where
  balls : List ServerSnowball
  players : List ServerPlayer
  events : List Event
  thaws : List String

/-- Part 2 of the loop, "Update Snowballs" (lines 251-278). -/
@[reducible] def updateSnowballs (obstacles : List Obstacle) :
    List ServerSnowball → List ServerPlayer → PassResult
  | [], players => { balls := [], players := players, events := [], thaws := [] }
  | b :: bs, players =>
    let r := processBall obstacles b players
    let rest := updateSnowballs obstacles bs r.players
    { balls := r.ball :: rest.balls
      players := rest.players
      events := r.events ++ rest.events
      thaws := r.thaws ++ rest.thaws }

/-- One run of the `setInterval` callback (lines 242-288). -/
def tick (s : Server) : Server × List Event :=
  let g := s.gameState
  let up := updatePlayers g.obstacles g.players
  let sb := updateSnowballs g.obstacles g.snowballs up.1
  let live := sb.balls.filter (fun b => b.active)
  ({ gameState := { g with players := sb.players, snowballs := live }
     timers := s.timers ++ sb.thaws },
    up.2 ++ sb.events ++ [Event.state sb.players live])

/-- A pending thaw fires: the `k`-th timer leaves the queue and its callback runs. -/
@[reducible] def fireThaw (k : ℕ) (s : Server) : Server :=
  match s.timers.get? k with
  | none => s
  | some id => { gameState := thawCallback id s.gameState, timers := s.timers.eraseIdx k }

/-- What can happen to the server, one at a time (the process is single threaded). -/
inductive Action
  | connect (id : String) (rSkin rHat rY : ℝ)
  | input (id : String) (data : InputData)
  | disconnect (id : String)
  | tick
  | thaw (k : ℕ)

/-- The server after an action. -/
@[reducible] def step (s : Server) : Action → Server
  | Action.connect id rSkin rHat rY =>
    { s with gameState := connection id rSkin rHat rY s.gameState }
  | Action.input id data => { s with gameState := (input id data s.gameState).1 }
  | Action.disconnect id => { s with gameState := disconnect id s.gameState }
  | Action.tick => (tick s).1
  | Action.thaw k => fireThaw k s

/-- The server at start up: no player, no snowball, the generated obstacles. -/
@[reducible] def initial (obstacles : List Obstacle) : Server :=
  { gameState := { players := [], snowballs := [], obstacles := obstacles }, timers := [] }

/-- The server after a sequence of actions from start up. -/
@[reducible] def run (obstacles : List Obstacle) (actions : List Action) : Server :=
  actions.foldl step (initial obstacles)

/-! ## Vocabulary of the theorems -/

/-- The fields that no step of `update` writes: `id`, `team`, `radius`, `isFrozen`. -/
def ServerPlayer.sameCore (p q : ServerPlayer) : Prop :=
  q.id = p.id ∧ q.team = p.team ∧ q.radius = p.radius ∧ q.isFrozen = p.isFrozen

/-- From `p` to `q` the charge level is kept and the ball is not lost. -/
def ServerPlayer.chargeKept (p q : ServerPlayer) : Prop :=
  q.chargeLevel = p.chargeLevel ∧ (p.hasBall = true → q.hasBall = true)

/-- Charge requires possession, and the charge level is at most 60. -/
def ServerPlayer.chargeOk (p : ServerPlayer) : Prop :=
  (p.chargeLevel ≠ 0 → p.hasBall = true) ∧ 0 ≤ p.chargeLevel ∧ p.chargeLevel ≤ 60

/-- From `p` to `q` the timers, the gather counter and the possession flag are kept. -/
def ServerPlayer.sameTimers (p q : ServerPlayer) : Prop :=
  q.dashTimer = p.dashTimer ∧ q.dashCooldownTimer = p.dashCooldownTimer ∧
    q.gatherProgress = p.gatherProgress ∧ q.hasBall = p.hasBall

/-- The test of line 145: the player overlaps the obstacle. -/
def ServerPlayer.overlaps (p : ServerPlayer) (obs : Obstacle) : Prop :=
  hypot (p.x - obs.x) (p.y - obs.y) < p.radius + obs.radius

/-- The player as `update` has it when step 4 starts (lines 82-136). -/
@[reducible] def ServerPlayer.moved (p : ServerPlayer) : ServerPlayer :=
  p.handleDash.1.handleMovement.1.integrate.worldBounds

/-- The tests of lines 257 and 260 together: `ball` freezes `p`. -/
def ServerSnowball.strikes (ball : ServerSnowball) (p : ServerPlayer) : Prop :=
  ¬ (ball.ownerId = p.id ∨ ball.team = p.team ∨ p.isFrozen = true) ∧
    hypot (ball.x - p.x) (ball.y - p.y) < p.radius + ball.radius

instance (ball : ServerSnowball) (p : ServerPlayer) : Decidable (ball.strikes p) := by
  unfold ServerSnowball.strikes; infer_instance

/-- What the loop of lines 255-270 does to one player. -/
@[reducible] def freezeIfStruck (ball : ServerSnowball) (p : ServerPlayer) : ServerPlayer :=
  if ball.strikes p then { p with isFrozen := true } else p

/-- What the whole pass over `balls` does to one player (lines 251-270). -/
@[reducible] def struckDuring (balls : List ServerSnowball) (p : ServerPlayer) : ServerPlayer :=
  balls.foldl (fun q b => freezeIfStruck b.update q) p

/-- The loop in the middle of a run from `s`: part 1 is over and the snowballs
`done`, a prefix of the live set, have been through the body of the `forEach`. -/
@[reducible] def duringTick (s : Server) (done : List ServerSnowball) : PassResult :=
  updateSnowballs s.gameState.obstacles done
    (updatePlayers s.gameState.obstacles s.gameState.players).1

/-- What the `input` handler (lines 212-233) does to the player it finds. -/
@[reducible] def playerInput (data : InputData) (p : ServerPlayer) : ServerPlayer :=
  if releases data (chargeStart data (bufferInputs data p)) then
    { chargeStart data (bufferInputs data p) with hasBall := false, chargeLevel := 0 }
  else chargeStart data (bufferInputs data p)

/-- What can happen to one player of the map, one at a time: an `input`
message of its socket, its `update()` in a run of the loop, the charge
progression of line 246, a freeze (line 262), a thaw (line 267). -/
inductive PlayerStep
  | input (data : InputData)
  | update
  | charge
  | freeze
  | thaw

/-- The player after a step. -/
@[reducible] def playerStep (obstacles : List Obstacle) (p : ServerPlayer) : PlayerStep → ServerPlayer
  | PlayerStep.input data => playerInput data p
  | PlayerStep.update => (p.update obstacles).1
  | PlayerStep.charge => chargeProgress p
  | PlayerStep.freeze => { p with isFrozen := true }
  | PlayerStep.thaw => { p with isFrozen := false }

/-- The player after a sequence of steps. -/
@[reducible] def playerRun (obstacles : List Obstacle) (p : ServerPlayer) (steps : List PlayerStep) :
    ServerPlayer :=
  steps.foldl (playerStep obstacles) p

/-- The number of `update` steps of the sequence that find the player not frozen. -/
@[reducible] def nonFrozenUpdates (obstacles : List Obstacle) : ServerPlayer → List PlayerStep → ℕ
  | _, [] => 0
  | p, PlayerStep.update :: rest =>
    (if p.isFrozen = false then 1 else 0) +
      nonFrozenUpdates obstacles (playerStep obstacles p PlayerStep.update) rest
  | p, st :: rest => nonFrozenUpdates obstacles (playerStep obstacles p st) rest

/-- The dash timers are in range and tied to each other while a dash is active. -/
def ServerPlayer.dashOk (p : ServerPlayer) : Prop :=
  p.dashTimer ≤ 9 ∧ p.dashCooldownTimer ≤ 90 ∧
    (0 < p.dashTimer → p.dashCooldownTimer = p.dashTimer + 81)

/-- The height of a thrown snowball after `n` updates: `14 + 2n - 0.075 n (n - 1)`. -/
@[reducible] def heightAfter (n : ℕ) : ℝ := 14 + 2 * (n : ℝ) - 0.075 * (n : ℝ) * ((n : ℝ) - 1)

/-- The snowball has the height and the vertical speed of a thrown snowball
after `k` updates. -/
def ServerSnowball.aged (k : ℕ) (b : ServerSnowball) : Prop :=
  b.z = heightAfter k ∧ b.vz = 2 - 0.15 * (k : ℝ)

/-- The socket ids of the connections among the actions, in order. -/
@[reducible] def connectIds : List Action → List String
  | [] => []
  | Action.connect id _ _ _ :: rest => id :: connectIds rest
  | _ :: rest => connectIds rest

/-- What ties the live snowballs to their owners: every player id and owner id
has been connected, no two live snowballs have one owner, every live snowball
is a thrown snowball of some age `k` whose owner, if still connected, has no
ball and has gathered for at most `k` updates, and a player that holds the ball
has gathered nothing. -/
def Server.ownersOk (s : Server) (used : List String) : Prop :=
  (∀ p ∈ s.gameState.players, p.id ∈ used) ∧
    (∀ b ∈ s.gameState.snowballs, b.ownerId ∈ used) ∧
    (s.gameState.snowballs.map (fun b => b.ownerId)).Nodup ∧
    (∀ b ∈ s.gameState.snowballs, ∃ k : ℕ, b.aged k ∧
      ∀ p ∈ s.gameState.players, p.id = b.ownerId → p.hasBall = false ∧ p.gatherProgress ≤ k) ∧
    (∀ p ∈ s.gameState.players, p.hasBall = true → p.gatherProgress = 0)

/-- Is the event a `dash` effect? -/
@[reducible] def Event.isDash : Event → Bool
  | Event.dash _ _ _ => true
  | _ => false

/-- Is the event a `hit` message for player `id`? -/
@[reducible] def Event.isHitFor (id : String) : Event → Bool
  | Event.hit _ _ i => i == id
  | _ => false

/-- Is the event a `hit` message or an `obs_hit` effect? -/
@[reducible] def Event.isImpact : Event → Bool
  | Event.hit _ _ _ => true
  | Event.obsHit _ _ => true
  | _ => false

/-- The server after `n` runs of the loop. -/
@[reducible] def ticks (n : ℕ) (s : Server) : Server := (fun t => (tick t).1)^[n] s

/-! ## Concrete states -/

/-- A fresh player (all draws `0`) standing at rest at `(x, y)`. -/
@[reducible] def playerAt (id : String) (team : Team) (x y : ℝ) : ServerPlayer :=
  { ServerPlayer.new id team 0 0 0 with x := x, y := y }

/-- An uncharged snowball in flight along the x axis. -/
@[reducible] def ballAt (x y vx z vz : ℝ) (ownerId : String) (team : Team) : ServerSnowball :=
  { x := x, y := y, vx := vx, vy := 0, z := z, vz := vz, ownerId := ownerId, team := team,
    active := true, radius := 6 }

/-- A tree (radius 30) at `(x, y)`. -/
@[reducible] def treeAt (x y : ℝ) : Obstacle := { x := x, y := y, radius := 30, type := ObstacleType.tree }

/-- A rock (radius 20) at `(x, y)`. -/
@[reducible] def rockAt (x y : ℝ) : Obstacle := { x := x, y := y, radius := 20, type := ObstacleType.rock }

/-- Three trees stacked above the spawn point of a blue player, all inside the world. -/
@[reducible] def treeColumn : List Obstacle := [treeAt 200 101, treeAt 200 58, treeAt 200 15]

/-- Blue `a` has thrown at red `b`; the ball is 10 short of `b` and flies at 5 a tick. -/
@[reducible] def duel : Server :=
  { gameState :=
      { players := [playerAt "a" Team.blue 200 100, playerAt "b" Team.red 300 100]
        snowballs := [ballAt 290 100 5 14 2 "a" Team.blue]
        obstacles := [] }
    timers := [] }

/-- As `duel`, with a second red player `c` standing 10 before `b`. -/
@[reducible] def crowd : Server :=
  { gameState :=
      { players := [playerAt "a" Team.blue 200 100, playerAt "b" Team.red 300 100,
          playerAt "c" Team.red 290 100]
        snowballs := [ballAt 290 100 5 14 2 "a" Team.blue]
        obstacles := [] }
    timers := [] }

/-- As `duel`, with the ball about to land: height 0.1, falling at 1 a tick. -/
@[reducible] def landing : Server :=
  { gameState :=
      { players := [playerAt "a" Team.blue 200 100, playerAt "b" Team.red 300 100]
        snowballs := [ballAt 290 100 5 0.1 (-1) "a" Team.blue]
        obstacles := [] }
    timers := [] }

/-- An `input` message that starts and releases a throw along the x axis at once. -/
@[reducible] def throwNow : InputData :=
  { moveX := 0, moveY := 0, angle := 0, dash := false, gather := false,
    throwStart := true, throwRelease := true }

/-- An `input` message that starts a charge. -/
@[reducible] def startCharge : InputData :=
  { moveX := 0, moveY := 0, angle := 0, dash := false, gather := false,
    throwStart := true, throwRelease := false }

/-- A player half way through a charge (charge level 30), alone on the map. -/
@[reducible] def charging : GameState :=
  { players := [{ playerAt "a" Team.blue 200 100 with chargeLevel := 30 }]
    snowballs := []
    obstacles := [] }

/-- Two rocks 40 apart on a horizontal line. -/
@[reducible] def rockPair : List Obstacle := [rockAt 100 100, rockAt 140 100]

/-! ## Input messages with absent fields

The `input` handler copies `data.moveX`, ..., `data.gather` into `p.inputs`
without looking at them (lines 212-216). A field that the client left out reads
as `undefined`, and arithmetic on `undefined` gives `NaN`. This second embedding
of lines 78-154 and 212-216 keeps both: a payload field is a `JsValue`, and a
number of the player is a `JsNumber`, a real or `NaN`. -/

/-- A field of a payload as the handler reads it: absent, a number, a boolean. -/
inductive JsValue
  | undefined
  | number (r : ℝ)
  | boolean (b : Bool)

/-- A number held by a player: `some r` is the real `r`, `none` is `NaN`. -/
abbrev JsNumber := Option ℝ

/-- Truthiness, as `&&` and `if` test it. -/
@[reducible] def JsValue.truthy : JsValue → Prop
  | JsValue.undefined => False
  | JsValue.number r => r ≠ 0
  | JsValue.boolean b => b = true

instance (v : JsValue) : Decidable v.truthy := by
  cases v <;> unfold JsValue.truthy <;> infer_instance

/-- The test `v !== 0`: strict inequality holds across types. -/
@[reducible] def JsValue.strictNeZero : JsValue → Prop
  | JsValue.number r => r ≠ 0
  | _ => True

instance (v : JsValue) : Decidable v.strictNeZero := by
  cases v <;> unfold JsValue.strictNeZero <;> infer_instance

/-- The conversion to a number that arithmetic and `Math` functions apply. -/
@[reducible] def JsValue.toNumber : JsValue → JsNumber
  | JsValue.undefined => none
  | JsValue.number r => some r
  | JsValue.boolean b => some (if b then 1 else 0)

/-- A binary operation on numbers: `NaN` if an operand is `NaN`. -/
@[reducible] def JsNumber.op (f : ℝ → ℝ → ℝ) : JsNumber → JsNumber → JsNumber
  | some a, some b => some (f a b)
  | _, _ => none

/-- A comparison of numbers: false if an operand is `NaN`. -/
@[reducible] def JsNumber.lt : JsNumber → JsNumber → Prop
  | some a, some b => a < b
  | _, _ => False

instance (a b : JsNumber) : Decidable (JsNumber.lt a b) := by
  cases a <;> cases b <;> unfold JsNumber.lt <;> infer_instance

/-- The record `this.inputs` as the handler fills it. -/
structure RawInputs where
  moveX : JsValue
  moveY : JsValue
  angle : JsValue
  dash : JsValue
  gather : JsValue

/-- A player whose numbers may be `NaN` and whose inputs are as received. -/
structure RawPlayer where
  id : String
  team : Team
  radius : ℝ
  skinColor : String
  hatType : ℕ
  x : JsNumber
  y : JsNumber
  vx : JsNumber
  vy : JsNumber
  isFrozen : Bool
  hasBall : Bool
  chargeLevel : ℕ
  gatherProgress : ℕ
  dashTimer : ℕ
  dashCooldownTimer : ℕ
  inputs : RawInputs

/-- The `dash` and `reload` effects, with positions that may be `NaN`. -/
inductive RawEvent
  | dash (x y : JsNumber) (id : String)
  | reload (x y : JsNumber) (id : String)

/-- Step 1 of `update`, "Handle Dash" (lines 82-92). -/
@[reducible] def RawPlayer.handleDash (p : RawPlayer) : RawPlayer × List RawEvent :=
  let p1 : RawPlayer :=
    if p.dashCooldownTimer > 0 then { p with dashCooldownTimer := p.dashCooldownTimer - 1 } else p
  if p1.inputs.dash.truthy ∧ p1.dashCooldownTimer = 0 ∧
      (p1.inputs.moveX.strictNeZero ∨ p1.inputs.moveY.strictNeZero) then
    let angle := JsNumber.op atan2 p1.inputs.moveY.toNumber p1.inputs.moveX.toNumber
    ({ p1 with
        dashTimer := CONFIG.dashDuration
        dashCooldownTimer := CONFIG.dashCooldown
        vx := JsNumber.op (fun c s => c * s) (angle.map Real.cos) (some CONFIG.dashSpeed)
        vy := JsNumber.op (fun c s => c * s) (angle.map Real.sin) (some CONFIG.dashSpeed) },
      [RawEvent.dash p1.x p1.y p1.id])
  else (p1, [])

/-- The gather branch of normal movement (lines 101-114). -/
@[reducible] def RawPlayer.handleGather (p : RawPlayer) : RawPlayer × ℝ × List RawEvent :=
  if p.inputs.gather.truthy ∧ p.hasBall = false then
    let p1 : RawPlayer :=
      { p with
          vx := JsNumber.op (fun a b => a * b) p.vx (some 0.8)
          vy := JsNumber.op (fun a b => a * b) p.vy (some 0.8)
          gatherProgress := p.gatherProgress + 1 }
    if p1.gatherProgress ≥ CONFIG.gatherTime then
      ({ p1 with hasBall := true, gatherProgress := 0 }, CONFIG.acceleration * 0.5,
        [RawEvent.reload p1.x p1.y p1.id])
    else (p1, CONFIG.acceleration * 0.5, [])
  else ({ p with gatherProgress := 0 }, CONFIG.acceleration, [])

/-- The speed cap of lines 122-126. -/
@[reducible] def RawPlayer.capSpeed (p : RawPlayer) : RawPlayer :=
  let speed := JsNumber.op hypot p.vx p.vy
  if JsNumber.lt (some CONFIG.maxSpeed) speed then
    { p with
        vx := JsNumber.op (fun a b => a * b) (JsNumber.op (fun a b => a / b) p.vx speed)
          (some CONFIG.maxSpeed)
        vy := JsNumber.op (fun a b => a * b) (JsNumber.op (fun a b => a / b) p.vy speed)
          (some CONFIG.maxSpeed) }
  else p

/-- Step 2 of `update`, "Handle Movement" (lines 95-127). -/
@[reducible] def RawPlayer.handleMovement (p : RawPlayer) : RawPlayer × List RawEvent :=
  if p.dashTimer > 0 then ({ p with dashTimer := p.dashTimer - 1 }, [])
  else
    let r := p.handleGather
    let p1 := r.1
    let accel := r.2.1
    let p2 : RawPlayer :=
      { p1 with
          vx := JsNumber.op (fun a b => a + b) p1.vx
            (JsNumber.op (fun a b => a * b) p1.inputs.moveX.toNumber (some accel))
          vy := JsNumber.op (fun a b => a + b) p1.vy
            (JsNumber.op (fun a b => a * b) p1.inputs.moveY.toNumber (some accel)) }
    let p3 : RawPlayer :=
      { p2 with
          vx := JsNumber.op (fun a b => a * b) p2.vx (some CONFIG.friction)
          vy := JsNumber.op (fun a b => a * b) p2.vy (some CONFIG.friction) }
    (p3.capSpeed, r.2.2)

/-- Lines 129-130. -/
@[reducible] def RawPlayer.integrate (p : RawPlayer) : RawPlayer :=
  { p with
      x := JsNumber.op (fun a b => a + b) p.x p.vx
      y := JsNumber.op (fun a b => a + b) p.y p.vy }

/-- Step 3 of `update`, "World Bounds" (lines 133-136). -/
@[reducible] def RawPlayer.worldBounds (p : RawPlayer) : RawPlayer :=
  let p1 : RawPlayer := if JsNumber.lt p.x (some 0) then { p with x := some 0 } else p
  let p2 : RawPlayer :=
    if JsNumber.lt (some CONFIG.worldWidth) p1.x then { p1 with x := some CONFIG.worldWidth }
    else p1
  let p3 : RawPlayer := if JsNumber.lt p2.y (some 0) then { p2 with y := some 0 } else p2
  if JsNumber.lt (some CONFIG.worldHeight) p3.y then { p3 with y := some CONFIG.worldHeight }
  else p3

/-- The body of the `forEach` of step 4 (lines 140-152). -/
@[reducible] def RawPlayer.collideObstacle (p : RawPlayer) (obs : Obstacle) : RawPlayer :=
  let dx := JsNumber.op (fun a b => a - b) p.x (some obs.x)
  let dy := JsNumber.op (fun a b => a - b) p.y (some obs.y)
  let dist := JsNumber.op hypot dx dy
  let minDist := p.radius + obs.radius
  if JsNumber.lt dist (some minDist) then
    let angle := JsNumber.op atan2 dy dx
    let push := JsNumber.op (fun a b => a - b) (some minDist) dist
    { p with
        x := JsNumber.op (fun a b => a + b) p.x
          (JsNumber.op (fun a b => a * b) (angle.map Real.cos) push)
        y := JsNumber.op (fun a b => a + b) p.y
          (JsNumber.op (fun a b => a * b) (angle.map Real.sin) push)
        vx := JsNumber.op (fun a b => a * b) p.vx (some 0.8)
        vy := JsNumber.op (fun a b => a * b) p.vy (some 0.8) }
  else p

/-- Step 4 of `update` (lines 139-153). -/
@[reducible] def RawPlayer.obstacleCollision (obstacles : List Obstacle) (p : RawPlayer) : RawPlayer :=
  obstacles.foldl RawPlayer.collideObstacle p

/-- `ServerPlayer.update()` (lines 78-154) on a player as the handler left it. -/
@[reducible] def RawPlayer.update (obstacles : List Obstacle) (p : RawPlayer) : RawPlayer × List RawEvent :=
  if p.isFrozen = true then (p, [])
  else
    let d := p.handleDash
    let m := d.1.handleMovement
    (RawPlayer.obstacleCollision obstacles m.1.integrate.worldBounds, d.2 ++ m.2)

/-- What the proofs use of `Math.hypot`. -/
theorem hypot_spec :
    (∀ (a b : ℝ),
        hypot a b = Complex.abs ⟨a, b⟩) ∧
    (∀ (a b : ℝ),
        0 ≤ hypot a b) ∧
    (∀ (a b : ℝ),
        hypot a b ^ 2 = a ^ 2 + b ^ 2) ∧
    (∀ (a : ℝ),
        hypot a 0 = |a|) ∧
    (∀ (a b : ℝ),
        hypot a b = 0 ↔ a = 0 ∧ b = 0) := by
  have hypot_eq_abs : ∀ (a b : ℝ),
      hypot a b = Complex.abs ⟨a, b⟩ := by
    intro a b
    simp [hypot, Complex.abs_apply, Complex.normSq_apply, sq]
  have hypot_nonneg : ∀ (a b : ℝ),
      0 ≤ hypot a b := by
    intro a b
    exact Real.sqrt_nonneg _
  have hypot_sq : ∀ (a b : ℝ),
      hypot a b ^ 2 = a ^ 2 + b ^ 2 := by
    intro a b
    exact Real.sq_sqrt (by positivity)
  have hypot_zero_right : ∀ (a : ℝ),
      hypot a 0 = |a| := by
    intro a
    simp [hypot, Real.sqrt_sq_eq_abs]
  have hypot_eq_zero_iff : ∀ (a b : ℝ),
      hypot a b = 0 ↔ a = 0 ∧ b = 0 := by
    intro a b
    unfold hypot
    rw [Real.sqrt_eq_zero (by positivity)]
    constructor
    · intro h
      constructor <;> nlinarith [sq_nonneg a, sq_nonneg b]
    · rintro ⟨rfl, rfl⟩; simp
  exact ⟨hypot_eq_abs, hypot_nonneg, hypot_sq, hypot_zero_right, hypot_eq_zero_iff⟩

/-- What the proofs use of `Math.atan2`: the cosine and the sine of the angle of
a vector, and the angle at the origin. -/
theorem atan2_spec :
    (∀ (dy dx : ℝ) (_ : hypot dx dy ≠ 0),
        Real.cos (atan2 dy dx) = dx / hypot dx dy) ∧
    (∀ (dy dx : ℝ),
        Real.sin (atan2 dy dx) = dy / hypot dx dy) ∧
    (atan2 0 0 = 0) := by
  have cos_atan2 : ∀ (dy dx : ℝ) (h : hypot dx dy ≠ 0),
      Real.cos (atan2 dy dx) = dx / hypot dx dy := by
    intro dy dx h
    have hz : (⟨dx, dy⟩ : ℂ) ≠ 0 := by
      intro hc
      apply h
      rw [(hypot_spec.2.2.2.2)]
      exact ⟨congrArg Complex.re hc, congrArg Complex.im hc⟩
    unfold atan2
    rw [Complex.cos_arg hz, (hypot_spec.1)]
  have sin_atan2 : ∀ (dy dx : ℝ),
      Real.sin (atan2 dy dx) = dy / hypot dx dy := by
    intro dy dx
    unfold atan2
    rw [Complex.sin_arg, (hypot_spec.1)]
  have atan2_zero_zero : atan2 0 0 = 0 := by
    have : (⟨0, 0⟩ : ℂ) = 0 := rfl
    simp [atan2, this]
  exact ⟨cos_atan2, sin_atan2, atan2_zero_zero⟩

/-! ### What `update` leaves alone -/

/-- The fields that `update` and line 246 never write (`id`, `team`, `radius`, `isFrozen`). -/
theorem sameCore_spec :
    (∀ (p : ServerPlayer) (obs : Obstacle),
        p.sameCore (p.collideObstacle obs)) ∧
    (∀ {p q r : ServerPlayer} (_ : p.sameCore q) (_ : q.sameCore r),
        p.sameCore r) ∧
    (∀ (obstacles : List Obstacle) (p : ServerPlayer),
        p.sameCore (p.update obstacles).1) ∧
    (∀ (p : ServerPlayer),
        p.sameCore (chargeProgress p)) := by
  have collideObstacle_core : ∀ (p : ServerPlayer) (obs : Obstacle),
      p.sameCore (p.collideObstacle obs) := by
    intro p obs
    unfold ServerPlayer.collideObstacle ServerPlayer.sameCore
    dsimp only
    split_ifs <;> simp
  have sameCore_trans : ∀ {p q r : ServerPlayer} (h1 : p.sameCore q) (h2 : q.sameCore r),
      p.sameCore r := by
    intro p q r h1 h2
    obtain ⟨a1, a2, a3, a4⟩ := h1
    obtain ⟨b1, b2, b3, b4⟩ := h2
    exact ⟨b1.trans a1, b2.trans a2, b3.trans a3, b4.trans a4⟩
  have update_core : ∀ (obstacles : List Obstacle) (p : ServerPlayer),
      p.sameCore (p.update obstacles).1 := by
    intro obstacles p
    have worldBounds_core : ∀ (p : ServerPlayer),
        p.sameCore p.worldBounds := by
      intro p
      unfold ServerPlayer.worldBounds ServerPlayer.sameCore
      dsimp only
      split_ifs <;> simp
    have handleMovement_core : ∀ (p : ServerPlayer),
        p.sameCore p.handleMovement.1 := by
      intro p
      unfold ServerPlayer.handleMovement ServerPlayer.capSpeed ServerPlayer.handleGather
        ServerPlayer.sameCore
      dsimp only
      split_ifs <;> simp
    have handleDash_core : ∀ (p : ServerPlayer),
        p.sameCore p.handleDash.1 := by
      intro p
      unfold ServerPlayer.handleDash ServerPlayer.sameCore
      dsimp only
      split_ifs <;> simp
    have obstacleCollision_core : ∀ (obstacles : List Obstacle) (p : ServerPlayer),
        p.sameCore (ServerPlayer.obstacleCollision obstacles p) := by
      intro obstacles p
      induction obstacles generalizing p with
      | nil => exact ⟨rfl, rfl, rfl, rfl⟩
      | cons o os ih =>
        exact sameCore_trans (collideObstacle_core p o) (ih (p.collideObstacle o))
    unfold ServerPlayer.update
    split_ifs
    · exact ⟨rfl, rfl, rfl, rfl⟩
    · dsimp only
      refine sameCore_trans (handleDash_core p) (sameCore_trans (handleMovement_core _) ?_)
      refine sameCore_trans ?_ (obstacleCollision_core _ _)
      exact sameCore_trans ⟨rfl, rfl, rfl, rfl⟩ (worldBounds_core _)
  have chargeProgress_core : ∀ (p : ServerPlayer),
      p.sameCore (chargeProgress p) := by
    intro p
    unfold chargeProgress ServerPlayer.sameCore
    split_ifs <;> simp
  exact ⟨collideObstacle_core, sameCore_trans, update_core, chargeProgress_core⟩

/-! ### The loop over the players, in closed form -/



/-- The two loops of lines 255-284 for one ball, in closed form. -/
theorem processBall_spec :
    (∀ (ball : ServerSnowball) (ps : List ServerPlayer),
        (collidePlayers ball ps).events =
          (ps.filter (fun p => decide (ball.strikes p))).map (fun p => Event.hit p.x p.y p.id)) ∧
    (∀ (ball : ServerSnowball) (ps : List ServerPlayer),
        (collidePlayers ball ps).ball =
          if ∃ p ∈ ps, ball.strikes p then { ball with active := false } else ball) ∧
    (∀ (ball : ServerSnowball) (obstacles : List Obstacle) (_ : ball.active = false),
        collideObstacles ball obstacles = (ball, [])) ∧
    (∀ (ball : ServerSnowball) (obstacles : List Obstacle),
        collideObstacles ball obstacles = (ball, []) ∨
          (ball.active = true ∧
            collideObstacles ball obstacles =
              ({ ball with active := false }, [Event.obsHit ball.x ball.y]))) ∧
    (∀ (obstacles : List Obstacle) (b : ServerSnowball) (ps : List ServerPlayer),
        (processBall obstacles b ps).players = ps.map (freezeIfStruck b.update)) ∧
    (∀ (obstacles : List Obstacle) (b : ServerSnowball) (ps : List ServerPlayer)
        (_ : ∃ p ∈ ps, b.update.strikes p),
        (processBall obstacles b ps).ball = { b.update with active := false } ∧
          (processBall obstacles b ps).events =
            (ps.filter (fun p => decide (b.update.strikes p))).map
              (fun p => Event.hit p.x p.y p.id)) := by
  have collidePlayers_events : ∀ (ball : ServerSnowball) (ps : List ServerPlayer),
      (collidePlayers ball ps).events =
        (ps.filter (fun p => decide (ball.strikes p))).map (fun p => Event.hit p.x p.y p.id) := by
    intro ball ps
    induction ps generalizing ball with
    | nil => rfl
    | cons p ps ih =>
      simp only [collidePlayers]
      by_cases h1 : ball.ownerId = p.id ∨ ball.team = p.team ∨ p.isFrozen = true
      · have hs : ¬ ball.strikes p := fun h => h.1 h1
        simp [h1, ih, hs]
      · by_cases h2 : hypot (ball.x - p.x) (ball.y - p.y) < p.radius + ball.radius
        · have hs : ball.strikes p := ⟨h1, h2⟩
          simp [h1, h2, ih, hs]
          rfl
        · have hs : ¬ ball.strikes p := fun h => h2 h.2
          simp [h1, h2, ih, hs]
  -- The ball after the loop over the players: only `active` can have changed,
  -- and it is cleared exactly when some player was struck.
  have collidePlayers_ball : ∀ (ball : ServerSnowball) (ps : List ServerPlayer),
      (collidePlayers ball ps).ball =
        if ∃ p ∈ ps, ball.strikes p then { ball with active := false } else ball := by
    intro ball ps
    induction ps generalizing ball with
    | nil => simp [collidePlayers]
    | cons p ps ih =>
      simp only [collidePlayers]
      by_cases h1 : ball.ownerId = p.id ∨ ball.team = p.team ∨ p.isFrozen = true
      · have hs : ¬ ball.strikes p := fun h => h.1 h1
        simp [h1, ih, hs]
      · by_cases h2 : hypot (ball.x - p.x) (ball.y - p.y) < p.radius + ball.radius
        · have hs : ball.strikes p := ⟨h1, h2⟩
          simp only [h1, h2, if_true, if_false, ih]
          have hex : ∃ q ∈ p :: ps, ball.strikes q := ⟨p, List.mem_cons_self _ _, hs⟩
          rw [if_pos hex]
          split_ifs <;> rfl
        · have hs : ¬ ball.strikes p := fun h => h2 h.2
          simp [h1, h2, ih, hs]
  have collideObstacles_inactive : ∀ (ball : ServerSnowball) (obstacles : List Obstacle)
      (h : ball.active = false),
      collideObstacles ball obstacles = (ball, []) := by
    intro ball obstacles h
    induction obstacles with
    | nil => rfl
    | cons o os ih => simp [collideObstacles, h, ih]
  -- The obstacle loop leaves the ball alone and is silent, or deactivates an
  -- active ball and emits one `obs_hit` at the ball's position.
  have collideObstacles_cases : ∀ (ball : ServerSnowball) (obstacles : List Obstacle),
      collideObstacles ball obstacles = (ball, []) ∨
        (ball.active = true ∧
          collideObstacles ball obstacles =
            ({ ball with active := false }, [Event.obsHit ball.x ball.y])) := by
    intro ball obstacles
    induction obstacles with
    | nil => exact Or.inl rfl
    | cons o os ih =>
      simp only [collideObstacles]
      split_ifs with h
      · right
        refine ⟨h.1, ?_⟩
        rw [collideObstacles_inactive _ _ rfl]
      · exact ih
  have processBall_players : ∀ (obstacles : List Obstacle) (b : ServerSnowball)
      (ps : List ServerPlayer),
      (processBall obstacles b ps).players = ps.map (freezeIfStruck b.update) := by
    intro obstacles b ps
    have collidePlayers_players : ∀ (ball : ServerSnowball) (ps : List ServerPlayer),
        (collidePlayers ball ps).players = ps.map (freezeIfStruck ball) := by
      intro ball ps
      induction ps generalizing ball with
      | nil => rfl
      | cons p ps ih =>
        simp only [collidePlayers]
        by_cases h1 : ball.ownerId = p.id ∨ ball.team = p.team ∨ p.isFrozen = true
        · have hs : ¬ ball.strikes p := fun h => h.1 h1
          simp [h1, ih, freezeIfStruck, hs]
        · by_cases h2 : hypot (ball.x - p.x) (ball.y - p.y) < p.radius + ball.radius
          · have hs : ball.strikes p := ⟨h1, h2⟩
            have hf : ∀ q, freezeIfStruck { ball with active := false } q = freezeIfStruck ball q :=
              fun q => rfl
            simp [h1, h2, ih, hs, freezeIfStruck]
            intro a _
            exact hf a
          · have hs : ¬ ball.strikes p := fun h => h2 h.2
            simp [h1, h2, ih, freezeIfStruck, hs]
    unfold processBall
    simp [collidePlayers_players]
  -- A ball that some player was struck by ends the body inactive and with no
  -- `obs_hit`.
  have processBall_of_struck : ∀ (obstacles : List Obstacle) (b : ServerSnowball)
      (ps : List ServerPlayer) (h : ∃ p ∈ ps, b.update.strikes p),
      (processBall obstacles b ps).ball = { b.update with active := false } ∧
        (processBall obstacles b ps).events =
          (ps.filter (fun p => decide (b.update.strikes p))).map
            (fun p => Event.hit p.x p.y p.id) := by
    intro obstacles b ps h
    unfold processBall
    simp only [collidePlayers_ball, collidePlayers_events, if_pos h]
    rw [collideObstacles_inactive _ _ rfl]
    simp
  exact ⟨collidePlayers_events, collidePlayers_ball, collideObstacles_inactive,
      collideObstacles_cases, processBall_players, processBall_of_struck⟩

/-! ### One ball: obstacles, then the whole body of the `forEach` -/

/-! ### The pass over all snowballs -/

/-! ### Players across the pass over the snowballs -/

/-- What `ServerSnowball.update` writes and what it leaves alone. -/
theorem snowball_update_spec :
    (∀ (b : ServerSnowball),
        b.update.ownerId = b.ownerId ∧ b.update.team = b.team ∧ b.update.radius = b.radius ∧
          b.update.vx = b.vx ∧ b.update.vy = b.vy) ∧
    (∀ (b : ServerSnowball) (_ : b.active = false),
        b.update.active = false) ∧
    (∀ (b : ServerSnowball),
        b.update.x = b.x + b.vx ∧ b.update.y = b.y + b.vy ∧ b.update.z = b.z + b.vz ∧
          b.update.vz = b.vz - 0.15) ∧
    (∀ (b : ServerSnowball),
        b.update.active = true ↔
          b.active = true ∧ 0 ≤ b.z + b.vz ∧ 0 ≤ b.x + b.vx ∧ b.x + b.vx ≤ CONFIG.worldWidth ∧
            0 ≤ b.y + b.vy ∧ b.y + b.vy ≤ CONFIG.worldHeight) := by
  -- What `ServerSnowball.update` does not write.
  have snowball_update_frame : ∀ (b : ServerSnowball),
      b.update.ownerId = b.ownerId ∧ b.update.team = b.team ∧ b.update.radius = b.radius ∧
        b.update.vx = b.vx ∧ b.update.vy = b.vy := by
    intro b
    unfold ServerSnowball.update
    dsimp only
    split_ifs <;> simp
  have snowball_update_inactive : ∀ (b : ServerSnowball) (h : b.active = false),
      b.update.active = false := by
    intro b h
    unfold ServerSnowball.update
    dsimp only
    split_ifs <;> simp [h]
  have snowball_update_motion : ∀ (b : ServerSnowball),
      b.update.x = b.x + b.vx ∧ b.update.y = b.y + b.vy ∧ b.update.z = b.z + b.vz ∧
        b.update.vz = b.vz - 0.15 := by
    intro b
    unfold ServerSnowball.update
    dsimp only
    split_ifs <;> simp
  have snowball_update_active_iff : ∀ (b : ServerSnowball),
      b.update.active = true ↔
        b.active = true ∧ 0 ≤ b.z + b.vz ∧ 0 ≤ b.x + b.vx ∧ b.x + b.vx ≤ CONFIG.worldWidth ∧
          0 ≤ b.y + b.vy ∧ b.y + b.vy ≤ CONFIG.worldHeight := by
    intro b
    unfold ServerSnowball.update
    dsimp only
    split_ifs with h1 h2 h2
    · simp only [Bool.false_eq_true, false_iff]
      rintro ⟨_, hz, _⟩
      linarith
    · simp only [Bool.false_eq_true, false_iff]
      rintro ⟨_, hz, _⟩
      linarith
    · simp only [Bool.false_eq_true, false_iff]
      rintro ⟨_, _, hx0, hx1, hy0, hy1⟩
      rcases h2 with h | h | h | h <;> (try dsimp only at h) <;> linarith
    · simp only [not_or, not_lt] at h1 h2
      exact ⟨fun h => ⟨h, h1, h2.1, h2.2.1, h2.2.2.1, h2.2.2.2⟩, fun h => h.1⟩
  exact ⟨snowball_update_frame, snowball_update_inactive, snowball_update_motion,
      snowball_update_active_iff⟩

/-- The players after a run of the loop, in closed form. -/
theorem tick_players_spec :
    (∀ (obstacles : List Obstacle) (ps : List ServerPlayer),
        (updatePlayers obstacles ps).1 = ps.map (fun p =>
            ((chargeProgress p).update obstacles).1)) ∧
    (∀ (obstacles : List Obstacle) (balls : List ServerSnowball) (ps : List ServerPlayer),
        (updateSnowballs obstacles balls ps).players = ps.map (struckDuring balls)) ∧
    (∀ (balls : List ServerSnowball) (p : ServerPlayer) (_ : p.isFrozen = true),
        struckDuring balls p = p) ∧
    (∀ (balls : List ServerSnowball) (p : ServerPlayer),
        (struckDuring balls p = p ∨ struckDuring balls p = { p with isFrozen := true }) ∧
          (p.isFrozen = false → (struckDuring balls p).isFrozen = true →
            ∃ b ∈ balls, b.ownerId ≠ p.id ∧ b.team ≠ p.team ∧
              hypot (b.update.x - p.x) (b.update.y - p.y) < p.radius + b.update.radius)) ∧
    (∀ (s : Server),
        (tick s).1.gameState.players =
          s.gameState.players.map (fun p =>
            struckDuring s.gameState.snowballs
                ((chargeProgress p).update s.gameState.obstacles).1)) := by
  have updatePlayers_eq_map : ∀ (obstacles : List Obstacle) (ps : List ServerPlayer),
      (updatePlayers obstacles ps).1 = ps.map (fun p =>
          ((chargeProgress p).update obstacles).1) := by
    intro obstacles ps
    induction ps with
    | nil => rfl
    | cons p ps ih => simp [updatePlayers, ih]
  have updateSnowballs_players : ∀ (obstacles : List Obstacle) (balls : List ServerSnowball)
      (ps : List ServerPlayer),
      (updateSnowballs obstacles balls ps).players = ps.map (struckDuring balls) := by
    intro obstacles balls ps
    induction balls generalizing ps with
    | nil =>
      have h : struckDuring [] = id := rfl
      simp [updateSnowballs, h]
    | cons b bs ih =>
      simp only [updateSnowballs, ih, (processBall_spec.2.2.2.2.1), List.map_map]
      rfl
  have struckDuring_of_frozen : ∀ (balls : List ServerSnowball) (p : ServerPlayer)
      (h : p.isFrozen = true),
      struckDuring balls p = p := by
    intro balls p h
    have freezeIfStruck_of_frozen : ∀ (ball : ServerSnowball) (p : ServerPlayer)
        (h : p.isFrozen = true),
        freezeIfStruck ball p = p := by
      intro ball p h
      have : ¬ ball.strikes p := fun hs => hs.1 (Or.inr (Or.inr h))
      simp [freezeIfStruck, this]
    induction balls with
    | nil => rfl
    | cons b bs ih =>
      simp only [struckDuring, List.foldl_cons] at ih ⊢
      rw [freezeIfStruck_of_frozen _ _ h]
      exact ih
  -- Across the pass a player changes in `isFrozen` at most, and from unfrozen to
  -- frozen only by a ball that struck it.
  have struckDuring_spec : ∀ (balls : List ServerSnowball) (p : ServerPlayer),
      (struckDuring balls p = p ∨ struckDuring balls p = { p with isFrozen := true }) ∧
        (p.isFrozen = false → (struckDuring balls p).isFrozen = true →
          ∃ b ∈ balls, b.ownerId ≠ p.id ∧ b.team ≠ p.team ∧
            hypot (b.update.x - p.x) (b.update.y - p.y) < p.radius + b.update.radius) := by
    intro balls p
    have struckDuring_cons : ∀ (b : ServerSnowball) (bs : List ServerSnowball) (p : ServerPlayer),
        struckDuring (b :: bs) p = struckDuring bs (freezeIfStruck b.update p) := by
      intro b bs p
      exact rfl
    induction balls generalizing p with
    | nil =>
      refine ⟨Or.inl rfl, fun h1 h2 => ?_⟩
      simp [struckDuring, h1] at h2
    | cons b bs ih =>
      rw [struckDuring_cons]
      by_cases hs : b.update.strikes p
      · have hfr : freezeIfStruck b.update p = { p with isFrozen := true } := by
          simp [freezeIfStruck, hs]
        rw [hfr, struckDuring_of_frozen _ _ rfl]
        refine ⟨Or.inr rfl, fun _ _ => ⟨b, List.mem_cons_self _ _, ?_, ?_, hs.2⟩⟩
        · exact fun h => hs.1 (Or.inl (((snowball_update_spec.1) b).1.trans h))
        · exact fun h => hs.1 (Or.inr (Or.inl (((snowball_update_spec.1) b).2.1.trans h)))
      · have hfr : freezeIfStruck b.update p = p := by simp [freezeIfStruck, hs]
        rw [hfr]
        refine ⟨(ih p).1, fun h1 h2 => ?_⟩
        obtain ⟨b', hb', h'⟩ := (ih p).2 h1 h2
        exact ⟨b', List.mem_cons_of_mem _ hb', h'⟩
  have tick_players : ∀ (s : Server),
      (tick s).1.gameState.players =
        s.gameState.players.map (fun p =>
          struckDuring s.gameState.snowballs
              ((chargeProgress p).update s.gameState.obstacles).1) := by
    intro s
    unfold tick
    simp [updateSnowballs_players, updatePlayers_eq_map]
  exact ⟨updatePlayers_eq_map, updateSnowballs_players, struckDuring_of_frozen, struckDuring_spec,
      tick_players⟩

/-- The live set after one run of the loop and after several. -/
theorem tick_snowballs_spec :
    (∀ (s : Server),
        (tick s).1.gameState.snowballs.Sublist
          (s.gameState.snowballs.map ServerSnowball.update)) ∧
    (∀ (s : Server),
        ∀ b ∈ (tick s).1.gameState.snowballs, b.active = true) ∧
    (∀ (n : ℕ) (s : Server),
        (ticks n s).gameState.snowballs.Sublist
          (s.gameState.snowballs.map (ServerSnowball.update^[n]))) ∧
    (∀ (n : ℕ) (s : Server),
        ∀ b ∈ (ticks (n + 1) s).gameState.snowballs, b.active = true) := by
  have tick_snowballs_sublist : ∀ (s : Server),
      (tick s).1.gameState.snowballs.Sublist
        (s.gameState.snowballs.map ServerSnowball.update) := by
    intro s
    have updateSnowballs_live_sublist : ∀ (obstacles : List Obstacle) (balls : List ServerSnowball)
        (ps : List ServerPlayer),
        ((updateSnowballs obstacles balls ps).balls.filter (fun b => b.active)).Sublist
          (balls.map ServerSnowball.update) := by
      intro obstacles balls ps
      have processBall_active : ∀ (obstacles : List Obstacle) (b : ServerSnowball)
          (ps : List ServerPlayer) (h : (processBall obstacles b ps).ball.active = true),
          (processBall obstacles b ps).ball = b.update := by
        intro obstacles b ps h
        -- The ball after the body is its update, with `active` possibly cleared.
        have processBall_ball_cases : ∀ (obstacles : List Obstacle) (b : ServerSnowball)
            (ps : List ServerPlayer),
            (processBall obstacles b ps).ball = b.update ∨
              (processBall obstacles b ps).ball = { b.update with active := false } := by
          intro obstacles b ps
          -- A ball that struck nobody goes to the obstacle loop as its own update left it.
          have processBall_of_not_struck : ∀ (obstacles : List Obstacle) (b : ServerSnowball)
              (ps : List ServerPlayer) (h : ¬ ∃ p ∈ ps, b.update.strikes p),
              (processBall obstacles b ps).ball = (collideObstacles b.update obstacles).1 ∧
                (processBall obstacles b ps).events = (collideObstacles b.update obstacles).2 := by
            intro obstacles b ps h
            have hf : ps.filter (fun p => decide (b.update.strikes p)) = [] := by
              rw [List.filter_eq_nil_iff]
              intro p hp
              simpa using fun hs => h ⟨p, hp, hs⟩
            unfold processBall
            simp only [(processBall_spec.2.1), (processBall_spec.1), if_neg h, hf]
            simp
          by_cases h : ∃ p ∈ ps, b.update.strikes p
          · exact Or.inr ((processBall_spec.2.2.2.2.2) obstacles b ps h).1
          · rw [(processBall_of_not_struck obstacles b ps h).1]
            rcases (processBall_spec.2.2.2.1) b.update obstacles with h1 | ⟨_, h1⟩
            · exact Or.inl (by rw [h1])
            · exact Or.inr (by rw [h1])
        rcases processBall_ball_cases obstacles b ps with h1 | h1
        · exact h1
        · rw [h1] at h; simp at h
      induction balls generalizing ps with
      | nil => simp [updateSnowballs]
      | cons b bs ih =>
        simp only [updateSnowballs, List.map_cons]
        by_cases h : (processBall obstacles b ps).ball.active = true
        · rw [List.filter_cons_of_pos h, processBall_active obstacles b ps h]
          exact (ih _).cons₂ _
        · rw [List.filter_cons_of_neg h]
          exact (ih _).cons _
    unfold tick
    exact updateSnowballs_live_sublist _ _ _
  have tick_snowballs_active : ∀ (s : Server),
      ∀ b ∈ (tick s).1.gameState.snowballs, b.active = true := by
    intro s
    intro b hb
    unfold tick at hb
    simp only [List.mem_filter] at hb
    exact hb.2
  have ticks_snowballs_sublist : ∀ (n : ℕ) (s : Server),
      (ticks n s).gameState.snowballs.Sublist
        (s.gameState.snowballs.map (ServerSnowball.update^[n])) := by
    intro n s
    have ticks_succ : ∀ (n : ℕ) (s : Server),
        ticks (n + 1) s = ticks n (tick s).1 := by
      intro n s
      exact rfl
    induction n generalizing s with
    | zero => simp [ticks]
    | succ n ih =>
      rw [ticks_succ]
      refine (ih _).trans ?_
      have h := (tick_snowballs_sublist s).map (ServerSnowball.update^[n])
      rw [List.map_map] at h
      exact h
  have ticks_snowballs_active : ∀ (n : ℕ) (s : Server),
      ∀ b ∈ (ticks (n + 1) s).gameState.snowballs, b.active = true := by
    intro n s
    have h : ticks (n + 1) s = (tick (ticks n s)).1 := by
      simp only [ticks, Function.iterate_succ_apply']
    rw [h]
    exact tick_snowballs_active _
  exact ⟨tick_snowballs_sublist, tick_snowballs_active, ticks_snowballs_sublist,
      ticks_snowballs_active⟩

/-- C2. Friendly fire and self-hit are impossible: a player that a run of the
loop takes from not frozen to frozen keeps its id and team, and some ball of the
live set before the run has another owner, another team, and after its own
update lies closer to the player than the sum of the two radii. -/
theorem C2_freeze_only_by_enemy_ball (s : Server) (i : ℕ) (p p' : ServerPlayer)
    (hp : s.gameState.players[i]? = some p)
    (hp' : (tick s).1.gameState.players[i]? = some p')
    (hnf : p.isFrozen = false) (hf : p'.isFrozen = true) :
    p'.id = p.id ∧ p'.team = p.team ∧
      ∃ b ∈ s.gameState.snowballs, b.ownerId ≠ p.id ∧ b.team ≠ p.team ∧
        hypot (b.update.x - p'.x) (b.update.y - p'.y) < p'.radius + b.update.radius := by
  rw [(tick_players_spec.2.2.2.2), List.getElem?_map, hp] at hp'
  simp only [Option.map_some', Option.some.injEq] at hp'
  have hcore := (sameCore_spec.2.1) ((sameCore_spec.2.2.2) p)
      ((sameCore_spec.2.2.1) s.gameState.obstacles _)
  obtain ⟨hid, hteam, hrad, hfro⟩ := hcore
  set q := ((chargeProgress p).update s.gameState.obstacles).1 with hq
  have hspec := (tick_players_spec.2.2.2.1) s.gameState.snowballs q
  rw [hp'] at hspec
  have hqnf : q.isFrozen = false := by rw [hfro]; exact hnf
  obtain ⟨b, hb, h1, h2, h3⟩ := hspec.2 hqnf hf
  have hp'q : p' = { q with isFrozen := true } := by
    rcases hspec.1 with h | h
    · rw [h] at hf; rw [hf] at hqnf; exact absurd hqnf (by simp)
    · exact h
  refine ⟨?_, ?_, b, hb, ?_, ?_, ?_⟩
  · rw [hp'q]; exact hid
  · rw [hp'q]; exact hteam
  · rw [← hid]; exact h1
  · rw [← hteam]; exact h2
  · rw [hp'q]; exact h3

/-- C4. No inactive projectile survives a run of the loop: afterwards every
snowball of the live set is active, the live set is a sublist of the updated
snowballs of the live set before, in the same order, `update` never reactivates
a snowball, and the same holds over any number of runs. -/
theorem C4_no_inactive_projectile_survives (s : Server) :
    (∀ b ∈ (tick s).1.gameState.snowballs, b.active = true) ∧
      (tick s).1.gameState.snowballs.Sublist
        (s.gameState.snowballs.map ServerSnowball.update) ∧
      (∀ b : ServerSnowball, b.active = false → b.update.active = false) ∧
      (∀ n : ℕ, (∀ b ∈ (ticks (n + 1) s).gameState.snowballs, b.active = true) ∧
        (ticks (n + 1) s).gameState.snowballs.Sublist
          (s.gameState.snowballs.map (ServerSnowball.update^[n + 1]))) :=
  ⟨(tick_snowballs_spec.2.1) s, (tick_snowballs_spec.1) s, (snowball_update_spec.2.1),
    fun n => ⟨(tick_snowballs_spec.2.2.2) n s, (tick_snowballs_spec.2.2.1) (n + 1) s⟩⟩

/-! ### Evaluating the loop on concrete states -/


/-- The two branches of the test of line 79. -/
theorem update_cases :
    (∀ (obstacles : List Obstacle) (p : ServerPlayer) (_ : p.isFrozen = false),
        (p.update obstacles).1 = ServerPlayer.obstacleCollision obstacles p.moved) ∧
    (∀ (obstacles : List Obstacle) (p : ServerPlayer) (_ : p.isFrozen = true),
        p.update obstacles = (p, [])) := by
  have update_of_not_frozen : ∀ (obstacles : List Obstacle) (p : ServerPlayer)
      (h : p.isFrozen = false),
      (p.update obstacles).1 = ServerPlayer.obstacleCollision obstacles p.moved := by
    intro obstacles p h
    unfold ServerPlayer.update
    simp [h, ServerPlayer.moved]
  have update_of_frozen : ∀ (obstacles : List Obstacle) (p : ServerPlayer) (h : p.isFrozen = true),
      p.update obstacles = (p, []) := by
    intro obstacles p h
    unfold ServerPlayer.update
    simp [h]
  exact ⟨update_of_not_frozen, update_of_frozen⟩

/-- A fresh player at rest inside the world is left as it is by line 246 and
`update`; one update of a ball in flight. -/
theorem update_at_rest :
    (∀ (id : String) (team : Team) (x y : ℝ) (_ : 0 ≤ x) (_ : x ≤ 3000) (_ : 0 ≤ y) (_ : y ≤ 2000),
        (chargeProgress (playerAt id team x y)).update [] = (playerAt id team x y, [])) ∧
    (∀ (x y vx z vz : ℝ) (o : String) (t : Team) (_ : 0 ≤ z + vz) (_ : 0 ≤ x + vx)
        (_ : x + vx ≤ 3000) (_ : 0 ≤ y) (_ : y ≤ 2000),
        (ballAt x y vx z vz o t).update =
          { ballAt (x + vx) y vx (z + vz) (vz - 0.15) o t with active := true }) ∧
    (∀ (id : String) (team : Team) (x y : ℝ) (_ : 0 ≤ x) (_ : x ≤ 3000) (_ : 0 ≤ y) (_ : y ≤ 2000),
        (playerAt id team x y).moved = playerAt id team x y) := by
  have update_playerAt : ∀ (id : String) (team : Team) (x y : ℝ) (hx0 : 0 ≤ x) (hx1 : x ≤ 3000)
      (hy0 : 0 ≤ y) (hy1 : y ≤ 2000),
      (chargeProgress (playerAt id team x y)).update [] = (playerAt id team x y, []) := by
    intro id team x y hx0 hx1 hy0 hy1
    unfold ServerPlayer.update ServerPlayer.handleDash ServerPlayer.handleMovement
    simp [chargeProgress, playerAt, ServerPlayer.new, ServerPlayer.handleGather,
        ServerPlayer.capSpeed, ServerPlayer.integrate, ServerPlayer.worldBounds, hypot,
        CONFIG.maxSpeed, CONFIG.worldWidth, CONFIG.worldHeight, not_lt.mpr hx0, not_lt.mpr hx1,
        not_lt.mpr hy0, not_lt.mpr hy1, ServerPlayer.obstacleCollision]
  have ballAt_update : ∀ (x y vx z vz : ℝ) (o : String) (t : Team) (hz : 0 ≤ z + vz)
      (hx0 : 0 ≤ x + vx) (hx1 : x + vx ≤ 3000) (hy0 : 0 ≤ y) (hy1 : y ≤ 2000),
      (ballAt x y vx z vz o t).update =
        { ballAt (x + vx) y vx (z + vz) (vz - 0.15) o t with active := true } := by
    intro x y vx z vz o t hz hx0 hx1 hy0 hy1
    simp [ballAt, ServerSnowball.update, CONFIG.worldWidth, CONFIG.worldHeight, not_lt.mpr hz,
      not_lt.mpr hx0, not_lt.mpr hx1, not_lt.mpr hy0, not_lt.mpr hy1]
  have playerAt_moved : ∀ (id : String) (team : Team) (x y : ℝ) (hx0 : 0 ≤ x) (hx1 : x ≤ 3000)
      (hy0 : 0 ≤ y) (hy1 : y ≤ 2000),
      (playerAt id team x y).moved = playerAt id team x y := by
    intro id team x y hx0 hx1 hy0 hy1
    unfold ServerPlayer.moved ServerPlayer.handleDash ServerPlayer.handleMovement
    simp [playerAt, ServerPlayer.new, ServerPlayer.handleGather, ServerPlayer.capSpeed,
        ServerPlayer.integrate, ServerPlayer.worldBounds, hypot, CONFIG.maxSpeed,
        CONFIG.worldWidth, CONFIG.worldHeight, not_lt.mpr hx0, not_lt.mpr hx1, not_lt.mpr hy0,
        not_lt.mpr hy1]
  exact ⟨update_playerAt, ballAt_update, playerAt_moved⟩

theorem tick_duel :
    tick duel =
      ({ gameState :=
          { players := [playerAt "a" Team.blue 200 100,
              { playerAt "b" Team.red 300 100 with isFrozen := true }]
            snowballs := []
            obstacles := [] }
         timers := ["b"] },
        [Event.hit 300 100 "b",
          Event.state [playerAt "a" Team.blue 200 100,
            { playerAt "b" Team.red 300 100 with isFrozen := true }] []]) := by
  have ha := (update_at_rest.1) "a" Team.blue 200 100 (by norm_num) (by norm_num) (by norm_num)
    (by norm_num)
  have hb := (update_at_rest.1) "b" Team.red 300 100 (by norm_num) (by norm_num) (by norm_num)
    (by norm_num)
  have hball := (update_at_rest.2.1) 290 100 5 14 2 "a" Team.blue (by norm_num) (by norm_num)
    (by norm_num) (by norm_num) (by norm_num)
  unfold tick
  simp only [duel, updatePlayers, ha, hb, updateSnowballs]
  unfold processBall
  simp only [hball]
  simp [collidePlayers, collideObstacles, playerAt, ballAt, ServerPlayer.new, (hypot_spec.2.2.2.1)]
  norm_num

/-- C1 (the code at the failing input). A blue player connects (draws `0`, so it
spawns at `(200, 100)`) and the loop runs once, with three trees inside the
world above the spawn point: the push-outs of step 4, which run after the clamp
of step 3, leave the player at `y = -29`, outside the world. -/
theorem C1_push_out_leaves_world :
    ((run treeColumn [Action.connect "a" 0 0 0, Action.tick]).gameState.players.map
      fun p => (p.x, p.y)) = [(200, -29)] := by
  -- A player straight below an obstacle centre (smaller `y`, same `x`) that
  -- overlaps it is pushed down the y axis to the distance `minDist`.
  have collideObstacle_of_above : ∀ (p : ServerPlayer) (obs : Obstacle) (hx : p.x = obs.x)
      (hy : p.y < obs.y) (hlt : obs.y - p.y < p.radius + obs.radius),
      p.collideObstacle obs =
        { p with y := obs.y - (p.radius + obs.radius), vx := p.vx * 0.8, vy := p.vy * 0.8 } := by
    intro p obs hx hy hlt
    have hypot_zero_left : ∀ (b : ℝ),
        hypot 0 b = |b| := by
      intro b
      simp [hypot, Real.sqrt_sq_eq_abs]
    have hd : hypot (p.x - obs.x) (p.y - obs.y) = obs.y - p.y := by
      rw [hx, sub_self, hypot_zero_left, abs_of_neg (by linarith)]; ring
    have hne : hypot (p.x - obs.x) (p.y - obs.y) ≠ 0 := by rw [hd]; linarith
    have hc := (atan2_spec.1) (p.y - obs.y) (p.x - obs.x) hne
    have hs := (atan2_spec.2.1) (p.y - obs.y) (p.x - obs.x)
    rw [hd] at hc hs
    have hne2 : obs.y - p.y ≠ 0 := by linarith
    unfold ServerPlayer.collideObstacle
    simp only [hd, hlt, if_true, hc, hs]
    congr 1
    · rw [hx]; simp
    · field_simp; ring
  simp only [run, List.foldl, step, initial, connection, setPlayer, autoBalance, List.filter,
    List.length, treeColumn]
  unfold tick
  simp only [updatePlayers, updateSnowballs]
  unfold ServerPlayer.update ServerPlayer.handleDash ServerPlayer.handleMovement
  simp [ServerPlayer.new, chargeProgress, ServerPlayer.handleGather, ServerPlayer.capSpeed,
      ServerPlayer.integrate, ServerPlayer.worldBounds, hypot, CONFIG.maxSpeed, CONFIG.worldWidth,
      CONFIG.worldHeight, ServerPlayer.obstacleCollision]
  simp (disch := norm_num) [collideObstacle_of_above, treeAt]
  norm_num

/-- Witness of C2 on `duel`: red `b` goes from not frozen to frozen, and the
ball of blue `a` is the enemy ball within reach. -/
theorem C2_freeze_only_by_enemy_ball_witness :
    ∃ b ∈ duel.gameState.snowballs, b.ownerId ≠ "b" ∧ b.team ≠ Team.red ∧
      hypot (b.update.x - 300) (b.update.y - 100) < 14 + b.update.radius :=
  (C2_freeze_only_by_enemy_ball duel 1 (playerAt "b" Team.red 300 100)
    { playerAt "b" Team.red 300 100 with isFrozen := true }
    (by simp [duel]) (by rw [tick_duel]; simp) rfl rfl).2.2

/-- C8 (the code at the failing input). On `crowd` one run of the loop has a
single snowball freeze two players and emit two `hit` messages: the loop over
the players does not test `ball.active`, as the loop over the obstacles does. -/
theorem C8_one_ball_two_hits :
    crowd.gameState.snowballs.length = 1 ∧
      (tick crowd).2.filter Event.isImpact = [Event.hit 300 100 "b", Event.hit 290 100 "c"] ∧
      crowd.gameState.players.map (fun p => p.isFrozen) = [false, false, false] ∧
      (tick crowd).1.gameState.players.map (fun p => p.isFrozen) = [false, true, true] := by
  have tick_crowd : tick crowd =
        ({ gameState :=
            { players := [playerAt "a" Team.blue 200 100,
                { playerAt "b" Team.red 300 100 with isFrozen := true },
                { playerAt "c" Team.red 290 100 with isFrozen := true }]
              snowballs := []
              obstacles := [] }
           timers := ["b", "c"] },
          [Event.hit 300 100 "b", Event.hit 290 100 "c",
            Event.state [playerAt "a" Team.blue 200 100,
              { playerAt "b" Team.red 300 100 with isFrozen := true },
              { playerAt "c" Team.red 290 100 with isFrozen := true }] []]) := by
    have ha := (update_at_rest.1) "a" Team.blue 200 100 (by norm_num) (by norm_num) (by norm_num)
      (by norm_num)
    have hb := (update_at_rest.1) "b" Team.red 300 100 (by norm_num) (by norm_num) (by norm_num)
      (by norm_num)
    have hc := (update_at_rest.1) "c" Team.red 290 100 (by norm_num) (by norm_num) (by norm_num)
      (by norm_num)
    have hball := (update_at_rest.2.1) 290 100 5 14 2 "a" Team.blue (by norm_num) (by norm_num)
      (by norm_num) (by norm_num) (by norm_num)
    unfold tick
    simp only [crowd, updatePlayers, ha, hb, hc, updateSnowballs]
    unfold processBall
    simp only [hball]
    simp [collidePlayers, collideObstacles, playerAt, ballAt, ServerPlayer.new,
        (hypot_spec.2.2.2.1)]
    norm_num
  rw [tick_crowd]
  simp [crowd, Event.isImpact, playerAt, ServerPlayer.new]

/-- C9 (the code at the failing input). On `landing` the ball's own update
deactivates it (`z = -0.9 < 0`), and the same run of the loop still freezes the
red player next to it and emits a `hit` message. -/
theorem C9_landed_ball_still_hits :
    landing.gameState.snowballs.map (fun b => (b.update.z, b.update.active)) = [(-0.9, false)] ∧
      (tick landing).2.filter Event.isImpact = [Event.hit 300 100 "b"] ∧
      landing.gameState.players.map (fun p => p.isFrozen) = [false, false] ∧
      (tick landing).1.gameState.players.map (fun p => p.isFrozen) = [false, true] := by
  have landing_ball_update : (ballAt 290 100 5 0.1 (-1) "a" Team.blue).update =
        { ballAt 295 100 5 (-0.9) (-1.15) "a" Team.blue with active := false } := by
    simp [ballAt, ServerSnowball.update, CONFIG.worldWidth, CONFIG.worldHeight]
    norm_num
  have tick_landing : tick landing =
        ({ gameState :=
            { players := [playerAt "a" Team.blue 200 100,
                { playerAt "b" Team.red 300 100 with isFrozen := true }]
              snowballs := []
              obstacles := [] }
           timers := ["b"] },
          [Event.hit 300 100 "b",
            Event.state [playerAt "a" Team.blue 200 100,
              { playerAt "b" Team.red 300 100 with isFrozen := true }] []]) := by
    have ha := (update_at_rest.1) "a" Team.blue 200 100 (by norm_num) (by norm_num) (by norm_num)
      (by norm_num)
    have hb := (update_at_rest.1) "b" Team.red 300 100 (by norm_num) (by norm_num) (by norm_num)
      (by norm_num)
    unfold tick
    simp only [landing, updatePlayers, ha, hb, updateSnowballs]
    unfold processBall
    simp only [landing_ball_update]
    simp [collidePlayers, collideObstacles, playerAt, ballAt, ServerPlayer.new,
        (hypot_spec.2.2.2.1)]
    norm_num
  rw [tick_landing]
  refine ⟨?_, ?_, ?_, ?_⟩
  · simp only [landing, List.map, landing_ball_update]
  · simp [Event.isImpact]
  · simp [landing, playerAt, ServerPlayer.new]
  · simp [playerAt, ServerPlayer.new]

/-! ### `hit` messages and the players they name -/

/-- The keys of `gameState.players` across the loop and across `modifyPlayer`. -/
theorem keys_spec :
    (∀ (obstacles : List Obstacle) (ps : List ServerPlayer),
        (updatePlayers obstacles ps).1.map (fun p => p.id) = ps.map (fun p => p.id)) ∧
    (∀ (obstacles : List Obstacle) (balls : List ServerSnowball) (ps : List ServerPlayer),
        (updateSnowballs obstacles balls ps).players.map (fun p => p.id) = ps.map (fun p => p.id)) ∧
    (∀ (id : String) (f : ServerPlayer → ServerPlayer) (ps : List ServerPlayer)
        (_ : ∀ p, p.id = id → (f p).id = p.id),
        (modifyPlayer id f ps).map (fun p => p.id) = ps.map (fun p => p.id)) := by
  have updatePlayers_ids : ∀ (obstacles : List Obstacle) (ps : List ServerPlayer),
      (updatePlayers obstacles ps).1.map (fun p => p.id) = ps.map (fun p => p.id) := by
    intro obstacles ps
    rw [(tick_players_spec.1), List.map_map]
    apply List.map_congr_left
    intro p _
    exact ((sameCore_spec.2.1) ((sameCore_spec.2.2.2) p) ((sameCore_spec.2.2.1) obstacles _)).1
  have updateSnowballs_ids : ∀ (obstacles : List Obstacle) (balls : List ServerSnowball)
      (ps : List ServerPlayer),
      (updateSnowballs obstacles balls ps).players.map (fun p => p.id) = ps.map
          (fun p => p.id) := by
    intro obstacles balls ps
    have struckDuring_id : ∀ (balls : List ServerSnowball) (p : ServerPlayer),
        (struckDuring balls p).id = p.id := by
      intro balls p
      rcases ((tick_players_spec.2.2.2.1) balls p).1 with h | h <;> rw [h]
    rw [(tick_players_spec.2.1), List.map_map]
    apply List.map_congr_left
    intro p _
    exact struckDuring_id balls p
  have modifyPlayer_ids : ∀ (id : String) (f : ServerPlayer → ServerPlayer)
      (ps : List ServerPlayer) (hf : ∀ p, p.id = id → (f p).id = p.id),
      (modifyPlayer id f ps).map (fun p => p.id) = ps.map (fun p => p.id) := by
    intro id f ps hf
    induction ps with
    | nil => rfl
    | cons q qs ih =>
      simp only [modifyPlayer]
      by_cases hq : q.id = id
      · simp [hq, hf q hq]
      · simp [hq, ih]
  exact ⟨updatePlayers_ids, updateSnowballs_ids, modifyPlayer_ids⟩

/-- C3. Enemy hit freezes. In a run of the loop from `s`, let `b` be a snowball
of the live set (`pre` before it, `post` after it) and `q` a player as it stands
when `b` is tested: `b` is not `q`'s, is of another team, `q` is not frozen, and
after `b`'s update the centres are closer than the sum of the radii. Then after
the run `q` is in the player set with `isFrozen = true` and nothing else changed,
`b` left the body of the loop inactive and the live set holds only survivors of
`pre` and of `post`, the run emitted exactly one `hit` message with `q`'s id,
namely `{x: q.x, y: q.y, id: q.id}`, and a thaw for `q.id` is pending. -/
theorem C3_enemy_hit_freezes (s : Server) (pre post : List ServerSnowball)
    (b : ServerSnowball) (q : ServerPlayer)
    (hsplit : s.gameState.snowballs = pre ++ b :: post)
    (hkeys : (s.gameState.players.map (fun p => p.id)).Nodup)
    (hq : q ∈ (duringTick s pre).players)
    (howner : b.ownerId ≠ q.id) (hteam : b.team ≠ q.team) (hnf : q.isFrozen = false)
    (hdist : hypot (b.update.x - q.x) (b.update.y - q.y) < q.radius + b.update.radius) :
    { q with isFrozen := true } ∈ (tick s).1.gameState.players ∧
      (processBall s.gameState.obstacles b (duringTick s pre).players).ball =
        { b.update with active := false } ∧
      (tick s).1.gameState.snowballs =
        (duringTick s pre).balls.filter (fun c => c.active) ++
          (updateSnowballs s.gameState.obstacles post
            (duringTick s (pre ++ [b])).players).balls.filter (fun c => c.active) ∧
      (tick s).2.filter (Event.isHitFor q.id) = [Event.hit q.x q.y q.id] ∧
      q.id ∈ (tick s).1.timers := by
  have updateSnowballs_append : ∀ (obstacles : List Obstacle) (l1 l2 : List ServerSnowball)
      (ps : List ServerPlayer),
      updateSnowballs obstacles (l1 ++ l2) ps =
        { balls := (updateSnowballs obstacles l1 ps).balls ++
            (updateSnowballs obstacles l2 (updateSnowballs obstacles l1 ps).players).balls
          players :=
              (updateSnowballs obstacles l2 (updateSnowballs obstacles l1 ps).players).players
          events := (updateSnowballs obstacles l1 ps).events ++
            (updateSnowballs obstacles l2 (updateSnowballs obstacles l1 ps).players).events
          thaws := (updateSnowballs obstacles l1 ps).thaws ++
            (updateSnowballs obstacles l2 (updateSnowballs obstacles l1 ps).players).thaws } := by
    intro obstacles l1 l2 ps
    induction l1 generalizing ps with
    | nil => simp [updateSnowballs]
    | cons b bs ih => simp [updateSnowballs, ih]
  have duringTick_snoc : ∀ (s : Server) (pre : List ServerSnowball) (b : ServerSnowball),
      (duringTick s (pre ++ [b])).players =
        (duringTick s pre).players.map (freezeIfStruck b.update) := by
    intro s pre b
    simp only [duringTick, updateSnowballs_append, updateSnowballs, (processBall_spec.2.2.2.2.1)]
  have duringTick_keys : ∀ (s : Server) (done : List ServerSnowball)
      (hkeys : (s.gameState.players.map (fun p => p.id)).Nodup),
      ((duringTick s done).players.map (fun p => p.id)).Nodup := by
    intro s done hkeys
    unfold duringTick
    rw [(keys_spec.2.1), (keys_spec.1)]
    exact hkeys
  have processBall_events : ∀ (obstacles : List Obstacle) (b : ServerSnowball)
      (ps : List ServerPlayer) (id : String),
      (processBall obstacles b ps).events.filter (Event.isHitFor id) =
        ((ps.filter (fun p => decide (b.update.strikes p))).map
          (fun p => Event.hit p.x p.y p.id)).filter (Event.isHitFor id) := by
    intro obstacles b ps id
    have collideObstacles_events_not_hit : ∀ (ball : ServerSnowball) (obstacles : List Obstacle)
        (id : String),
        (collideObstacles ball obstacles).2.filter (Event.isHitFor id) = [] := by
      intro ball obstacles id
      rcases (processBall_spec.2.2.2.1) ball obstacles with h | ⟨_, h⟩ <;> rw [h] <;> simp
          [Event.isHitFor]
    unfold processBall
    simp only [List.filter_append, collideObstacles_events_not_hit, List.append_nil,
      (processBall_spec.1)]
  -- A `hit` message of the pass names a player that was not frozen before it.
  have updateSnowballs_hit_unfrozen : ∀ (obstacles : List Obstacle) (balls : List ServerSnowball)
      (ps : List ServerPlayer) (id : String) (e : Event)
      (he : e ∈ (updateSnowballs obstacles balls ps).events) (hid : Event.isHitFor id e = true),
      ∃ p ∈ ps, p.id = id ∧ p.isFrozen = false := by
    intro obstacles balls ps id e he hid
    have freezeIfStruck_cases : ∀ (ball : ServerSnowball) (p : ServerPlayer),
        (ball.strikes p ∧ freezeIfStruck ball p = { p with isFrozen := true }) ∨
          (¬ ball.strikes p ∧ freezeIfStruck ball p = p) := by
      intro ball p
      by_cases h : ball.strikes p
      · exact Or.inl ⟨h, by simp [freezeIfStruck, h]⟩
      · exact Or.inr ⟨h, by simp [freezeIfStruck, h]⟩
    have freezeIfStruck_id : ∀ (ball : ServerSnowball) (p : ServerPlayer),
        (freezeIfStruck ball p).id = p.id := by
      intro ball p
      rcases freezeIfStruck_cases ball p with ⟨_, h⟩ | ⟨_, h⟩ <;> rw [h]
    induction balls generalizing ps with
    | nil => simp [updateSnowballs] at he
    | cons b bs ih =>
      simp only [updateSnowballs, List.mem_append] at he
      rcases he with he | he
      · have hmem : e ∈ (processBall obstacles b ps).events.filter (Event.isHitFor id) :=
          List.mem_filter.mpr ⟨he, hid⟩
        rw [processBall_events] at hmem
        obtain ⟨hmem, _⟩ := List.mem_filter.mp hmem
        obtain ⟨p, hp, rfl⟩ := List.mem_map.mp hmem
        obtain ⟨hp1, hp2⟩ := List.mem_filter.mp hp
        have hs : b.update.strikes p := by simpa using hp2
        refine ⟨p, hp1, by simpa [Event.isHitFor] using hid, ?_⟩
        have := hs.1
        simp only [not_or] at this
        simpa using this.2.2
      · obtain ⟨p', hp', hid', hfr'⟩ := ih _ he
        rw [(processBall_spec.2.2.2.2.1)] at hp'
        obtain ⟨p, hp, rfl⟩ := List.mem_map.mp hp'
        refine ⟨p, hp, by rw [← hid', freezeIfStruck_id], ?_⟩
        rcases freezeIfStruck_cases b.update p with ⟨_, h⟩ | ⟨_, h⟩
        · rw [h] at hfr'; simp at hfr'
        · rw [h] at hfr'; exact hfr'
  -- A `hit` message of the pass names a player that the pass leaves frozen.
  have updateSnowballs_hit_frozen : ∀ (obstacles : List Obstacle) (balls : List ServerSnowball)
      (ps : List ServerPlayer) (id : String) (e : Event)
      (he : e ∈ (updateSnowballs obstacles balls ps).events) (hid : Event.isHitFor id e = true),
      ∃ p ∈ (updateSnowballs obstacles balls ps).players, p.id = id ∧ p.isFrozen = true := by
    intro obstacles balls ps id e he hid
    induction balls generalizing ps with
    | nil => simp [updateSnowballs] at he
    | cons b bs ih =>
      simp only [updateSnowballs, List.mem_append] at he ⊢
      rcases he with he | he
      · have hmem : e ∈ (processBall obstacles b ps).events.filter (Event.isHitFor id) :=
          List.mem_filter.mpr ⟨he, hid⟩
        rw [processBall_events] at hmem
        obtain ⟨hmem, _⟩ := List.mem_filter.mp hmem
        obtain ⟨p, hp, rfl⟩ := List.mem_map.mp hmem
        obtain ⟨hp1, hp2⟩ := List.mem_filter.mp hp
        have hs : b.update.strikes p := by simpa using hp2
        refine ⟨{ p with isFrozen := true }, ?_, ?_, rfl⟩
        · rw [(tick_players_spec.2.1), (processBall_spec.2.2.2.2.1)]
          refine List.mem_map.mpr ⟨{ p with isFrozen := true }, ?_,
              (tick_players_spec.2.2.1) _ _ rfl⟩
          refine List.mem_map.mpr ⟨p, hp1, ?_⟩
          simp [freezeIfStruck, hs]
        · simpa [Event.isHitFor] using hid
      · exact ih _ he
  have hits_filter_of_present : ∀ (P : ServerPlayer → Bool) (ps : List ServerPlayer)
      (hkeys : (ps.map (fun p => p.id)).Nodup) (q : ServerPlayer) (hq : q ∈ ps) (hP : P q = true),
      ((ps.filter P).map (fun p => Event.hit p.x p.y p.id)).filter (Event.isHitFor q.id) =
        [Event.hit q.x q.y q.id] := by
    intro P ps hkeys q hq hP
    have hits_filter_of_absent : ∀ (P : ServerPlayer → Bool) (id : String) (ps : List ServerPlayer)
        (h : ∀ p ∈ ps, P p = true → p.id ≠ id),
        ((ps.filter P).map (fun p => Event.hit p.x p.y p.id)).filter (Event.isHitFor id) = [] := by
      intro P id ps h
      rw [List.filter_eq_nil_iff]
      intro e he
      obtain ⟨p, hp, rfl⟩ := List.mem_map.mp he
      obtain ⟨hp1, hp2⟩ := List.mem_filter.mp hp
      simpa [Event.isHitFor] using h p hp1 hp2
    induction ps with
    | nil => cases hq
    | cons p ps ih =>
      rw [List.map_cons, List.nodup_cons] at hkeys
      rcases List.mem_cons.mp hq with rfl | hq'
      · have hrest := hits_filter_of_absent P q.id ps (fun p hp _ hid =>
          hkeys.1 (List.mem_map.mpr ⟨p, hp, hid⟩))
        simp [List.filter_cons, hP, Event.isHitFor, hrest]
      · have hne : p.id ≠ q.id := fun hid =>
          hkeys.1 (List.mem_map.mpr ⟨q, hq', hid.symm⟩)
        by_cases hPp : P p = true
        · simp [List.filter_cons, hPp, Event.isHitFor, hne, ih hkeys.2 hq']
        · simp [List.filter_cons, hPp, ih hkeys.2 hq']
  have updatePlayers_events_not_hit : ∀ (obstacles : List Obstacle) (ps : List ServerPlayer)
      (id : String),
      (updatePlayers obstacles ps).2.filter (Event.isHitFor id) = [] := by
    intro obstacles ps id
    have update_events_not_hit : ∀ (obstacles : List Obstacle) (p : ServerPlayer) (id : String),
        ∀ e ∈ (p.update obstacles).2, Event.isHitFor id e = false := by
      intro obstacles p id
      unfold ServerPlayer.update ServerPlayer.handleDash ServerPlayer.handleMovement
        ServerPlayer.handleGather
      dsimp only
      split_ifs <;> simp [Event.isHitFor]
    induction ps with
    | nil => rfl
    | cons p ps ih =>
      simp only [updatePlayers, List.filter_append, ih, List.append_nil]
      rw [List.filter_eq_nil_iff]
      intro e he
      simp [update_events_not_hit obstacles _ id e he]
  -- Keys are unique: two players of the list with one id are one player.
  have eq_of_id_eq : ∀ {ps : List ServerPlayer} (h : (ps.map (fun p => p.id)).Nodup)
      {p q : ServerPlayer} (hp : p ∈ ps) (hq : q ∈ ps) (hid : p.id = q.id),
      p = q := by
    intro ps h p q hp hq hid
    exact List.inj_on_of_nodup_map h hp hq hid
  have processBall_thaws : ∀ (obstacles : List Obstacle) (b : ServerSnowball)
      (ps : List ServerPlayer),
      (processBall obstacles b ps).thaws =
        (ps.filter (fun p => decide (b.update.strikes p))).map (fun p => p.id) := by
    intro obstacles b ps
    have collidePlayers_thaws : ∀ (ball : ServerSnowball) (ps : List ServerPlayer),
        (collidePlayers ball ps).thaws =
          (ps.filter (fun p => decide (ball.strikes p))).map (fun p => p.id) := by
      intro ball ps
      induction ps generalizing ball with
      | nil => rfl
      | cons p ps ih =>
        simp only [collidePlayers]
        by_cases h1 : ball.ownerId = p.id ∨ ball.team = p.team ∨ p.isFrozen = true
        · have hs : ¬ ball.strikes p := fun h => h.1 h1
          simp [h1, ih, hs]
        · by_cases h2 : hypot (ball.x - p.x) (ball.y - p.y) < p.radius + ball.radius
          · have hs : ball.strikes p := ⟨h1, h2⟩
            simp [h1, h2, ih, hs]
            rfl
          · have hs : ¬ ball.strikes p := fun h => h2 h.2
            simp [h1, h2, ih, hs]
    unfold processBall
    simp [collidePlayers_thaws]
  have hs : b.update.strikes q := by
    refine ⟨?_, hdist⟩
    rintro (h | h | h)
    · exact howner (((snowball_update_spec.1) b).1.symm.trans h)
    · exact hteam (((snowball_update_spec.1) b).2.1.symm.trans h)
    · rw [hnf] at h; cases h
  have hex : ∃ p ∈ (duringTick s pre).players, b.update.strikes p := ⟨q, hq, hs⟩
  have hfq : freezeIfStruck b.update q = { q with isFrozen := true } := by
    simp [freezeIfStruck, hs]
  have hq3 : ({ q with isFrozen := true } : ServerPlayer) ∈
      (duringTick s (pre ++ [b])).players := by
    rw [duringTick_snoc]
    exact List.mem_map.mpr ⟨q, hq, hfq⟩
  have hball := (processBall_spec.2.2.2.2.2) s.gameState.obstacles b (duringTick s pre).players hex
  have hsb : updateSnowballs s.gameState.obstacles (pre ++ b :: post)
      (updatePlayers s.gameState.obstacles s.gameState.players).1 =
      { balls := (duringTick s pre).balls ++
          ((processBall s.gameState.obstacles b (duringTick s pre).players).ball ::
            (updateSnowballs s.gameState.obstacles post
              (duringTick s (pre ++ [b])).players).balls)
        players := (updateSnowballs s.gameState.obstacles post
              (duringTick s (pre ++ [b])).players).players
        events := (duringTick s pre).events ++
          ((processBall s.gameState.obstacles b (duringTick s pre).players).events ++
            (updateSnowballs s.gameState.obstacles post
              (duringTick s (pre ++ [b])).players).events)
        thaws := (duringTick s pre).thaws ++
          ((processBall s.gameState.obstacles b (duringTick s pre).players).thaws ++
            (updateSnowballs s.gameState.obstacles post
              (duringTick s (pre ++ [b])).players).thaws) } := by
    rw [duringTick_snoc]
    simp only [duringTick, updateSnowballs_append, updateSnowballs, (processBall_spec.2.2.2.2.1)]
  refine ⟨?_, hball.1, ?_, ?_, ?_⟩
  · unfold tick; simp only [hsplit, hsb]
    rw [(tick_players_spec.2.1)]
    exact List.mem_map.mpr ⟨_, hq3, (tick_players_spec.2.2.1) _ _ rfl⟩
  · unfold tick; simp only [hsplit, hsb, List.filter_append]
    rw [List.filter_cons_of_neg (by rw [hball.1]; simp)]
  · unfold tick; simp only [hsplit, hsb, List.filter_append, updatePlayers_events_not_hit,
      List.nil_append]
    have hpre : (duringTick s pre).events.filter (Event.isHitFor q.id) = [] := by
      rw [List.filter_eq_nil_iff]
      intro e he hid
      obtain ⟨p, hp, hpid, hpf⟩ :=
        updateSnowballs_hit_frozen _ _ _ q.id e he hid
      have := eq_of_id_eq (duringTick_keys s pre hkeys) hp hq hpid
      rw [this, hnf] at hpf
      cases hpf
    have hpost : (updateSnowballs s.gameState.obstacles post
        (duringTick s (pre ++ [b])).players).events.filter (Event.isHitFor q.id) = [] := by
      rw [List.filter_eq_nil_iff]
      intro e he hid
      obtain ⟨p, hp, hpid, hpf⟩ :=
        updateSnowballs_hit_unfrozen _ _ _ q.id e he hid
      have := eq_of_id_eq (duringTick_keys s (pre ++ [b]) hkeys) hp hq3 hpid
      rw [this] at hpf
      cases hpf
    have hb : (processBall s.gameState.obstacles b (duringTick s pre).players).events.filter
        (Event.isHitFor q.id) = [Event.hit q.x q.y q.id] := by
      rw [processBall_events]
      exact hits_filter_of_present _ _ (duringTick_keys s pre hkeys) q hq (by simpa using hs)
    rw [hpre, hb, hpost]
    simp [Event.isHitFor]
  · unfold tick; simp only [hsplit, hsb, processBall_thaws, List.mem_append, List.mem_map,
      List.mem_filter]
    exact Or.inr (Or.inr (Or.inl ⟨q, ⟨hq, by simpa using hs⟩, rfl⟩))

/-- Witness of C3 on `duel`: the ball of blue `a` reaches red `b`. -/
theorem C3_enemy_hit_freezes_witness :
    { playerAt "b" Team.red 300 100 with isFrozen := true } ∈ (tick duel).1.gameState.players ∧
      (tick duel).1.gameState.snowballs = [] ∧
      (tick duel).2.filter (Event.isHitFor "b") = [Event.hit 300 100 "b"] ∧
      "b" ∈ (tick duel).1.timers := by
  have hup := (update_at_rest.1) "a" Team.blue 200 100 (by norm_num) (by norm_num) (by norm_num)
    (by norm_num)
  have hub := (update_at_rest.1) "b" Team.red 300 100 (by norm_num) (by norm_num) (by norm_num)
    (by norm_num)
  have hball := (update_at_rest.2.1) 290 100 5 14 2 "a" Team.blue (by norm_num) (by norm_num)
    (by norm_num) (by norm_num) (by norm_num)
  have h := C3_enemy_hit_freezes duel [] [] (ballAt 290 100 5 14 2 "a" Team.blue)
    (playerAt "b" Team.red 300 100) rfl (by simp [duel, playerAt, ServerPlayer.new])
    (by simp [duringTick, duel, updateSnowballs, updatePlayers, hup, hub])
    (by simp [ballAt, playerAt, ServerPlayer.new])
    (by simp [ballAt, playerAt, ServerPlayer.new]) rfl
    (by rw [hball]; simp [ballAt, playerAt, ServerPlayer.new, (hypot_spec.2.2.2.1)]; norm_num)
  refine ⟨h.1, ?_, h.2.2.2.1, h.2.2.2.2⟩
  rw [tick_duel]

/-! ### The player map: lookup and update by key -/

/-- Reading `gameState.players[id]`. -/
theorem lookupPlayer_spec :
    (∀ {id : String} {ps : List ServerPlayer} {p : ServerPlayer} (_ : lookupPlayer id ps = some p),
        p.id = id) ∧
    (∀ {id : String} {ps : List ServerPlayer} {p : ServerPlayer} (_ : lookupPlayer id ps = some p),
        p ∈ ps) ∧
    (∀ (id : String) (q : ServerPlayer) (ps : List ServerPlayer),
        lookupPlayer id (q :: ps) = if q.id = id then some q else lookupPlayer id ps) ∧
    (∀ (id : String) (f : ServerPlayer → ServerPlayer) (ps : List ServerPlayer) (p : ServerPlayer)
        (_ : lookupPlayer id ps = some p) (_ : (f p).id = id),
        lookupPlayer id (modifyPlayer id f ps) = some (f p)) := by
  have lookupPlayer_id : ∀ {id : String} {ps : List ServerPlayer} {p : ServerPlayer}
      (h : lookupPlayer id ps = some p),
      p.id = id := by
    intro id ps p h
    have := List.find?_some h
    simpa using this
  have lookupPlayer_mem : ∀ {id : String} {ps : List ServerPlayer} {p : ServerPlayer}
      (h : lookupPlayer id ps = some p),
      p ∈ ps := by
    intro id ps p h
    exact List.mem_of_find?_eq_some h
  have lookupPlayer_cons : ∀ (id : String) (q : ServerPlayer) (ps : List ServerPlayer),
      lookupPlayer id (q :: ps) = if q.id = id then some q else lookupPlayer id ps := by
    intro id q ps
    unfold lookupPlayer
    by_cases h : q.id = id <;> simp [List.find?_cons, h]
  -- Reading the key just written gives the written player.
  have lookupPlayer_modifyPlayer : ∀ (id : String) (f : ServerPlayer → ServerPlayer)
      (ps : List ServerPlayer) (p : ServerPlayer) (h : lookupPlayer id ps = some p)
      (hf : (f p).id = id),
      lookupPlayer id (modifyPlayer id f ps) = some (f p) := by
    intro id f ps p h hf
    induction ps with
    | nil => simp [lookupPlayer] at h
    | cons q qs ih =>
      rw [lookupPlayer_cons] at h
      simp only [modifyPlayer]
      by_cases hq : q.id = id
      · rw [if_pos hq] at h ⊢
        cases h
        rw [lookupPlayer_cons, if_pos hf]
      · rw [if_neg hq] at h ⊢
        rw [lookupPlayer_cons, if_neg hq]
        exact ih h
  exact ⟨lookupPlayer_id, lookupPlayer_mem, lookupPlayer_cons, lookupPlayer_modifyPlayer⟩

/-! ### The `input` handler -/

/-- The `input` handler on the player it names. -/
theorem input_spec :
    (∀ (data : InputData) (p : ServerPlayer),
        (chargeStart data p).id = p.id ∧ (chargeStart data p).team = p.team ∧
          (chargeStart data p).x = p.x ∧ (chargeStart data p).y = p.y ∧
          (chargeStart data p).hasBall = p.hasBall ∧ (chargeStart data p).isFrozen = p.isFrozen) ∧
    (∀ (data : InputData) (p0 : ServerPlayer),
        releases data (chargeStart data (bufferInputs data p0)) ↔
          data.throwRelease = true ∧ p0.hasBall = true ∧ p0.isFrozen = false) ∧
    (∀ (id : String) (data : InputData) (g : GameState) (p0 : ServerPlayer)
        (_ : lookupPlayer id g.players = some p0),
        lookupPlayer id (input id data g).1.players = some (playerInput data p0)) := by
  have chargeStart_frame : ∀ (data : InputData) (p : ServerPlayer),
      (chargeStart data p).id = p.id ∧ (chargeStart data p).team = p.team ∧
        (chargeStart data p).x = p.x ∧ (chargeStart data p).y = p.y ∧
        (chargeStart data p).hasBall = p.hasBall ∧ (chargeStart data p).isFrozen = p.isFrozen := by
    intro data p
    unfold chargeStart
    split_ifs <;> simp
  have releases_iff : ∀ (data : InputData) (p0 : ServerPlayer),
      releases data (chargeStart data (bufferInputs data p0)) ↔
        data.throwRelease = true ∧ p0.hasBall = true ∧ p0.isFrozen = false := by
    intro data p0
    obtain ⟨_, _, _, _, h5, h6⟩ := chargeStart_frame data (bufferInputs data p0)
    unfold releases
    rw [h5, h6]
  have input_player : ∀ (id : String) (data : InputData) (g : GameState) (p0 : ServerPlayer)
      (hp0 : lookupPlayer id g.players = some p0),
      lookupPlayer id (input id data g).1.players = some (playerInput data p0) := by
    intro id data g p0 hp0
    have hid : (chargeStart data (bufferInputs data p0)).id = id :=
      (chargeStart_frame data _).1.trans (show p0.id = id from (lookupPlayer_spec.1) hp0)
    simp only [input, hp0, playerInput]
    split_ifs
    · exact (lookupPlayer_spec.2.2.2) id _ g.players p0 hp0 hid
    · exact (lookupPlayer_spec.2.2.2) id _ g.players p0 hp0 hid
  exact ⟨chargeStart_frame, releases_iff, input_player⟩

/-- C5. The `throwRelease` contract, for an `input` message of a known player
`p0`: a snowball is appended to the live set exactly when `data.throwRelease`
holds, `p0.hasBall` holds and `p0.isFrozen` does not; the charge level `c` that
counts is the one after the `throwStart` handling of the same message; when
appended, the live set grows by the one snowball at `(p0.x, p0.y)`, `z = 14`,
`vz = 2`, velocity `(cos angle * s, sin angle * s)` with `s = ballSpeed + c/5`,
radius `6 + c/20`, `ownerId = p0.id`, `team = p0.team`, `active`, and the player
is left with `hasBall = false`, `chargeLevel = 0`; for `angle = 0` and `c = 1`
the velocity is `(12.2, 0, 2)`; otherwise the live set is unchanged. -/
theorem C5_throw_release_contract (id : String) (data : InputData) (g : GameState)
    (p0 : ServerPlayer) (hp0 : lookupPlayer id g.players = some p0) :
    ((∃ ball, (input id data g).1.snowballs = g.snowballs ++ [ball]) ↔
        data.throwRelease = true ∧ p0.hasBall = true ∧ p0.isFrozen = false) ∧
      (chargeStart data (bufferInputs data p0)).chargeLevel =
        (if data.throwStart = true ∧ p0.hasBall = true ∧ p0.isFrozen = false then 1
          else p0.chargeLevel) ∧
      (data.throwRelease = true ∧ p0.hasBall = true ∧ p0.isFrozen = false →
        (input id data g).1.snowballs = g.snowballs ++
          [{ x := p0.x
             y := p0.y
             vx := Real.cos data.angle *
               (CONFIG.ballSpeed + ((chargeStart data (bufferInputs data p0)).chargeLevel : ℝ) / 5)
             vy := Real.sin data.angle *
               (CONFIG.ballSpeed + ((chargeStart data (bufferInputs data p0)).chargeLevel : ℝ) / 5)
             z := 14
             vz := 2
             ownerId := p0.id
             team := p0.team
             active := true
             radius := 6 + ((chargeStart data (bufferInputs data p0)).chargeLevel : ℝ) / 20 }] ∧
        lookupPlayer id (input id data g).1.players =
          some { chargeStart data (bufferInputs data p0) with hasBall := false, chargeLevel := 0 } ∧
        (data.angle = 0 → (chargeStart data (bufferInputs data p0)).chargeLevel = 1 →
          ∃ ball, (input id data g).1.snowballs = g.snowballs ++ [ball] ∧
            (ball.vx, ball.vy, ball.vz) = (12.2, 0, 2))) ∧
      (¬ (data.throwRelease = true ∧ p0.hasBall = true ∧ p0.isFrozen = false) →
        (input id data g).1.snowballs = g.snowballs) := by
  have hfr := (input_spec.1) data (bufferInputs data p0)
  have hrel := (input_spec.2.1) data p0
  have hyes : releases data (chargeStart data (bufferInputs data p0)) →
      (input id data g).1 =
        { g with
          players := modifyPlayer id (fun _ =>
            { chargeStart data (bufferInputs data p0) with hasBall := false, chargeLevel := 0 })
            g.players
          snowballs := g.snowballs ++ [thrownBall data
              (chargeStart data (bufferInputs data p0))] } := by
    intro h
    simp only [input, hp0, if_pos h]
  have hno : ¬ releases data (chargeStart data (bufferInputs data p0)) →
      (input id data g).1.snowballs = g.snowballs := by
    intro h
    simp only [input, hp0, if_neg h]
  have hball : thrownBall data (chargeStart data (bufferInputs data p0)) =
      { x := p0.x
        y := p0.y
        vx := Real.cos data.angle *
          (CONFIG.ballSpeed + ((chargeStart data (bufferInputs data p0)).chargeLevel : ℝ) / 5)
        vy := Real.sin data.angle *
          (CONFIG.ballSpeed + ((chargeStart data (bufferInputs data p0)).chargeLevel : ℝ) / 5)
        z := 14
        vz := 2
        ownerId := p0.id
        team := p0.team
        active := true
        radius := 6 + ((chargeStart data (bufferInputs data p0)).chargeLevel : ℝ) / 20 } := by
    obtain ⟨h1, h2, h3, h4, _, _⟩ := hfr
    simp only [thrownBall, ServerSnowball.new, h1, h2, h3, h4]
  refine ⟨⟨?_, ?_⟩, ?_, ?_, ?_⟩
  · rintro ⟨ball, hb⟩
    by_contra hc
    have := hno (fun h => hc (hrel.mp h))
    rw [this] at hb
    have := congrArg List.length hb
    simp at this
  · intro hc
    exact ⟨_, by rw [hyes (hrel.mpr hc)]⟩
  · by_cases h : data.throwStart = true ∧ p0.hasBall = true ∧ p0.isFrozen = false <;>
      simp [chargeStart, bufferInputs, h]
  · intro hc
    have hin := hyes (hrel.mpr hc)
    refine ⟨by rw [hin, hball], ?_, ?_⟩
    · rw [hin]
      exact (lookupPlayer_spec.2.2.2) id _ g.players p0 hp0
        (hfr.1.trans (show p0.id = id from (lookupPlayer_spec.1) hp0))
    · intro hang hch
      refine ⟨_, by rw [hin, hball], ?_⟩
      simp only [hang, hch, Real.cos_zero, Real.sin_zero, CONFIG.ballSpeed]
      norm_num
  · intro hc
    exact hno (fun h => hc (hrel.mp h))

/-- Witness of C5 on `duel`: `a` starts and releases at once, along the x axis. -/
theorem C5_throw_release_contract_witness :
    ∃ ball, (input "a" throwNow duel.gameState).1.snowballs =
        duel.gameState.snowballs ++ [ball] ∧ (ball.vx, ball.vy, ball.vz) = (12.2, 0, 2) :=
  ((C5_throw_release_contract "a" throwNow duel.gameState (playerAt "a" Team.blue 200 100)
    (by simp [lookupPlayer, duel, playerAt, ServerPlayer.new])).2.2.1 ⟨rfl, rfl, rfl⟩).2.2 rfl
    (by simp [chargeStart, bufferInputs, throwNow, playerAt, ServerPlayer.new])

/-! ### Reachable states: charge and keys -/

/-- The players after `setPlayer` and after `modifyPlayer`. -/
theorem mem_players_spec :
    (∀ {p q : ServerPlayer} {ps : List ServerPlayer} (_ : q ∈ setPlayer p ps),
        q = p ∨ q ∈ ps) ∧
    (∀ {id : String} {f : ServerPlayer → ServerPlayer} {q : ServerPlayer} {ps : List ServerPlayer}
        (_ : q ∈ modifyPlayer id f ps),
        q ∈ ps ∨ ∃ p ∈ ps, p.id = id ∧ q = f p) := by
  have mem_setPlayer : ∀ {p q : ServerPlayer} {ps : List ServerPlayer} (h : q ∈ setPlayer p ps),
      q = p ∨ q ∈ ps := by
    intro p q ps h
    induction ps with
    | nil => simpa [setPlayer] using h
    | cons r rs ih =>
      simp only [setPlayer] at h
      split_ifs at h
      · rcases List.mem_cons.mp h with h | h
        · exact Or.inl h
        · exact Or.inr (List.mem_cons_of_mem _ h)
      · rcases List.mem_cons.mp h with h | h
        · exact Or.inr (h ▸ List.mem_cons_self _ _)
        · rcases ih h with h | h
          · exact Or.inl h
          · exact Or.inr (List.mem_cons_of_mem _ h)
  have mem_modifyPlayer : ∀ {id : String} {f : ServerPlayer → ServerPlayer} {q : ServerPlayer}
      {ps : List ServerPlayer} (h : q ∈ modifyPlayer id f ps),
      q ∈ ps ∨ ∃ p ∈ ps, p.id = id ∧ q = f p := by
    intro id f q ps h
    induction ps with
    | nil => simp [modifyPlayer] at h
    | cons r rs ih =>
      simp only [modifyPlayer] at h
      split_ifs at h with hr
      · rcases List.mem_cons.mp h with h | h
        · exact Or.inr ⟨r, List.mem_cons_self _ _, hr, h⟩
        · exact Or.inl (List.mem_cons_of_mem _ h)
      · rcases List.mem_cons.mp h with h | h
        · exact Or.inl (h ▸ List.mem_cons_self _ _)
        · rcases ih h with h | ⟨p, hp, hpid, hq⟩
          · exact Or.inl (List.mem_cons_of_mem _ h)
          · exact Or.inr ⟨p, List.mem_cons_of_mem _ hp, hpid, hq⟩
  exact ⟨mem_setPlayer, mem_modifyPlayer⟩

/-- C6. Charge requires possession: in every state reachable from start up by
connections, input messages, runs of the loop, thaw firings and
disconnections, every player has `hasBall` when its `chargeLevel` is not `0`,
and `0 ≤ chargeLevel ≤ 60`. -/
theorem C6_charge_requires_possession (obstacles : List Obstacle) (actions : List Action)
    (p : ServerPlayer) (hp : p ∈ (run obstacles actions).gameState.players) :
    (p.chargeLevel ≠ 0 → p.hasBall = true) ∧ 0 ≤ p.chargeLevel ∧ p.chargeLevel ≤ 60 := by
  have foldl_step_chargeOk : ∀ (actions : List Action) (s : Server)
      (h : ∀ p ∈ s.gameState.players, p.chargeOk),
      ∀ p ∈ (actions.foldl step s).gameState.players, p.chargeOk := by
    intro actions s h
    -- Every action keeps `chargeOk` true of every player.
    have step_chargeOk : ∀ (s : Server) (a : Action) (h : ∀ p ∈ s.gameState.players, p.chargeOk),
        ∀ p ∈ (step s a).gameState.players, p.chargeOk := by
      intro s a h
      have chargeStart_chargeOk : ∀ (data : InputData) (p : ServerPlayer) (h : p.chargeOk),
          (chargeStart data p).chargeOk := by
        intro data p h
        unfold chargeStart
        split_ifs with hc
        · exact ⟨fun _ => hc.2.1, Nat.zero_le _, by show 1 ≤ 60; omega⟩
        · exact h
      have struckDuring_chargeOk : ∀ (balls : List ServerSnowball) (p : ServerPlayer)
          (h : p.chargeOk),
          (struckDuring balls p).chargeOk := by
        intro balls p h
        rcases ((tick_players_spec.2.2.2.1) balls p).1 with h1 | h1 <;> rw [h1] <;> exact h
      have chargeProgress_chargeOk : ∀ (p : ServerPlayer) (h : p.chargeOk),
          (chargeProgress p).chargeOk := by
        intro p h
        unfold chargeProgress
        split_ifs with hc
        · refine ⟨fun _ => h.1 (by show p.chargeLevel ≠ 0; omega), Nat.zero_le _, ?_⟩
          show p.chargeLevel + 1 ≤ 60
          omega
        · exact h
      have update_chargeKept : ∀ (obstacles : List Obstacle) (p : ServerPlayer),
          p.chargeKept (p.update obstacles).1 := by
        intro obstacles p
        have worldBounds_chargeKept : ∀ (p : ServerPlayer),
            p.chargeKept p.worldBounds := by
          intro p
          unfold ServerPlayer.worldBounds ServerPlayer.chargeKept
          dsimp only
          split_ifs <;> simp
        have handleMovement_chargeKept : ∀ (p : ServerPlayer),
            p.chargeKept p.handleMovement.1 := by
          intro p
          unfold ServerPlayer.handleMovement ServerPlayer.capSpeed ServerPlayer.handleGather
            ServerPlayer.chargeKept
          dsimp only
          split_ifs <;> simp
        have handleDash_chargeKept : ∀ (p : ServerPlayer),
            p.chargeKept p.handleDash.1 := by
          intro p
          unfold ServerPlayer.handleDash ServerPlayer.chargeKept
          dsimp only
          split_ifs <;> simp
        have chargeKept_trans : ∀ {p q r : ServerPlayer} (h1 : p.chargeKept q)
            (h2 : q.chargeKept r),
            p.chargeKept r := by
          intro p q r h1 h2
          exact ⟨h2.1.trans h1.1, fun h => h2.2 (h1.2 h)⟩
        have chargeKept_refl : ∀ (p : ServerPlayer),
            p.chargeKept p := by
          intro p
          exact ⟨rfl, id⟩
        have obstacleCollision_chargeKept : ∀ (obstacles : List Obstacle) (p : ServerPlayer),
            p.chargeKept (ServerPlayer.obstacleCollision obstacles p) := by
          intro obstacles p
          have collideObstacle_chargeKept : ∀ (p : ServerPlayer) (obs : Obstacle),
              p.chargeKept (p.collideObstacle obs) := by
            intro p obs
            unfold ServerPlayer.collideObstacle ServerPlayer.chargeKept
            dsimp only
            split_ifs <;> simp
          induction obstacles generalizing p with
          | nil => exact chargeKept_refl p
          | cons o os ih =>
            exact chargeKept_trans (collideObstacle_chargeKept p o) (ih (p.collideObstacle o))
        unfold ServerPlayer.update
        split_ifs
        · exact chargeKept_refl p
        · dsimp only
          refine chargeKept_trans (handleDash_chargeKept p)
            (chargeKept_trans (handleMovement_chargeKept _) ?_)
          refine chargeKept_trans ?_ (obstacleCollision_chargeKept _ _)
          exact chargeKept_trans ⟨rfl, id⟩ (worldBounds_chargeKept _)
      have chargeOk_of_kept : ∀ {p q : ServerPlayer} (h : p.chargeKept q) (hp : p.chargeOk),
          q.chargeOk := by
        intro p q h hp
        obtain ⟨h1, h2⟩ := h
        unfold ServerPlayer.chargeOk at *
        rw [h1]
        exact ⟨fun hc => h2 (hp.1 hc), hp.2⟩
      intro p hp
      cases a with
      | connect id rSkin rHat rY =>
        rcases (mem_players_spec.1) hp with rfl | hp
        · exact ⟨fun hc => rfl, Nat.zero_le _, Nat.zero_le _⟩
        · exact h p hp
      | input id data =>
        simp only [step, input] at hp
        split at hp
        · exact h p hp
        · rename_i p0 hp0
          have hp0ok : (chargeStart data (bufferInputs data p0)).chargeOk :=
            chargeStart_chargeOk data _ (h p0 ((lookupPlayer_spec.2.1) hp0))
          split_ifs at hp
          · rcases (mem_players_spec.2) hp with hp | ⟨_, _, _, rfl⟩
            · exact h p hp
            · exact ⟨fun hc => absurd rfl hc, Nat.zero_le _, Nat.zero_le _⟩
          · rcases (mem_players_spec.2) hp with hp | ⟨_, _, _, rfl⟩
            · exact h p hp
            · exact hp0ok
      | disconnect id =>
        exact h p (List.mem_of_mem_filter hp)
      | tick =>
        simp only [step] at hp
        rw [(tick_players_spec.2.2.2.2)] at hp
        obtain ⟨q, hq, rfl⟩ := List.mem_map.mp hp
        exact struckDuring_chargeOk _ _
          (chargeOk_of_kept (update_chargeKept _ _) (chargeProgress_chargeOk q (h q hq)))
      | thaw k =>
        simp only [step, fireThaw] at hp
        split at hp
        · exact h p hp
        · simp only [thawCallback] at hp
          split at hp
          · exact h p hp
          · rcases (mem_players_spec.2) hp with hp | ⟨q, hq, _, rfl⟩
            · exact h p hp
            · exact h q hq
    induction actions generalizing s with
    | nil => exact h
    | cons a as ih => exact ih (step s a) (step_chargeOk s a h)
  exact foldl_step_chargeOk actions (initial obstacles) (fun _ h => by cases h) p hp

/-- Witness of C6: `a` connects, starts a charge, and the loop runs once; its
charge level is then 2 and it holds the ball. -/
theorem C6_charge_requires_possession_witness :
    (({ playerAt "a" Team.blue 200 100 with chargeLevel := 2 } : ServerPlayer).chargeLevel ≠ 0 →
        ({ playerAt "a" Team.blue 200 100 with chargeLevel := 2 } : ServerPlayer).hasBall = true) ∧
      0 ≤ ({ playerAt "a" Team.blue 200 100 with chargeLevel := 2 } : ServerPlayer).chargeLevel ∧
      ({ playerAt "a" Team.blue 200 100 with chargeLevel := 2 } : ServerPlayer).chargeLevel ≤
          60 := by
  have run_charging : (run [] [Action.connect "a" 0 0 0, Action.input "a" startCharge,
        Action.tick]).gameState.players =
        [{ playerAt "a" Team.blue 200 100 with chargeLevel := 2 }] := by
    simp only [run, List.foldl, step, initial, connection, setPlayer, autoBalance, List.filter,
      List.length, input, lookupPlayer]
    unfold tick
    simp only [updatePlayers, updateSnowballs]
    unfold ServerPlayer.update ServerPlayer.handleDash ServerPlayer.handleMovement releases
    simp [ServerPlayer.new, chargeProgress, ServerPlayer.handleGather, ServerPlayer.capSpeed,
        ServerPlayer.integrate, ServerPlayer.worldBounds, hypot, CONFIG.maxSpeed,
        CONFIG.worldWidth, CONFIG.worldHeight, ServerPlayer.obstacleCollision, startCharge,
        chargeStart, bufferInputs, modifyPlayer, playerAt]
    norm_num
  exact C6_charge_requires_possession []
      [Action.connect "a" 0 0 0, Action.input "a" startCharge, Action.tick]
      { playerAt "a" Team.blue 200 100 with chargeLevel := 2 }
      (by rw [run_charging]; exact List.mem_singleton.mpr rfl)

/-- In every reachable state the keys of the player map are distinct. -/
theorem run_keys (obstacles : List Obstacle) (actions : List Action) :
    ((run obstacles actions).gameState.players.map (fun p => p.id)).Nodup := by
  -- Every action keeps the keys of the player map distinct.
  have step_keys : ∀ (s : Server) (a : Action)
      (h : (s.gameState.players.map (fun p => p.id)).Nodup),
      ((step s a).gameState.players.map (fun p => p.id)).Nodup := by
    intro s a h
    have modifyPlayer_keys : ∀ (id : String) (f : ServerPlayer → ServerPlayer)
        (ps : List ServerPlayer) (hf : ∀ p, p.id = id → (f p).id = p.id)
        (h : (ps.map (fun p => p.id)).Nodup),
        ((modifyPlayer id f ps).map (fun p => p.id)).Nodup := by
      intro id f ps hf h
      rw [(keys_spec.2.2) _ _ _ hf]
      exact h
    have tick_keys : ∀ (s : Server),
        (tick s).1.gameState.players.map (fun p => p.id) =
          s.gameState.players.map (fun p => p.id) := by
      intro s
      unfold tick
      rw [(keys_spec.2.1), (keys_spec.1)]
    have setPlayer_keys : ∀ (p : ServerPlayer) (ps : List ServerPlayer)
        (h : (ps.map (fun q => q.id)).Nodup),
        ((setPlayer p ps).map (fun q => q.id)).Nodup := by
      intro p ps h
      induction ps with
      | nil => simp [setPlayer]
      | cons q qs ih =>
        rw [List.map_cons, List.nodup_cons] at h
        simp only [setPlayer]
        split_ifs with hq
        · rw [List.map_cons, List.nodup_cons, ← hq]
          exact h
        · rw [List.map_cons, List.nodup_cons]
          refine ⟨?_, ih h.2⟩
          intro hmem
          obtain ⟨r, hr, hrid⟩ := List.mem_map.mp hmem
          rcases (mem_players_spec.1) hr with rfl | hr
          · exact hq hrid.symm
          · exact h.1 (List.mem_map.mpr ⟨r, hr, hrid⟩)
    cases a with
    | connect id rSkin rHat rY => exact setPlayer_keys _ _ h
    | input id data =>
      simp only [step, input]
      split
      · exact h
      · rename_i p0 hp0
        have hid : (chargeStart data (bufferInputs data p0)).id = id :=
          ((input_spec.1) data _).1.trans (show p0.id = id from (lookupPlayer_spec.1) hp0)
        split_ifs
        · exact modifyPlayer_keys _ _ _ (fun p hp => hid.trans hp.symm) h
        · exact modifyPlayer_keys _ _ _ (fun p hp => hid.trans hp.symm) h
    | disconnect id =>
      exact h.sublist ((List.filter_sublist _).map _)
    | tick =>
      simp only [step]
      rw [tick_keys]
      exact h
    | thaw k =>
      simp only [step, fireThaw]
      split
      · exact h
      · simp only [thawCallback]
        split
        · exact h
        · exact modifyPlayer_keys _ _ _ (fun p _ => rfl) h
  have key : ∀ (s : Server), (s.gameState.players.map (fun p => p.id)).Nodup →
      ((actions.foldl step s).gameState.players.map (fun p => p.id)).Nodup := by
    induction actions with
    | nil => exact fun _ h => h
    | cons a as ih => exact fun s h => ih (step s a) (step_keys s a h)
  exact key _ List.nodup_nil

/-! ### The thaw callback -/

/-- C7. Thaw is targeted and stale-safe. When the thaw callback of key `i` runs,
snowballs and obstacles are unchanged, the keys of the player map and their
order are unchanged (no entry is created), the player under `i`, if there is
one, becomes the same player with `isFrozen = false`, every other key holds the
same player as before, and when `i` is not a key - in particular when `i` was
deleted by `disconnect` - the whole game state is unchanged. The callback is a
total function: it raises no error. -/
theorem C7_thaw_targeted_and_stale_safe (i : String) (g : GameState) :
    (thawCallback i g).snowballs = g.snowballs ∧
      (thawCallback i g).obstacles = g.obstacles ∧
      (thawCallback i g).players.map (fun p => p.id) = g.players.map (fun p => p.id) ∧
      lookupPlayer i (thawCallback i g).players =
        (lookupPlayer i g.players).map (fun p => { p with isFrozen := false }) ∧
      (∀ j : String, j ≠ i →
        lookupPlayer j (thawCallback i g).players = lookupPlayer j g.players) ∧
      (lookupPlayer i g.players = none → thawCallback i g = g) ∧
      thawCallback i (disconnect i g) = disconnect i g := by
  have lookupPlayer_disconnect : ∀ (i : String) (g : GameState),
      lookupPlayer i (disconnect i g).players = none := by
    intro i g
    simp [lookupPlayer, disconnect, List.find?_eq_none]
  -- Writing a key leaves every other key as it was.
  have lookupPlayer_modifyPlayer_of_ne : ∀ (id j : String) (f : ServerPlayer → ServerPlayer)
      (ps : List ServerPlayer) (hf : ∀ p, (f p).id = p.id) (hj : j ≠ id),
      lookupPlayer j (modifyPlayer id f ps) = lookupPlayer j ps := by
    intro id j f ps hf hj
    induction ps with
    | nil => rfl
    | cons q qs ih =>
      simp only [modifyPlayer]
      by_cases hq : q.id = id
      · rw [if_pos hq, (lookupPlayer_spec.2.2.1), (lookupPlayer_spec.2.2.1), hf q]
        have : ¬ q.id = j := fun h => hj (h.symm.trans hq)
        rw [if_neg this, if_neg this]
      · rw [if_neg hq, (lookupPlayer_spec.2.2.1), (lookupPlayer_spec.2.2.1), ih]
  have hnone : ∀ g' : GameState, lookupPlayer i g'.players = none → thawCallback i g' = g' := by
    intro g' h
    simp only [thawCallback, h]
  refine ⟨?_, ?_, ?_, ?_, ?_, hnone g, hnone _ (lookupPlayer_disconnect i g)⟩
  · unfold thawCallback; split <;> rfl
  · unfold thawCallback; split <;> rfl
  · unfold thawCallback
    split
    · rfl
    · exact (keys_spec.2.2) _ _ _ (fun p _ => rfl)
  · cases h : lookupPlayer i g.players with
    | none => rw [hnone g h, h]; rfl
    | some p =>
      simp only [thawCallback, h, Option.map_some']
      exact (lookupPlayer_spec.2.2.2) i _ g.players p h (show p.id = i from (lookupPlayer_spec.1) h)
  · intro j hj
    unfold thawCallback
    split
    · rfl
    · exact lookupPlayer_modifyPlayer_of_ne i j _ g.players (fun p => rfl) hj

/-! ### The obstacle push-out -/

/-- One push-out: where it leaves the player. -/
theorem collideObstacle_spec :
    (∀ (p : ServerPlayer) (obs : Obstacle) (_ : p.overlaps obs),
        hypot ((p.collideObstacle obs).x - obs.x) ((p.collideObstacle obs).y - obs.y) =
          p.radius + obs.radius) ∧
    (∀ (p : ServerPlayer) (obs : Obstacle) (_ : ¬ p.overlaps obs),
        p.collideObstacle obs = p) ∧
    (∀ (p : ServerPlayer) (obs : Obstacle),
        ¬ (p.collideObstacle obs).overlaps obs) ∧
    (∀ (p : ServerPlayer) (obs : Obstacle) (_ : p.y = obs.y) (_ : obs.x < p.x)
        (_ : p.x - obs.x < p.radius + obs.radius),
        p.collideObstacle obs =
          { p with x := obs.x + (p.radius + obs.radius), vx := p.vx * 0.8, vy := p.vy * 0.8 }) := by
  -- An overlapping player is put at distance exactly `minDist` from the centre
  -- of the obstacle that pushes it.
  have collideObstacle_distance : ∀ (p : ServerPlayer) (obs : Obstacle) (h : p.overlaps obs),
      hypot ((p.collideObstacle obs).x - obs.x) ((p.collideObstacle obs).y - obs.y) =
        p.radius + obs.radius := by
    intro p obs h
    unfold ServerPlayer.overlaps at h
    have hd0 := (hypot_spec.2.1) (p.x - obs.x) (p.y - obs.y)
    have hm : 0 < p.radius + obs.radius := lt_of_le_of_lt hd0 h
    have hval : ∀ a b : ℝ, a ^ 2 + b ^ 2 = (p.radius + obs.radius) ^ 2 →
        hypot a b = p.radius + obs.radius := by
      intro a b hab
      unfold hypot
      rw [hab, Real.sqrt_sq hm.le]
    unfold ServerPlayer.collideObstacle
    simp only [h, if_true]
    by_cases hz : hypot (p.x - obs.x) (p.y - obs.y) = 0
    · obtain ⟨hx, hy⟩ := ((hypot_spec.2.2.2.2) _ _).mp hz
      rw [hz, hx, hy, (atan2_spec.2.2), Real.cos_zero, Real.sin_zero]
      apply hval
      have e1 : p.x + 1 * (p.radius + obs.radius - 0) - obs.x = p.radius + obs.radius := by
        linarith
      have e2 : p.y + 0 * (p.radius + obs.radius - 0) - obs.y = 0 := by linarith
      rw [e1, e2]
      ring
    · rw [(atan2_spec.1) _ _ hz, (atan2_spec.2.1)]
      apply hval
      have hsq := (hypot_spec.2.2.1) (p.x - obs.x) (p.y - obs.y)
      set d := hypot (p.x - obs.x) (p.y - obs.y) with hd
      set m := p.radius + obs.radius with hmdef
      have e1 : p.x + (p.x - obs.x) / d * (m - d) - obs.x = (p.x - obs.x) * (m / d) := by
        field_simp; ring
      have e2 : p.y + (p.y - obs.y) / d * (m - d) - obs.y = (p.y - obs.y) * (m / d) := by
        field_simp; ring
      rw [e1, e2]
      have : ((p.x - obs.x) * (m / d)) ^ 2 + ((p.y - obs.y) * (m / d)) ^ 2 =
          ((p.x - obs.x) ^ 2 + (p.y - obs.y) ^ 2) * (m / d) ^ 2 := by ring
      rw [this, ← hsq]
      field_simp
  have collideObstacle_of_clear : ∀ (p : ServerPlayer) (obs : Obstacle) (h : ¬ p.overlaps obs),
      p.collideObstacle obs = p := by
    intro p obs h
    unfold ServerPlayer.overlaps at h
    unfold ServerPlayer.collideObstacle
    simp only [h, if_false]
  -- Right after an obstacle is processed the player does not overlap it.
  have collideObstacle_clear : ∀ (p : ServerPlayer) (obs : Obstacle),
      ¬ (p.collideObstacle obs).overlaps obs := by
    intro p obs
    by_cases h : p.overlaps obs
    · unfold ServerPlayer.overlaps
      rw [collideObstacle_distance p obs h, ((sameCore_spec.1) p obs).2.2.1]
      exact lt_irrefl _
    · rw [collideObstacle_of_clear p obs h]
      exact h
  -- An overlapping player level with the obstacle centre and to its right is
  -- pushed right along the x axis.
  have collideObstacle_of_right : ∀ (p : ServerPlayer) (obs : Obstacle) (hy : p.y = obs.y)
      (hx : obs.x < p.x) (hlt : p.x - obs.x < p.radius + obs.radius),
      p.collideObstacle obs =
        { p with x := obs.x + (p.radius + obs.radius), vx := p.vx * 0.8, vy := p.vy * 0.8 } := by
    intro p obs hy hx hlt
    have hd : hypot (p.x - obs.x) (p.y - obs.y) = p.x - obs.x := by
      rw [hy, sub_self, (hypot_spec.2.2.2.1), abs_of_pos (by linarith)]
    have hne : hypot (p.x - obs.x) (p.y - obs.y) ≠ 0 := by rw [hd]; linarith
    have hc := (atan2_spec.1) (p.y - obs.y) (p.x - obs.x) hne
    have hs := (atan2_spec.2.1) (p.y - obs.y) (p.x - obs.x)
    rw [hd] at hc hs
    have hne2 : p.x - obs.x ≠ 0 := by linarith
    unfold ServerPlayer.collideObstacle
    simp only [hd, hlt, if_true, hc, hs]
    congr 1
    · field_simp; ring
    · rw [hy]; simp
  exact ⟨collideObstacle_distance, collideObstacle_of_clear, collideObstacle_clear,
      collideObstacle_of_right⟩

/-- C10 (counterexample). A non-frozen player at rest at `(110, 100)` overlaps
both rocks of `rockPair`; after `update` its centre is at distance 6 from the
centre of the first rock, less than the sum 34 of the radii. -/
theorem C10_second_push_re_enters :
    (playerAt "a" Team.blue 110 100).isFrozen = false ∧ rockAt 100 100 ∈ rockPair ∧
      hypot (((playerAt "a" Team.blue 110 100).update rockPair).1.x - (rockAt 100 100).x)
          (((playerAt "a" Team.blue 110 100).update rockPair).1.y - (rockAt 100 100).y) <
        ((playerAt "a" Team.blue 110 100).update rockPair).1.radius + (rockAt 100 100).radius := by
  -- A player at rest between the two rocks of `rockPair`, 10 right of the first:
  -- the first rock pushes it to `x = 134`, the second back to `x = 106`.
  have update_between_rocks : ((playerAt "a" Team.blue 110 100).update rockPair).1 =
        { playerAt "a" Team.blue 110 100 with x := 106 } := by
    -- An overlapping player level with the obstacle centre and to its left is
    -- pushed left along the x axis.
    have collideObstacle_of_left : ∀ (p : ServerPlayer) (obs : Obstacle) (hy : p.y = obs.y)
        (hx : p.x < obs.x) (hlt : obs.x - p.x < p.radius + obs.radius),
        p.collideObstacle obs =
          { p with x := obs.x - (p.radius + obs.radius), vx := p.vx * 0.8, vy := p.vy * 0.8 } := by
      intro p obs hy hx hlt
      have hd : hypot (p.x - obs.x) (p.y - obs.y) = obs.x - p.x := by
        rw [hy, sub_self, (hypot_spec.2.2.2.1), abs_of_neg (by linarith)]; ring
      have hne : hypot (p.x - obs.x) (p.y - obs.y) ≠ 0 := by rw [hd]; linarith
      have hc := (atan2_spec.1) (p.y - obs.y) (p.x - obs.x) hne
      have hs := (atan2_spec.2.1) (p.y - obs.y) (p.x - obs.x)
      rw [hd] at hc hs
      have hne2 : obs.x - p.x ≠ 0 := by linarith
      unfold ServerPlayer.collideObstacle
      simp only [hd, hlt, if_true, hc, hs]
      congr 1
      · field_simp; ring
      · rw [hy]; simp
    rw [(update_cases.1) _ _ rfl,
      (update_at_rest.2.2) _ _ _ _ (by norm_num) (by norm_num) (by norm_num) (by norm_num)]
    simp only [rockPair, ServerPlayer.obstacleCollision, List.foldl]
    simp (disch := norm_num) [(collideObstacle_spec.2.2.2), collideObstacle_of_left, rockAt,
        playerAt,
      ServerPlayer.new]
    norm_num
  refine ⟨rfl, by simp [rockPair], ?_⟩
  rw [update_between_rocks]
  simp [rockAt, playerAt, ServerPlayer.new, (hypot_spec.2.2.2.1)]
  norm_num

/-- C10 (amended). After `update` of a non-frozen player there is no residual
penetration of an obstacle `o` of the field when the player, as it stands right
after `o` was processed, overlaps none of the obstacles processed after `o`; in
particular of the last obstacle of the field, and of the one obstacle of a
field of one. -/
theorem C10_no_penetration_without_later_push (p : ServerPlayer) (pre post : List Obstacle)
    (o : Obstacle) (hnf : p.isFrozen = false)
    (hpost : ∀ o' ∈ post,
      ¬ ((ServerPlayer.obstacleCollision pre p.moved).collideObstacle o).overlaps o') :
    hypot ((p.update (pre ++ o :: post)).1.x - o.x) ((p.update (pre ++ o :: post)).1.y - o.y) ≥
      (p.update (pre ++ o :: post)).1.radius + o.radius := by
  have obstacleCollision_append : ∀ (l1 l2 : List Obstacle) (p : ServerPlayer),
      ServerPlayer.obstacleCollision (l1 ++ l2) p =
        ServerPlayer.obstacleCollision l2 (ServerPlayer.obstacleCollision l1 p) := by
    intro l1 l2 p
    simp [ServerPlayer.obstacleCollision, List.foldl_append]
  have obstacleCollision_of_clear : ∀ (obstacles : List Obstacle) (p : ServerPlayer)
      (h : ∀ o ∈ obstacles, ¬ p.overlaps o),
      ServerPlayer.obstacleCollision obstacles p = p := by
    intro obstacles p h
    induction obstacles with
    | nil => rfl
    | cons o os ih =>
      unfold ServerPlayer.obstacleCollision at ih ⊢
      rw [List.foldl_cons, (collideObstacle_spec.2.1) p o (h o (List.mem_cons_self _ _))]
      exact ih (fun o' ho' => h o' (List.mem_cons_of_mem _ ho'))
  rw [(update_cases.1) _ _ hnf, obstacleCollision_append]
  have hstep : ServerPlayer.obstacleCollision (o :: post)
      (ServerPlayer.obstacleCollision pre p.moved) =
      ServerPlayer.obstacleCollision post
        ((ServerPlayer.obstacleCollision pre p.moved).collideObstacle o) := rfl
  rw [hstep, obstacleCollision_of_clear post _ hpost]
  exact not_lt.mp ((collideObstacle_spec.2.2.1) _ o)

/-- Witness of C10 (amended): the player of the counterexample, the first rock
of `rockPair`, and a second rock far away on the same line. -/
theorem C10_no_penetration_without_later_push_witness :
    hypot (((playerAt "a" Team.blue 110 100).update
          ([] ++ rockAt 100 100 :: [rockAt 1000 100])).1.x - (rockAt 100 100).x)
        (((playerAt "a" Team.blue 110 100).update
          ([] ++ rockAt 100 100 :: [rockAt 1000 100])).1.y - (rockAt 100 100).y) ≥
      ((playerAt "a" Team.blue 110 100).update
          ([] ++ rockAt 100 100 :: [rockAt 1000 100])).1.radius + (rockAt 100 100).radius :=
  C10_no_penetration_without_later_push (playerAt "a" Team.blue 110 100) [] [rockAt 1000 100]
    (rockAt 100 100) rfl (by
      intro o' ho'
      rw [List.mem_singleton] at ho'
      subst ho'
      rw [(update_at_rest.2.2) _ _ _ _ (by norm_num) (by norm_num) (by norm_num) (by norm_num)]
      simp only [ServerPlayer.obstacleCollision, List.foldl]
      unfold ServerPlayer.overlaps
      simp (disch := norm_num) [(collideObstacle_spec.2.2.2), rockAt, playerAt, ServerPlayer.new,
          (hypot_spec.2.2.2.1)]
      norm_num)

/-! ### Frozen players across a run of the loop -/

/-- What a run of the loop does to a frozen player: line 246, and nothing else. -/
theorem tick_frozen_player (s : Server) (i : ℕ) (p : ServerPlayer)
    (hp : s.gameState.players[i]? = some p) (hf : p.isFrozen = true) :
    (tick s).1.gameState.players[i]? = some (chargeProgress p) := by
  have hcf : (chargeProgress p).isFrozen = true := ((sameCore_spec.2.2.2) p).2.2.2.trans hf
  rw [(tick_players_spec.2.2.2.2), List.getElem?_map, hp, Option.map_some',
    (update_cases.2) _ _ hcf, (tick_players_spec.2.2.1) _ _ hcf]

/-- C12 (counterexample). The player of `charging` holds the ball, is not
frozen and has charge level 30; an `input` message with `throwStart` and
without `throwRelease` leaves it with charge level 1. -/
theorem C12_throw_start_restarts_charge :
    (lookupPlayer "a" charging.players).map
        (fun p => (p.hasBall, p.isFrozen, p.chargeLevel)) = some (true, false, 30) ∧
      startCharge.throwStart = true ∧ startCharge.throwRelease = false ∧
      (lookupPlayer "a" (input "a" startCharge charging).1.players).map
        (fun p => p.chargeLevel) = some 1 := by
  have h0 : lookupPlayer "a" charging.players =
      some { playerAt "a" Team.blue 200 100 with chargeLevel := 30 } := by
    simp [lookupPlayer, charging, playerAt, ServerPlayer.new]
  refine ⟨by rw [h0]; rfl, rfl, rfl, ?_⟩
  rw [(input_spec.2.2) _ _ _ _ h0]
  unfold playerInput releases
  simp [chargeStart, bufferInputs, startCharge, playerAt, ServerPlayer.new]

/-- C12 (amended). For a player that holds the ball and is not frozen, an
`input` message without `throwRelease` leaves the charge level at 1 when it
carries `throwStart`, whatever the level was (a charge under way is restarted),
and at its former value when it does not; and line 246 never lowers a charge
level. -/
theorem C12_throw_start_sets_charge_to_one (id : String) (data : InputData) (g : GameState)
    (p0 : ServerPlayer) (hp0 : lookupPlayer id g.players = some p0)
    (hball : p0.hasBall = true) (hnf : p0.isFrozen = false)
    (hrel : data.throwRelease = false) :
    (lookupPlayer id (input id data g).1.players).map (fun p => p.chargeLevel) =
        some (if data.throwStart = true then 1 else p0.chargeLevel) ∧
      p0.chargeLevel ≤ (chargeProgress p0).chargeLevel := by
  constructor
  · rw [(input_spec.2.2) _ _ _ _ hp0]
    have hr : ¬ releases data (chargeStart data (bufferInputs data p0)) := by
      intro h
      rw [h.1] at hrel
      cases hrel
    unfold playerInput
    rw [if_neg hr, Option.map_some']
    by_cases hs : data.throwStart = true
    · simp [chargeStart, hs, bufferInputs, hball, hnf]
    · simp [chargeStart, hs, bufferInputs]
  · unfold chargeProgress
    split_ifs
    · exact Nat.le_succ _
    · exact le_refl _

/-- Witness of C12 (amended) on `charging`. -/
theorem C12_throw_start_sets_charge_to_one_witness :
    (lookupPlayer "a" (input "a" startCharge charging).1.players).map (fun p => p.chargeLevel) =
        some (if startCharge.throwStart = true then 1
          else ({ playerAt "a" Team.blue 200 100 with chargeLevel := 30 } :
            ServerPlayer).chargeLevel) ∧
      ({ playerAt "a" Team.blue 200 100 with chargeLevel := 30 } : ServerPlayer).chargeLevel ≤
        (chargeProgress { playerAt "a" Team.blue 200 100 with chargeLevel := 30 }).chargeLevel :=
  C12_throw_start_sets_charge_to_one "a" startCharge charging
    { playerAt "a" Team.blue 200 100 with chargeLevel := 30 }
    (by simp [lookupPlayer, charging, playerAt, ServerPlayer.new]) rfl rfl rfl

/-! ### `ServerSnowball.update`, field by field -/

/-- C14. The projectile update contract: position and height advance by the
velocity, `vz` loses 0.15, the snowball stays active exactly when it was active
and its new height is not below 0 and its new position is inside the world;
`vx`, `vy`, `radius`, `ownerId`, `team` are untouched; an inactive snowball stays
inactive; the radius is constant over any number of updates; the height
strictly decreases on an update that starts with `vz < 0`. -/
theorem C14_projectile_update_contract (b : ServerSnowball) :
    b.update.x = b.x + b.vx ∧ b.update.y = b.y + b.vy ∧ b.update.z = b.z + b.vz ∧
      b.update.vz = b.vz - 0.15 ∧
      (b.update.active = true ↔
        b.active = true ∧ b.update.z ≥ 0 ∧ 0 ≤ b.update.x ∧ b.update.x ≤ CONFIG.worldWidth ∧
          0 ≤ b.update.y ∧ b.update.y ≤ CONFIG.worldHeight) ∧
      b.update.vx = b.vx ∧ b.update.vy = b.vy ∧ b.update.radius = b.radius ∧
      b.update.ownerId = b.ownerId ∧ b.update.team = b.team ∧
      (b.active = false → b.update.active = false) ∧
      (∀ n : ℕ, (ServerSnowball.update^[n] b).radius = b.radius) ∧
      (b.vz < 0 → b.update.z < b.z) := by
  have snowball_iterate_radius : ∀ (n : ℕ) (b : ServerSnowball),
      (ServerSnowball.update^[n] b).radius = b.radius := by
    intro n b
    induction n generalizing b with
    | zero => rfl
    | succ n ih => rw [Function.iterate_succ_apply, ih, ((snowball_update_spec.1) b).2.2.1]
  obtain ⟨hx, hy, hz, hvz⟩ := ((snowball_update_spec.2.2.1) b)
  obtain ⟨ho, ht, hr, hvx, hvy⟩ := ((snowball_update_spec.1) b)
  refine ⟨hx, hy, hz, hvz, ?_, hvx, hvy, hr, ho, ht, ((snowball_update_spec.2.1) b),
    fun n => snowball_iterate_radius n b, fun h => by rw [hz]; linarith⟩
  rw [hx, hy, hz]
  exact ((snowball_update_spec.2.2.2) b)

/-! ### Timers across `update` -/

/-- The timers across `update`. -/
theorem timers_spec :
    (∀ (obstacles : List Obstacle) (p : ServerPlayer) (_ : p.isFrozen = false),
        p.handleDash.1.handleMovement.1.sameTimers (p.update obstacles).1) ∧
    (∀ (p : ServerPlayer),
        p.handleMovement.1.dashTimer = p.dashTimer - 1 ∧
          p.handleMovement.1.dashCooldownTimer = p.dashCooldownTimer) ∧
    (∀ (p : ServerPlayer),
        p.handleMovement.2.filter Event.isDash = []) := by
  -- After the movement step, nothing of `update` touches the timers, the gather
  -- counter or the possession flag.
  have update_sameTimers : ∀ (obstacles : List Obstacle) (p : ServerPlayer)
      (hnf : p.isFrozen = false),
      p.handleDash.1.handleMovement.1.sameTimers (p.update obstacles).1 := by
    intro obstacles p hnf
    have worldBounds_sameTimers : ∀ (p : ServerPlayer),
        p.sameTimers p.worldBounds := by
      intro p
      unfold ServerPlayer.worldBounds ServerPlayer.sameTimers
      dsimp only
      split_ifs <;> simp
    have sameTimers_trans : ∀ {p q r : ServerPlayer} (h1 : p.sameTimers q) (h2 : q.sameTimers r),
        p.sameTimers r := by
      intro p q r h1 h2
      exact ⟨h2.1.trans h1.1, h2.2.1.trans h1.2.1, h2.2.2.1.trans h1.2.2.1, h2.2.2.2.trans h1.2.2.2⟩
    have sameTimers_refl : ∀ (p : ServerPlayer),
        p.sameTimers p := by
      intro p
      exact ⟨rfl, rfl, rfl, rfl⟩
    have obstacleCollision_sameTimers : ∀ (obstacles : List Obstacle) (p : ServerPlayer),
        p.sameTimers (ServerPlayer.obstacleCollision obstacles p) := by
      intro obstacles p
      have collideObstacle_sameTimers : ∀ (p : ServerPlayer) (obs : Obstacle),
          p.sameTimers (p.collideObstacle obs) := by
        intro p obs
        unfold ServerPlayer.collideObstacle ServerPlayer.sameTimers
        dsimp only
        split_ifs <;> simp
      induction obstacles generalizing p with
      | nil => exact sameTimers_refl p
      | cons o os ih =>
        exact sameTimers_trans (collideObstacle_sameTimers p o) (ih (p.collideObstacle o))
    rw [(update_cases.1) _ _ hnf]
    refine sameTimers_trans ?_ (obstacleCollision_sameTimers _ _)
    exact sameTimers_trans (sameTimers_refl _) (worldBounds_sameTimers _)
  have handleMovement_timers : ∀ (p : ServerPlayer),
      p.handleMovement.1.dashTimer = p.dashTimer - 1 ∧
        p.handleMovement.1.dashCooldownTimer = p.dashCooldownTimer := by
    intro p
    unfold ServerPlayer.handleMovement ServerPlayer.capSpeed ServerPlayer.handleGather
    dsimp only
    split_ifs <;> simp <;> omega
  have handleMovement_events_not_dash : ∀ (p : ServerPlayer),
      p.handleMovement.2.filter Event.isDash = [] := by
    intro p
    unfold ServerPlayer.handleMovement ServerPlayer.handleGather
    dsimp only
    split_ifs <;> simp [Event.isDash]
  exact ⟨update_sameTimers, handleMovement_timers, handleMovement_events_not_dash⟩

/-- C16. Dash needs movement input: `update` of a non-frozen player whose
buffered `moveX` and `moveY` are both 0 activates no dash, whatever the
velocity, the dash flag and the timers: `dashTimer` and `dashCooldownTimer` do
not increase (a cooldown at 0 stays at 0), no `dash` effect is emitted, and the
dash step leaves the velocity as it was. -/
theorem C16_dash_needs_movement (obstacles : List Obstacle) (p : ServerPlayer)
    (hnf : p.isFrozen = false) (hx : p.inputs.moveX = 0) (hy : p.inputs.moveY = 0) :
    (p.update obstacles).1.dashTimer ≤ p.dashTimer ∧
      (p.update obstacles).1.dashCooldownTimer ≤ p.dashCooldownTimer ∧
      (p.dashCooldownTimer = 0 → (p.update obstacles).1.dashCooldownTimer = 0) ∧
      (p.update obstacles).2.filter Event.isDash = [] ∧
      p.handleDash.1.vx = p.vx ∧ p.handleDash.1.vy = p.vy := by
  -- Without movement input the dash step only counts the cooldown down.
  have handleDash_of_no_move : ∀ (p : ServerPlayer) (hx : p.inputs.moveX = 0)
      (hy : p.inputs.moveY = 0),
      p.handleDash = ({ p with dashCooldownTimer := p.dashCooldownTimer - 1 }, []) := by
    intro p hx hy
    unfold ServerPlayer.handleDash
    dsimp only
    by_cases hc : p.dashCooldownTimer > 0
    · simp [hc, hx, hy]
    · have h0 : p.dashCooldownTimer = 0 := by omega
      cases p
      simp_all
  have hd := handleDash_of_no_move p hx hy
  obtain ⟨ht1, ht2, _, _⟩ := (timers_spec.1) obstacles p hnf
  obtain ⟨hm1, hm2⟩ := (timers_spec.2.1) p.handleDash.1
  rw [hm1] at ht1
  rw [hm2] at ht2
  rw [hd] at ht1 ht2
  dsimp only at ht1 ht2
  refine ⟨by omega, by omega, fun h => by omega, ?_, by rw [hd], by rw [hd]⟩
  unfold ServerPlayer.update
  simp only [hnf, Bool.false_eq_true, if_false, List.filter_append, (timers_spec.2.2),
      List.append_nil]
  rw [hd]
  rfl

/-- Witness of C16: a fresh player at rest with the dash flag set and no
movement input. -/
theorem C16_dash_needs_movement_witness :
    (({ playerAt "a" Team.blue 200 100 with
          inputs := { moveX := 0, moveY := 0, angle := 0, dash := true, gather := false } } :
        ServerPlayer).update []).2.filter Event.isDash = [] :=
  (C16_dash_needs_movement []
    { playerAt "a" Team.blue 200 100 with
        inputs := { moveX := 0, moveY := 0, angle := 0, dash := true, gather := false } }
    rfl rfl rfl).2.2.2.1

/-! ### The speed cap -/

/-- C17. Exact single-contact push-out. For an obstacle that the player
overlaps when it is processed (`d < minDist`): right after the correction the
centre is at distance exactly `minDist` from the obstacle centre; the
displacement has length exactly `minDist - d`; for `d ≠ 0` the new offset from
the obstacle centre is a positive multiple of the old one (same ray); for
`d = 0` the player is moved by `minDist` along `+x`; `vx` and `vy` are each
multiplied by 0.8. An obstacle that is not overlapped changes nothing. Hence
`update` of a non-frozen player in a field of one obstacle leaves no
penetration. -/
theorem C17_exact_push_out (p : ServerPlayer) (obs : Obstacle) :
    (hypot (p.x - obs.x) (p.y - obs.y) < p.radius + obs.radius →
        hypot ((p.collideObstacle obs).x - obs.x) ((p.collideObstacle obs).y - obs.y) =
            p.radius + obs.radius ∧
          hypot ((p.collideObstacle obs).x - p.x) ((p.collideObstacle obs).y - p.y) =
            p.radius + obs.radius - hypot (p.x - obs.x) (p.y - obs.y) ∧
          (hypot (p.x - obs.x) (p.y - obs.y) ≠ 0 →
            ∃ k : ℝ, 0 < k ∧ (p.collideObstacle obs).x - obs.x = k * (p.x - obs.x) ∧
              (p.collideObstacle obs).y - obs.y = k * (p.y - obs.y)) ∧
          (hypot (p.x - obs.x) (p.y - obs.y) = 0 →
            (p.collideObstacle obs).x = p.x + (p.radius + obs.radius) ∧
              (p.collideObstacle obs).y = p.y) ∧
          (p.collideObstacle obs).vx = p.vx * 0.8 ∧ (p.collideObstacle obs).vy = p.vy * 0.8) ∧
      (¬ hypot (p.x - obs.x) (p.y - obs.y) < p.radius + obs.radius →
        p.collideObstacle obs = p) ∧
      (p.isFrozen = false →
        hypot ((p.update [obs]).1.x - obs.x) ((p.update [obs]).1.y - obs.y) ≥
          (p.update [obs]).1.radius + obs.radius) := by
  have hypot_cos_sin : ∀ (θ r : ℝ) (hr : 0 ≤ r),
      hypot (Real.cos θ * r) (Real.sin θ * r) = r := by
    intro θ r hr
    unfold hypot
    have : (Real.cos θ * r) ^ 2 + (Real.sin θ * r) ^ 2 =
        (Real.cos θ ^ 2 + Real.sin θ ^ 2) * r ^ 2 := by ring
    rw [this, Real.cos_sq_add_sin_sq, one_mul, Real.sqrt_sq hr]
  refine ⟨fun h => ?_, fun h => (collideObstacle_spec.2.1) p obs h, fun hnf => ?_⟩
  · have hd0 := (hypot_spec.2.1) (p.x - obs.x) (p.y - obs.y)
    have hpush : 0 ≤ p.radius + obs.radius - hypot (p.x - obs.x) (p.y - obs.y) := by linarith
    have hc : p.collideObstacle obs =
        { p with
          x := p.x + Real.cos (atan2 (p.y - obs.y) (p.x - obs.x)) *
            (p.radius + obs.radius - hypot (p.x - obs.x) (p.y - obs.y))
          y := p.y + Real.sin (atan2 (p.y - obs.y) (p.x - obs.x)) *
            (p.radius + obs.radius - hypot (p.x - obs.x) (p.y - obs.y))
          vx := p.vx * 0.8
          vy := p.vy * 0.8 } := by
      simp [ServerPlayer.collideObstacle, h]
    refine ⟨(collideObstacle_spec.1) p obs h, ?_, ?_, ?_, by rw [hc], by rw [hc]⟩
    · rw [hc]
      dsimp only
      rw [add_sub_cancel_left, add_sub_cancel_left]
      exact hypot_cos_sin _ _ hpush
    · intro hne
      rw [hc]
      dsimp only
      rw [(atan2_spec.1) _ _ hne, (atan2_spec.2.1)]
      have hpos : 0 < hypot (p.x - obs.x) (p.y - obs.y) := lt_of_le_of_ne hd0 (Ne.symm hne)
      refine ⟨(p.radius + obs.radius) / hypot (p.x - obs.x) (p.y - obs.y),
        div_pos (lt_of_le_of_lt hd0 h) hpos, ?_, ?_⟩
      · field_simp; ring
      · field_simp; ring
    · intro hz
      obtain ⟨hx, hy⟩ := ((hypot_spec.2.2.2.2) _ _).mp hz
      rw [hc]
      dsimp only
      rw [hz, hx, hy, (atan2_spec.2.2), Real.cos_zero, Real.sin_zero]
      constructor <;> ring
  · rw [(update_cases.1) _ _ hnf]
    exact not_lt.mp ((collideObstacle_spec.2.2.1) p.moved obs)

/-! ### The dash timers -/

/-- C18. A dash cannot restart while one is active. In every state that a
freshly constructed player reaches by any sequence of input messages and
updates (and of charge progressions, freezes and thaws), `0 ≤ dashTimer ≤
dashDuration - 1 = 9`, `0 ≤ dashCooldownTimer ≤ dashCooldown = 90`, and
`dashTimer > 0` implies `dashCooldownTimer = dashTimer + 81`. Consequently, when
an update of that state activates a dash and, `more` steps later, another update
activates a dash, `more` holds at least 89 updates of the non-frozen player: the
second activation is at least the 90th non-frozen update after the first. -/
theorem C18_dash_cannot_restart (obstacles : List Obstacle) (id : String) (team : Team)
    (rSkin rHat rY : ℝ) (steps more : List PlayerStep) :
    0 ≤ (playerRun obstacles (ServerPlayer.new id team rSkin rHat rY) steps).dashTimer ∧
      (playerRun obstacles (ServerPlayer.new id team rSkin rHat rY) steps).dashTimer ≤
        CONFIG.dashDuration - 1 ∧
      0 ≤ (playerRun obstacles (ServerPlayer.new id team rSkin rHat rY) steps).dashCooldownTimer ∧
      (playerRun obstacles (ServerPlayer.new id team rSkin rHat rY) steps).dashCooldownTimer ≤
        CONFIG.dashCooldown ∧
      (0 < (playerRun obstacles (ServerPlayer.new id team rSkin rHat rY) steps).dashTimer →
        (playerRun obstacles (ServerPlayer.new id team rSkin rHat rY) steps).dashCooldownTimer =
          (playerRun obstacles (ServerPlayer.new id team rSkin rHat rY) steps).dashTimer +
            (CONFIG.dashCooldown - CONFIG.dashDuration + 1)) ∧
      (((playerRun obstacles (ServerPlayer.new id team rSkin rHat rY) steps).update
            obstacles).2.filter Event.isDash ≠ [] →
        ((playerRun obstacles
            ((playerRun obstacles (ServerPlayer.new id team rSkin rHat rY) steps).update
              obstacles).1 more).update obstacles).2.filter Event.isDash ≠ [] →
        CONFIG.dashCooldown - 1 ≤
          nonFrozenUpdates obstacles
            ((playerRun obstacles (ServerPlayer.new id team rSkin rHat rY) steps).update
              obstacles).1 more) := by
  have update_timers : ∀ (obstacles : List Obstacle) (p : ServerPlayer) (hnf : p.isFrozen = false),
      (p.update obstacles).1.dashTimer = p.handleDash.1.dashTimer - 1 ∧
        (p.update obstacles).1.dashCooldownTimer = p.handleDash.1.dashCooldownTimer := by
    intro obstacles p hnf
    obtain ⟨h1, h2, _, _⟩ := (timers_spec.1) obstacles p hnf
    obtain ⟨m1, m2⟩ := (timers_spec.2.1) p.handleDash.1
    exact ⟨h1.trans m1, h2.trans m2⟩
  -- The dash step either activates a dash, which needs a cooldown of at most 1
  -- before it, or only counts the cooldown down.
  have handleDash_cases : ∀ (p : ServerPlayer),
      (p.handleDash.1.dashTimer = 10 ∧ p.handleDash.1.dashCooldownTimer = 90 ∧
          p.dashCooldownTimer ≤ 1 ∧ p.handleDash.2.filter Event.isDash ≠ []) ∨
        (p.handleDash.1.dashTimer = p.dashTimer ∧
          p.handleDash.1.dashCooldownTimer = p.dashCooldownTimer - 1 ∧ p.handleDash.2 = []) := by
    intro p
    unfold ServerPlayer.handleDash
    dsimp only
    split_ifs with h1 h2 h2
    · left
      dsimp only at h2
      exact ⟨rfl, rfl, by omega, by simp [Event.isDash]⟩
    · right
      exact ⟨rfl, rfl, rfl⟩
    · left
      exact ⟨rfl, rfl, by omega, by simp [Event.isDash]⟩
    · right
      exact ⟨rfl, by dsimp only; omega, rfl⟩
  -- An `update` that emits a `dash` effect finds the player not frozen and with
  -- a cooldown of at most 1, and leaves a cooldown of 90.
  have update_activates : ∀ (obstacles : List Obstacle) (p : ServerPlayer)
      (h : (p.update obstacles).2.filter Event.isDash ≠ []),
      p.isFrozen = false ∧ p.dashCooldownTimer ≤ 1 ∧
        (p.update obstacles).1.dashCooldownTimer = 90 := by
    intro obstacles p h
    have update_dash_events : ∀ (obstacles : List Obstacle) (p : ServerPlayer),
        (p.update obstacles).2.filter Event.isDash =
          if p.isFrozen = true then [] else p.handleDash.2.filter Event.isDash := by
      intro obstacles p
      unfold ServerPlayer.update
      split_ifs
      · rfl
      · simp only [List.filter_append, (timers_spec.2.2), List.append_nil]
    rw [update_dash_events] at h
    by_cases hf : p.isFrozen = true
    · rw [if_pos hf] at h; exact absurd rfl h
    · have hnf : p.isFrozen = false := by simpa using hf
      rw [if_neg hf] at h
      refine ⟨hnf, ?_⟩
      rw [(update_timers obstacles p hnf).2]
      rcases handleDash_cases p with ⟨_, a2, a3, _⟩ | ⟨_, _, a3⟩
      · exact ⟨a3, a2⟩
      · rw [a3] at h; exact absurd rfl h
  -- A step other than `update` leaves the dash timers alone.
  have playerStep_timers : ∀ (obstacles : List Obstacle) (p : ServerPlayer) (st : PlayerStep)
      (hst : st ≠ PlayerStep.update),
      (playerStep obstacles p st).dashTimer = p.dashTimer ∧
        (playerStep obstacles p st).dashCooldownTimer = p.dashCooldownTimer := by
    intro obstacles p st hst
    have chargeProgress_timers : ∀ (p : ServerPlayer),
        (chargeProgress p).dashTimer = p.dashTimer ∧
          (chargeProgress p).dashCooldownTimer = p.dashCooldownTimer := by
      intro p
      unfold chargeProgress
      split_ifs <;> simp
    have playerInput_timers : ∀ (data : InputData) (p : ServerPlayer),
        (playerInput data p).dashTimer = p.dashTimer ∧
          (playerInput data p).dashCooldownTimer = p.dashCooldownTimer ∧
          (playerInput data p).isFrozen = p.isFrozen := by
      intro data p
      unfold playerInput chargeStart bufferInputs
      split_ifs <;> simp
    cases st with
    | input data => exact ⟨(playerInput_timers data p).1, (playerInput_timers data p).2.1⟩
    | update => exact absurd rfl hst
    | charge => exact chargeProgress_timers p
    | freeze => exact ⟨rfl, rfl⟩
    | thaw => exact ⟨rfl, rfl⟩
  -- While fewer non-frozen updates have run than the cooldown counts, each of
  -- them takes exactly 1 off the cooldown and nothing else changes it.
  have playerRun_cooldown : ∀ (obstacles : List Obstacle) (steps : List PlayerStep)
      (p : ServerPlayer) (h : nonFrozenUpdates obstacles p steps < p.dashCooldownTimer),
      (playerRun obstacles p steps).dashCooldownTimer =
        p.dashCooldownTimer - nonFrozenUpdates obstacles p steps := by
    intro obstacles steps p h
    induction steps generalizing p with
    | nil => simp [playerRun, nonFrozenUpdates]
    | cons st rest ih =>
      by_cases hst : st = PlayerStep.update
      · subst hst
        simp only [nonFrozenUpdates] at h ⊢
        show (playerRun obstacles
            (playerStep obstacles p PlayerStep.update) rest).dashCooldownTimer = _
        by_cases hf : p.isFrozen = true
        · have hq : playerStep obstacles p PlayerStep.update = p := by
            simp [playerStep, (update_cases.2) _ _ hf]
          rw [hq] at h ⊢
          simp only [hf, Bool.true_eq_false, if_false, zero_add] at h ⊢
          exact ih p h
        · have hnf : p.isFrozen = false := by simpa using hf
          simp only [hnf, if_true] at h ⊢
          have hc : (playerStep obstacles p PlayerStep.update).dashCooldownTimer =
              p.dashCooldownTimer - 1 := by
            show (p.update obstacles).1.dashCooldownTimer = _
            rw [(update_timers obstacles p hnf).2]
            rcases handleDash_cases p with ⟨_, _, a3, _⟩ | ⟨_, a2, _⟩
            · omega
            · exact a2
          rw [ih _ (by rw [hc]; omega), hc]
          omega
      · have hn : nonFrozenUpdates obstacles p (st :: rest) =
            nonFrozenUpdates obstacles (playerStep obstacles p st) rest := by
          cases st with
          | update => exact absurd rfl hst
          | input data => rfl
          | charge => rfl
          | freeze => rfl
          | thaw => rfl
        rw [hn] at h ⊢
        have hc := (playerStep_timers obstacles p st hst).2
        show (playerRun obstacles (playerStep obstacles p st) rest).dashCooldownTimer = _
        rw [ih _ (by rw [hc]; exact h), hc]
  have playerRun_dashOk : ∀ (obstacles : List Obstacle) (steps : List PlayerStep)
      (p : ServerPlayer) (h : p.dashOk),
      (playerRun obstacles p steps).dashOk := by
    intro obstacles steps p h
    have playerStep_dashOk : ∀ (obstacles : List Obstacle) (p : ServerPlayer) (st : PlayerStep)
        (h : p.dashOk),
        (playerStep obstacles p st).dashOk := by
      intro obstacles p st h
      have update_dashOk : ∀ (obstacles : List Obstacle) (p : ServerPlayer) (h : p.dashOk),
          (p.update obstacles).1.dashOk := by
        intro obstacles p h
        by_cases hf : p.isFrozen = true
        · rw [(update_cases.2) _ _ hf]; exact h
        · have hnf : p.isFrozen = false := by simpa using hf
          obtain ⟨u1, u2⟩ := update_timers obstacles p hnf
          obtain ⟨h1, h2, h3⟩ := h
          unfold ServerPlayer.dashOk
          rw [u1, u2]
          rcases handleDash_cases p with ⟨a1, a2, _, _⟩ | ⟨a1, a2, _⟩
          · rw [a1, a2]; omega
          · rw [a1, a2]
            refine ⟨by omega, by omega, fun hpos => ?_⟩
            have := h3 (by omega)
            omega
      by_cases hst : st = PlayerStep.update
      · subst hst
        exact update_dashOk obstacles p h
      · obtain ⟨h1, h2⟩ := playerStep_timers obstacles p st hst
        unfold ServerPlayer.dashOk at h ⊢
        rw [h1, h2]
        exact h
    induction steps generalizing p with
    | nil => exact h
    | cons st rest ih => exact ih _ (playerStep_dashOk obstacles p st h)
  have hfresh : (ServerPlayer.new id team rSkin rHat rY).dashOk :=
    ⟨Nat.zero_le _, Nat.zero_le _, fun h => absurd h (lt_irrefl 0)⟩
  obtain ⟨h1, h2, h3⟩ := playerRun_dashOk obstacles steps _ hfresh
  refine ⟨Nat.zero_le _, h1, Nat.zero_le _, h2, h3, fun hact1 hact2 => ?_⟩
  obtain ⟨_, _, hc90⟩ := update_activates obstacles _ hact1
  obtain ⟨_, hle, _⟩ := update_activates obstacles _ hact2
  by_contra hlt
  have hlt' : nonFrozenUpdates obstacles
      ((playerRun obstacles (ServerPlayer.new id team rSkin rHat rY) steps).update
        obstacles).1 more < 89 := by
    have : CONFIG.dashCooldown = 90 := rfl
    omega
  have := playerRun_cooldown obstacles more _ (by rw [hc90]; omega)
  rw [hc90] at this
  omega

/-! ### The flight of a snowball -/

/-- The height of a snowball `k` updates after it was thrown. -/
theorem aged_spec :
    (∀ (x y angle speed : ℝ) (ownerId : String) (team : Team) (charge : ℕ),
        (ServerSnowball.new x y angle speed ownerId team charge).aged 0) ∧
    (∀ (k : ℕ) (b : ServerSnowball) (_ : b.aged k),
        b.update.aged (k + 1)) ∧
    (∀ (k : ℕ) (b : ServerSnowball) (_ : b.aged k) (_ : 33 ≤ k),
        b.update.active = false) := by
  have snowball_new_aged : ∀ (x y angle speed : ℝ) (ownerId : String) (team : Team) (charge : ℕ),
      (ServerSnowball.new x y angle speed ownerId team charge).aged 0 := by
    intro x y angle speed ownerId team charge
    unfold ServerSnowball.aged
    simp [ServerSnowball.new, heightAfter]
  have snowball_update_aged : ∀ (k : ℕ) (b : ServerSnowball) (h : b.aged k),
      b.update.aged (k + 1) := by
    intro k b h
    obtain ⟨_, _, hz, hvz⟩ := ((snowball_update_spec.2.2.1) b)
    obtain ⟨h1, h2⟩ := h
    unfold ServerSnowball.aged heightAfter at *
    rw [hz, hvz, h1, h2]
    push_cast
    constructor <;> ring
  -- A thrown snowball of age 34 or more, just updated, is inactive.
  have snowball_aged_inactive : ∀ (k : ℕ) (b : ServerSnowball) (h : b.aged k) (hk : 33 ≤ k),
      b.update.active = false := by
    intro k b h hk
    -- An updated snowball that is still active is not below the ground.
    have snowball_update_active_height : ∀ (b : ServerSnowball) (h : b.update.active = true),
        0 ≤ b.update.z := by
      intro b h
      rw [((snowball_update_spec.2.2.1) b).2.2.1]
      exact (((snowball_update_spec.2.2.2) b).mp h).2.1
    have heightAfter_neg : ∀ (n : ℕ) (h : 34 ≤ n),
        heightAfter n < 0 := by
      intro n h
      have h1 : (34 : ℝ) ≤ n := by exact_mod_cast h
      unfold heightAfter
      nlinarith [mul_nonneg (sub_nonneg.mpr h1) (sub_nonneg.mpr h1)]
    by_contra hc
    have ha : b.update.active = true := by simpa using hc
    have hz := (snowball_update_active_height b) ha
    have := (snowball_update_aged k b h).1
    rw [this] at hz
    linarith [heightAfter_neg (k + 1) (by omega)]
  exact ⟨snowball_new_aged, snowball_update_aged, snowball_aged_inactive⟩

/-- C19. Bounded projectile lifetime. A snowball built by the constructor,
whatever its position, angle, speed, owner and charge, has height
`14 + 2n - 0.075 n (n - 1)` after `n` updates, which is at least 0 for
`n ≤ 33` and below 0 for `n = 34`; it is inactive after 34 updates and after
any larger number; and when every snowball of the live set is a thrown
snowball (a constructed one, any number of updates later), the live set is
empty after 34 runs of the loop. -/
theorem C19_bounded_lifetime (x y angle speed : ℝ) (ownerId : String) (team : Team)
    (charge : ℕ) :
    (∀ n : ℕ, (ServerSnowball.update^[n]
        (ServerSnowball.new x y angle speed ownerId team charge)).z =
          14 + 2 * (n : ℝ) - 0.075 * (n : ℝ) * ((n : ℝ) - 1)) ∧
      (∀ n : ℕ, n ≤ 33 → 0 ≤ 14 + 2 * (n : ℝ) - 0.075 * (n : ℝ) * ((n : ℝ) - 1)) ∧
      14 + 2 * (34 : ℝ) - 0.075 * 34 * (34 - 1) < 0 ∧
      (∀ n : ℕ, 34 ≤ n → (ServerSnowball.update^[n]
        (ServerSnowball.new x y angle speed ownerId team charge)).active = false) ∧
      (∀ s : Server,
        (∀ b ∈ s.gameState.snowballs, ∃ (k : ℕ) (x' y' angle' speed' : ℝ) (o : String)
            (t : Team) (c : ℕ),
          b = ServerSnowball.update^[k] (ServerSnowball.new x' y' angle' speed' o t c)) →
        (ticks 34 s).gameState.snowballs = []) := by
  have snowball_iterate_aged : ∀ (n k : ℕ) (b : ServerSnowball) (h : b.aged k),
      (ServerSnowball.update^[n] b).aged (k + n) := by
    intro n k b h
    induction n with
    | zero => exact h
    | succ n ih =>
      rw [Function.iterate_succ_apply']
      exact (aged_spec.2.1) (k + n) (ServerSnowball.update^[n] b) ih
  have snowball_iterate_inactive : ∀ (n k : ℕ) (b : ServerSnowball) (h : b.aged k)
      (hn : 34 ≤ k + n) (hpos : 0 < n),
      (ServerSnowball.update^[n] b).active = false := by
    intro n k b h hn hpos
    obtain ⟨m, rfl⟩ : ∃ m, n = m + 1 := ⟨n - 1, by omega⟩
    rw [Function.iterate_succ_apply']
    exact (aged_spec.2.2) (k + m) _ (snowball_iterate_aged m k b h) (by omega)
  have snowball_iterate_flight : ∀ (n : ℕ) (b : ServerSnowball),
      (ServerSnowball.update^[n] b).vz = b.vz - 0.15 * (n : ℝ) ∧
        (ServerSnowball.update^[n] b).z =
          b.z + (n : ℝ) * b.vz - 0.075 * (n : ℝ) * ((n : ℝ) - 1) := by
    intro n b
    induction n with
    | zero => simp
    | succ n ih =>
      rw [Function.iterate_succ_apply']
      obtain ⟨_, _, hz, hvz⟩ := ((snowball_update_spec.2.2.1) (ServerSnowball.update^[n] b))
      rw [hz, hvz, ih.1, ih.2]
      push_cast
      constructor <;> ring
  have heightAfter_nonneg : ∀ (n : ℕ) (h : n ≤ 33),
      0 ≤ heightAfter n := by
    intro n h
    have h1 : (n : ℝ) ≤ 33 := by exact_mod_cast h
    have h0 : (0 : ℝ) ≤ n := Nat.cast_nonneg n
    unfold heightAfter
    nlinarith [mul_nonneg h0 (sub_nonneg.mpr h1)]
  refine ⟨fun n => ?_, fun n hn => heightAfter_nonneg n hn, by norm_num, fun n hn => ?_,
    fun s hs => ?_⟩
  · rw [(snowball_iterate_flight n _).2]
    simp only [ServerSnowball.new]
    ring
  · exact snowball_iterate_inactive n 0 _ ((aged_spec.1) _ _ _ _ _ _ _)
      (by omega) (by omega)
  · rw [List.eq_nil_iff_forall_not_mem]
    intro e he
    have hact := (tick_snowballs_spec.2.2.2) 33 s e he
    have hmem := ((tick_snowballs_spec.2.2.1) 34 s).subset he
    obtain ⟨b, hb, rfl⟩ := List.mem_map.mp hmem
    obtain ⟨k, x', y', angle', speed', o, t, c, rfl⟩ := hs b hb
    have hin := snowball_iterate_inactive 34 (0 + k) _
      (snowball_iterate_aged k 0 _ ((aged_spec.1) x' y' angle' speed' o t c))
      (by omega) (by omega)
    rw [hin] at hact
    cases hact

/-! ### Possession and gathering across a run of the loop -/

/-! ### Snowballs and their owners in reachable states -/

/-- C20. At most one live projectile per owner: when every connection gets a
fresh socket id, in every state reachable from start up by connections, input
messages, runs of the loop, thaw firings and disconnections, no two snowballs
of the live set have one `ownerId` (any given id owns at most one of them), and
the live set is no longer than the number of ids ever connected. -/
theorem C20_one_projectile_per_owner (obstacles : List Obstacle) (actions : List Action)
    (hfresh : (connectIds actions).Nodup) :
    ((run obstacles actions).gameState.snowballs.map (fun b => b.ownerId)).Nodup ∧
      (∀ id : String,
        ((run obstacles actions).gameState.snowballs.map (fun b => b.ownerId)).count id ≤ 1) ∧
      (run obstacles actions).gameState.snowballs.length ≤ (connectIds actions).length := by
  -- With fresh socket ids, every reachable state satisfies the invariant.
  have run_ownersOk : ∀ (obstacles : List Obstacle) (actions : List Action)
      (hfresh : (connectIds actions).Nodup),
      (run obstacles actions).ownersOk (connectIds actions) := by
    intro obstacles actions hfresh
    have run_snoc : ∀ (obstacles : List Obstacle) (actions : List Action) (a : Action),
        run obstacles (actions ++ [a]) = step (run obstacles actions) a := by
      intro obstacles actions a
      simp [run, List.foldl_append]
    have step_ownersOk : ∀ (s : Server) (a : Action) (used : List String)
        (hkeys : (s.gameState.players.map (fun p => p.id)).Nodup) (h : s.ownersOk used)
        (hfresh : ∀ id ∈ connectIds [a], id ∉ used),
        (step s a).ownersOk (used ++ connectIds [a]) := by
      intro s a used hkeys h hfresh
      have tick_ownersOk : ∀ (s : Server) (used : List String) (h : s.ownersOk used),
          (step s Action.tick).ownersOk used := by
        intro s used h
        have tick_owners_nodup : ∀ (s : Server)
            (h : (s.gameState.snowballs.map (fun b => b.ownerId)).Nodup),
            ((tick s).1.gameState.snowballs.map (fun b => b.ownerId)).Nodup := by
          intro s h
          have hsub := ((tick_snowballs_spec.1) s).map (fun b => b.ownerId)
          rw [List.map_map] at hsub
          have : (fun b : ServerSnowball => b.ownerId) ∘ ServerSnowball.update =
              fun b => b.ownerId := by
            funext b
            exact ((snowball_update_spec.1) b).1
          rw [this] at hsub
          exact h.sublist hsub
        have tick_snowballs_mem : ∀ (s : Server) (e : ServerSnowball)
            (he : e ∈ (tick s).1.gameState.snowballs),
            e.active = true ∧ ∃ b ∈ s.gameState.snowballs, e = b.update := by
          intro s e he
          refine ⟨(tick_snowballs_spec.2.1) s e he, ?_⟩
          obtain ⟨b, hb, rfl⟩ := List.mem_map.mp (((tick_snowballs_spec.1) s).subset he)
          exact ⟨b, hb, rfl⟩
        -- What a run of the loop does to the possession flag and the gather counter
        -- of one player: the counter grows by 1 at most, the ball is regained only when
        -- the counter reaches 45, and a player that ends with the ball has counter 0.
        have tickPlayer_gather : ∀ (obstacles : List Obstacle) (balls : List ServerSnowball)
            (p : ServerPlayer),
            (struckDuring balls ((chargeProgress p).update obstacles).1).id = p.id ∧
              (struckDuring balls ((chargeProgress p).update obstacles).1).gatherProgress ≤
                p.gatherProgress + 1 ∧
              ((struckDuring balls ((chargeProgress p).update obstacles).1).hasBall = true →
                p.hasBall = true ∨ 45 ≤ p.gatherProgress + 1) ∧
              ((p.hasBall = true → p.gatherProgress = 0) →
                (struckDuring balls ((chargeProgress p).update obstacles).1).hasBall = true →
                (struckDuring balls ((chargeProgress p).update obstacles).1).gatherProgress =
                    0) := by
          intro obstacles balls p
          have handleMovement_gather : ∀ (q : ServerPlayer),
              q.handleMovement.1.gatherProgress ≤ q.gatherProgress + 1 ∧
                (q.handleMovement.1.hasBall = true → q.hasBall = true ∨ 45 ≤ q.gatherProgress + 1) ∧
                ((q.hasBall = true → q.gatherProgress = 0) →
                  q.handleMovement.1.hasBall = true → q.handleMovement.1.gatherProgress = 0) := by
            intro q
            unfold ServerPlayer.handleMovement ServerPlayer.capSpeed ServerPlayer.handleGather
            simp only [CONFIG.gatherTime]
            split_ifs <;> simp_all
          have handleDash_gather : ∀ (p : ServerPlayer),
              p.handleDash.1.hasBall = p.hasBall ∧ p.handleDash.1.gatherProgress =
                  p.gatherProgress := by
            intro p
            unfold ServerPlayer.handleDash
            dsimp only
            split_ifs <;> simp
          have hcp : (chargeProgress p).hasBall = p.hasBall ∧
              (chargeProgress p).gatherProgress = p.gatherProgress := by
            unfold chargeProgress
            split_ifs <;> simp
          have hid : ((chargeProgress p).update obstacles).1.id = p.id :=
            ((sameCore_spec.2.1) ((sameCore_spec.2.2.2) p) ((sameCore_spec.2.2.1) obstacles _)).1
          have hs : ∀ q : ServerPlayer, (struckDuring balls q).id = q.id ∧
              (struckDuring balls q).hasBall = q.hasBall ∧
              (struckDuring balls q).gatherProgress = q.gatherProgress := by
            intro q
            rcases ((tick_players_spec.2.2.2.1) balls q).1 with h | h <;> rw [h] <;> exact
                ⟨rfl, rfl, rfl⟩
          obtain ⟨s1, s2, s3⟩ := hs ((chargeProgress p).update obstacles).1
          rw [s1, s2, s3, hid]
          refine ⟨rfl, ?_⟩
          by_cases hf : (chargeProgress p).isFrozen = true
          · rw [(update_cases.2) _ _ hf, hcp.1, hcp.2]
            exact ⟨Nat.le_succ _, fun h => Or.inl h, fun h => h⟩
          · have hnf : (chargeProgress p).isFrozen = false := by simpa using hf
            obtain ⟨_, _, t3, t4⟩ := (timers_spec.1) obstacles _ hnf
            obtain ⟨d1, d2⟩ := handleDash_gather (chargeProgress p)
            obtain ⟨m1, m2, m3⟩ := handleMovement_gather (chargeProgress p).handleDash.1
            rw [t3, t4]
            simp only [d1, d2, hcp.1, hcp.2] at m1 m2 m3
            exact ⟨m1, m2, m3⟩
        obtain ⟨h1, h2, h3, h4, h5⟩ := h
        have hplayers : ∀ q ∈ (step s Action.tick).gameState.players,
            ∃ p ∈ s.gameState.players,
              q = struckDuring s.gameState.snowballs
                ((chargeProgress p).update s.gameState.obstacles).1 := by
          intro q hq
          have hq' : q ∈ (tick s).1.gameState.players := hq
          rw [(tick_players_spec.2.2.2.2)] at hq'
          obtain ⟨p, hp, rfl⟩ := List.mem_map.mp hq'
          exact ⟨p, hp, rfl⟩
        have hballs : ∀ e ∈ (step s Action.tick).gameState.snowballs,
            e.active = true ∧ ∃ b ∈ s.gameState.snowballs, e = b.update :=
          fun e he => tick_snowballs_mem s e he
        refine ⟨fun q hq => ?_, fun e he => ?_, tick_owners_nodup s h3, fun e he => ?_,
          fun q hq hball => ?_⟩
        · obtain ⟨p, hp, rfl⟩ := hplayers q hq
          rw [(tickPlayer_gather _ _ p).1]
          exact h1 p hp
        · obtain ⟨_, b, hb, rfl⟩ := hballs e he
          rw [((snowball_update_spec.1) b).1]
          exact h2 b hb
        · obtain ⟨hact, b, hb, rfl⟩ := hballs e he
          obtain ⟨k, hk, hown⟩ := h4 b hb
          have hk32 : k ≤ 32 := by
            by_contra hc
            have := (aged_spec.2.2) k b hk (by omega)
            rw [this] at hact
            cases hact
          refine ⟨k + 1, (aged_spec.2.1) k b hk, fun q hq hqid => ?_⟩
          obtain ⟨p, hp, rfl⟩ := hplayers q hq
          obtain ⟨g1, g2, g3, _⟩ := tickPlayer_gather s.gameState.obstacles s.gameState.snowballs p
          rw [g1, ((snowball_update_spec.1) b).1] at hqid
          obtain ⟨hno, hgp⟩ := hown p hp hqid
          refine ⟨?_, by omega⟩
          by_contra hc
          have hc' : (struckDuring s.gameState.snowballs
              ((chargeProgress p).update s.gameState.obstacles).1).hasBall = true := by
            simpa using hc
          rcases g3 hc' with h' | h'
          · rw [hno] at h'; cases h'
          · omega
        · obtain ⟨p, hp, rfl⟩ := hplayers q hq
          exact (tickPlayer_gather _ _ p).2.2.2 (h5 p hp) hball
      -- The invariant survives a change of the player map that keeps the snowballs
      -- and gives every player the id, possession flag and gather counter of a player
      -- of the old map.
      have ownersOk_of_players : ∀ (s s' : Server) (used : List String)
          (hb : s'.gameState.snowballs = s.gameState.snowballs)
          (hp : ∀ q ∈ s'.gameState.players, ∃ p ∈ s.gameState.players, q.id = p.id ∧ q.hasBall =
          p.hasBall ∧ q.gatherProgress = p.gatherProgress) (h : s.ownersOk used),
          s'.ownersOk used := by
        intro s s' used hb hp h
        obtain ⟨h1, h2, h3, h4, h5⟩ := h
        refine ⟨fun q hq => ?_, by rw [hb]; exact h2, by rw [hb]; exact h3, ?_,
            fun q hq hball => ?_⟩
        · obtain ⟨p, hpm, e1, _, _⟩ := hp q hq
          rw [e1]; exact h1 p hpm
        · rw [hb]
          intro b hbm
          obtain ⟨k, hk, hown⟩ := h4 b hbm
          refine ⟨k, hk, fun q hq hid => ?_⟩
          obtain ⟨p, hpm, e1, e2, e3⟩ := hp q hq
          rw [e2, e3]
          exact hown p hpm (e1.symm.trans hid)
        · obtain ⟨p, hpm, _, e2, e3⟩ := hp q hq
          rw [e3]
          exact h5 p hpm (e2 ▸ hball)
      have input_ownersOk : ∀ (s : Server) (id : String) (data : InputData) (used : List String)
          (hkeys : (s.gameState.players.map (fun p => p.id)).Nodup) (h : s.ownersOk used),
          (step s (Action.input id data)).ownersOk used := by
        intro s id data used hkeys h
        -- The `input` handler: the player under the key becomes `playerInput` of
        -- itself, and its snowball is appended when it releases.
        have input_eq : ∀ (id : String) (data : InputData) (g : GameState) (p0 : ServerPlayer)
            (hp0 : lookupPlayer id g.players = some p0),
            (input id data g).1 =
              { g with
                players := modifyPlayer id (fun _ => playerInput data p0) g.players
                snowballs :=
                  if releases data (chargeStart data (bufferInputs data p0)) then
                    g.snowballs ++ [thrownBall data (chargeStart data (bufferInputs data p0))]
                  else g.snowballs } := by
          intro id data g p0 hp0
          simp only [input, hp0, playerInput]
          split_ifs <;> rfl
        have playerInput_frame : ∀ (data : InputData) (p : ServerPlayer),
            (playerInput data p).id = p.id ∧
              (playerInput data p).gatherProgress = p.gatherProgress ∧
              ((playerInput data p).hasBall = true → p.hasBall = true) ∧
              (¬ releases data (chargeStart data (bufferInputs data p)) →
                (playerInput data p).hasBall = p.hasBall) ∧
              (releases data (chargeStart data (bufferInputs data p)) →
                (playerInput data p).hasBall = false) := by
          intro data p
          obtain ⟨c1, _, _, _, c5, _⟩ := (input_spec.1) data (bufferInputs data p)
          have cg : (chargeStart data (bufferInputs data p)).gatherProgress = p.gatherProgress := by
            unfold chargeStart bufferInputs
            split_ifs <;> rfl
          unfold playerInput
          by_cases hr : releases data (chargeStart data (bufferInputs data p))
          · rw [if_pos hr]
            refine ⟨c1, cg, fun h => ?_, fun h => absurd hr h, fun _ => rfl⟩
            exact absurd h (by simp)
          · rw [if_neg hr]
            exact ⟨c1, cg, fun h => c5 ▸ h, fun _ => c5, fun h => absurd h hr⟩
        have mem_modifyPlayer_of_keys : ∀ {id : String} {f : ServerPlayer → ServerPlayer}
            {q : ServerPlayer} {ps : List ServerPlayer} (hkeys : (ps.map (fun p => p.id)).Nodup)
            (h : q ∈ modifyPlayer id f ps),
            (q ∈ ps ∧ q.id ≠ id) ∨ ∃ p ∈ ps, p.id = id ∧ q = f p := by
          intro id f q ps hkeys h
          induction ps with
          | nil => simp [modifyPlayer] at h
          | cons r rs ih =>
            rw [List.map_cons, List.nodup_cons] at hkeys
            simp only [modifyPlayer] at h
            split_ifs at h with hr
            · rcases List.mem_cons.mp h with h | h
              · exact Or.inr ⟨r, List.mem_cons_self _ _, hr, h⟩
              · refine Or.inl ⟨List.mem_cons_of_mem _ h, fun hq => hkeys.1 ?_⟩
                exact List.mem_map.mpr ⟨q, h, hq.trans hr.symm⟩
            · rcases List.mem_cons.mp h with h | h
              · exact Or.inl ⟨h ▸ List.mem_cons_self _ _, h ▸ hr⟩
              · rcases ih hkeys.2 h with ⟨h1, h2⟩ | ⟨p, hp, hpid, hq⟩
                · exact Or.inl ⟨List.mem_cons_of_mem _ h1, h2⟩
                · exact Or.inr ⟨p, List.mem_cons_of_mem _ hp, hpid, hq⟩
        cases hl : lookupPlayer id s.gameState.players with
        | none =>
          have : step s (Action.input id data) = s := by
            simp only [step, input, hl]
          rw [this]; exact h
        | some p0 =>
          have hp0 := (lookupPlayer_spec.2.1) hl
          have hid0 : p0.id = id := (lookupPlayer_spec.1) hl
          obtain ⟨f1, f2, f3, f4, f5⟩ := playerInput_frame data p0
          have hstep : (step s (Action.input id data)).gameState =
              (input id data s.gameState).1 := rfl
          have hplayers : (step s (Action.input id data)).gameState.players =
              modifyPlayer id (fun _ => playerInput data p0) s.gameState.players := by
            rw [hstep, input_eq _ _ _ _ hl]
          have hmem : ∀ q ∈ (step s (Action.input id data)).gameState.players,
              (q ∈ s.gameState.players ∧ q.id ≠ id) ∨ q = playerInput data p0 := by
            intro q hq
            rw [hplayers] at hq
            rcases mem_modifyPlayer_of_keys hkeys hq with hq' | ⟨_, _, _, hq'⟩
            · exact Or.inl hq'
            · exact Or.inr hq'
          by_cases hr : releases data (chargeStart data (bufferInputs data p0))
          · obtain ⟨h1, h2, h3, h4, h5⟩ := h
            have hballs : (step s (Action.input id data)).gameState.snowballs =
                s.gameState.snowballs ++
                  [thrownBall data (chargeStart data (bufferInputs data p0))] := by
              rw [hstep, input_eq _ _ _ _ hl]
              simp only [if_pos hr]
            have hhas : p0.hasBall = true := (((input_spec.2.1) data p0).mp hr).2.1
            have hnone : ∀ b ∈ s.gameState.snowballs, b.ownerId ≠ id := by
              intro b hb hown
              obtain ⟨k, _, hk⟩ := h4 b hb
              have := (hk p0 hp0 (hid0.trans hown.symm)).1
              rw [hhas] at this
              cases this
            have hown : (thrownBall data (chargeStart data (bufferInputs data p0))).ownerId = id :=
              (((input_spec.1) data (bufferInputs data p0)).1).trans hid0
            refine ⟨fun q hq => ?_, fun b hb => ?_, ?_, fun b hb => ?_, fun q hq hball => ?_⟩
            · rcases hmem q hq with ⟨hq', _⟩ | rfl
              · exact h1 q hq'
              · rw [f1]; exact h1 p0 hp0
            · rw [hballs] at hb
              rcases List.mem_append.mp hb with hb | hb
              · exact h2 b hb
              · rw [List.mem_singleton.mp hb, hown, ← hid0]
                exact h1 p0 hp0
            · rw [hballs, List.map_append, List.nodup_append]
              refine ⟨h3, List.nodup_singleton _, ?_⟩
              intro o ho1 ho2
              obtain ⟨b, hb, rfl⟩ := List.mem_map.mp ho1
              simp only [List.map_cons, List.map_nil, List.mem_singleton] at ho2
              exact hnone b hb (ho2.trans hown)
            · rw [hballs] at hb
              rcases List.mem_append.mp hb with hb | hb
              · obtain ⟨k, hk, hq⟩ := h4 b hb
                refine ⟨k, hk, fun q hqm hqid => ?_⟩
                rcases hmem q hqm with ⟨hq', _⟩ | rfl
                · exact hq q hq' hqid
                · exact absurd ((hqid.symm.trans f1).trans hid0) (hnone b hb)
              · rw [List.mem_singleton.mp hb]
                refine ⟨0, (aged_spec.1) _ _ _ _ _ _ _, fun q hqm hqid => ?_⟩
                rcases hmem q hqm with ⟨_, hne⟩ | rfl
                · exact absurd (hqid.trans hown) hne
                · exact ⟨f5 hr, by rw [f2, h5 p0 hp0 hhas]⟩
            · rcases hmem q hq with ⟨hq', _⟩ | rfl
              · exact h5 q hq' hball
              · rw [f5 hr] at hball; cases hball
          · refine ownersOk_of_players s _ used ?_ ?_ h
            · rw [hstep, input_eq _ _ _ _ hl]
              simp only [if_neg hr]
            · intro q hq
              rcases hmem q hq with ⟨hq', _⟩ | rfl
              · exact ⟨q, hq', rfl, rfl, rfl⟩
              · exact ⟨p0, hp0, f1, f4 hr, f2⟩
      have connect_ownersOk : ∀ (s : Server) (id : String) (rSkin rHat rY : ℝ) (used : List String)
          (h : s.ownersOk used) (hfresh : id ∉ used),
          (step s (Action.connect id rSkin rHat rY)).ownersOk (used ++ [id]) := by
        intro s id rSkin rHat rY used h hfresh
        obtain ⟨h1, h2, h3, h4, h5⟩ := h
        have hmem : ∀ q ∈ (step s (Action.connect id rSkin rHat rY)).gameState.players,
            q = ServerPlayer.new id (autoBalance s.gameState.players) rSkin rHat rY ∨
              q ∈ s.gameState.players := fun q hq => (mem_players_spec.1) hq
        refine ⟨fun q hq => ?_, fun b hb => List.mem_append_left _ (h2 b hb), h3, fun b hb => ?_,
          fun q hq hball => ?_⟩
        · rcases hmem q hq with rfl | hq'
          · exact List.mem_append_right _ (List.mem_singleton.mpr rfl)
          · exact List.mem_append_left _ (h1 q hq')
        · obtain ⟨k, hk, hown⟩ := h4 b hb
          refine ⟨k, hk, fun q hq hid => ?_⟩
          rcases hmem q hq with rfl | hq'
          · have hid' : id = b.ownerId := hid
            exact absurd (hid' ▸ h2 b hb) hfresh
          · exact hown q hq' hid
        · rcases hmem q hq with rfl | hq'
          · rfl
          · exact h5 q hq' hball
      cases a with
      | connect id rSkin rHat rY =>
        exact connect_ownersOk s id rSkin rHat rY used h
          (hfresh id (by simp [connectIds]))
      | input id data =>
        simp only [connectIds, List.append_nil]
        exact input_ownersOk s id data used hkeys h
      | disconnect id =>
        simp only [connectIds, List.append_nil]
        refine ownersOk_of_players s _ used rfl (fun q hq => ?_) h
        exact ⟨q, List.mem_of_mem_filter hq, rfl, rfl, rfl⟩
      | tick =>
        simp only [connectIds, List.append_nil]
        exact tick_ownersOk s used h
      | thaw k =>
        simp only [connectIds, List.append_nil]
        refine ownersOk_of_players s _ used ?_ (fun q hq => ?_) h
        · simp only [step, fireThaw]
          split
          · rfl
          · simp only [thawCallback]
            split <;> rfl
        · simp only [step, fireThaw] at hq
          split at hq
          · exact ⟨q, hq, rfl, rfl, rfl⟩
          · simp only [thawCallback] at hq
            split at hq
            · exact ⟨q, hq, rfl, rfl, rfl⟩
            · rcases (mem_players_spec.2) hq with hq | ⟨p, hp, _, rfl⟩
              · exact ⟨q, hq, rfl, rfl, rfl⟩
              · exact ⟨p, hp, rfl, rfl, rfl⟩
    have connectIds_append : ∀ (l1 l2 : List Action),
        connectIds (l1 ++ l2) = connectIds l1 ++ connectIds l2 := by
      intro l1 l2
      induction l1 with
      | nil => rfl
      | cons a as ih => cases a <;> simp [connectIds, ih]
    induction actions using List.reverseRecOn with
    | nil =>
      exact ⟨fun _ h => absurd h (List.not_mem_nil _), fun _ h => absurd h (List.not_mem_nil _),
        List.nodup_nil, fun _ h => absurd h (List.not_mem_nil _),
        fun _ h => absurd h (List.not_mem_nil _)⟩
    | append_singleton as a ih =>
      rw [connectIds_append, List.nodup_append] at hfresh
      rw [run_snoc, connectIds_append]
      exact step_ownersOk _ a _ (run_keys obstacles as) (ih hfresh.1)
        (fun id hid hused => hfresh.2.2 hused hid)
  obtain ⟨_, h2, h3, _, _⟩ := run_ownersOk obstacles actions hfresh
  refine ⟨h3, fun id => List.nodup_iff_count_le_one.mp h3 id, ?_⟩
  have hsub : (run obstacles actions).gameState.snowballs.map (fun b => b.ownerId) ⊆
      connectIds actions := by
    intro o ho
    obtain ⟨b, hb, rfl⟩ := List.mem_map.mp ho
    exact h2 b hb
  have := (List.subperm_of_subset h3 hsub).length_le
  rwa [List.length_map] at this

/-! ### The two embeddings agree on messages whose `moveX`, `moveY` are numbers -/

/-- Witness of C20: `a` connects and floods `throwRelease`. -/
theorem C20_one_projectile_per_owner_witness :
    (run [] [Action.connect "a" 0 0 0, Action.input "a" throwNow,
        Action.input "a" throwNow]).gameState.snowballs.length ≤
      (connectIds [Action.connect "a" 0 0 0, Action.input "a" throwNow,
        Action.input "a" throwNow]).length :=
  (C20_one_projectile_per_owner []
    [Action.connect "a" 0 0 0, Action.input "a" throwNow, Action.input "a" throwNow]
    (by simp [connectIds])).2.2

end

end SnowFight
